import Mathlib

/-!
# videoprocessor: device ingestion pipeline and log broadcaster

A shallow embedding of `src/backend/sdcard.go`, `src/backend/main.go` and, of
`src/backend/web.go`, the functions `verifyFileExists`, `loadConfig` and
`UpdateConfig`.  The process-wide variables of the Go
program (`processedDevices`, `sdCardMappings`, `ignoredExtensions`) and the
parts of the operating system the pipeline touches (directory listings, mount
table, outcome of external commands) are the fields of one explicit `World`
value that every operation takes and returns.  Everything the program does
that an observer can see (log lines, external commands, function invocations)
is appended to `World.trace`.

Modelling conventions:

* Go loops over slices are structural recursions over lists; a `range` over a
  map runs over the list of its keys (Go leaves the order unspecified).
* The outcome of an external command depends on its command line only
  (`World.failing`); in addition `mountpoint -q` fails on a mount point with
  no device mounted and `find` fails on a path that does not exist.  A
  successful `cp`, `ffmpeg`, `find`, `mount` or `umount` has its effect on
  `World.dirs` / `World.mounted`.
* Paths are joined with `/` (`filepath.Join` on clean components).  A string is
  a sequence of runes (valid UTF-8); `strings.ToLower` lower-cases every rune
  as `unicode.ToLower` does, with the case table of the Go library written
  out as `lowerRanges`.
* Log lines are recorded as format string and arguments; the time stamp and
  the operating-system error texts interpolated by `%v` are left out.
* The configuration file is represented by the `Config` its content decodes
  to (or by the fact that decoding fails), and the time-zone database by the
  list of names `time.LoadLocation` accepts; the four configuration variables
  are a `Snapshot` of their own.
* A goroutine started by `main` is a function `lifecycleTask` applied to the
  world at the moment it runs; `afterPoll` and `pollRound` run the goroutines
  of a poll before the next poll, which comes five seconds later.
-/

namespace VideoProcessor

/-! ## Data model -/

/-- SDCard is the per-label ingestion profile (`type SDCard` in sdcard.go). -/
structure SDCard where
  Name : String
  SourceDirs : List String
  Destination : String
deriving DecidableEq, Repr

/-- One entry of a directory listing, as returned by `os.ReadDir`:
`file.Name()` and `file.IsDir()`. -/
structure DirEntry where
  name : String
  isDir : Bool
deriving DecidableEq, Repr

/-- An error value built by `fmt.Errorf`: the format string and the path
arguments known to the program.  The operating-system error text and captured
command output that `%v` interpolates are data of the environment and are not
represented. -/
structure GoError where
  format : String
  args : List String
deriving DecidableEq, Repr

/-- Observable actions of the program, in the order they happen. -/
inductive Event where
  /-- A call `logReceiver.Log(format, args...)` (the time stamp is left out). -/
  | log (format : String) (args : List String)
  /-- A call `logReceiver.Log("%v", err)`. -/
  | logErr (err : GoError)
  /-- An external process started by `exec.Command(argv...)` and waited for. -/
  | exec (argv : List String)
  /-- Entry into the named function of sdcard.go with its label, card name or
  path.  The name `verify` stands for the verification loop of `processSDCard`
  (sdcard.go lines 302-320), which is not a function of its own. -/
  | call (fn : String) (arg : String)
  /-- The call `time.Sleep(2 * time.Second)` of `clearSDCard`. -/
  | sleep
deriving DecidableEq, Repr

/-- The global variables of the program together with the observable state of
the host it runs on. -/
structure World where
  /-- Keys of `var processedDevices map[string]bool` (only `true` is ever stored). -/
  processedDevices : List String
  /-- Variable `sdCardMappings map[string]SDCard`, as an association list. -/
  sdCardMappings : List (String × SDCard)
  /-- Variable `ignoredExtensions []string`. -/
  ignoredExtensions : List String
  /-- Existing directories with their listing (`os.ReadDir`), keyed by path. -/
  dirs : List (String × List DirEntry)
  /-- Existing directories whose listing fails with an error. -/
  unreadable : List String
  /-- Mount points at which a device is currently mounted. -/
  mounted : List String
  /-- External command lines that exit with a failure status. -/
  failing : List (List String)
  /-- Paths that `os.MkdirAll` cannot create (it returns an error for them
  unless the directory exists already). -/
  mkdirFailing : List String
  /-- Everything observable done so far, oldest first. -/
  trace : List Event
deriving DecidableEq, Repr

/-! ## String and path helpers (Go standard library) -/

/-- The lower-case ranges of the Unicode case table above ASCII (the content of
`unicode.CaseRanges` of the Go library: the simple lower-case mapping of the
Unicode character database, here of version 14.0).  An entry
`(lo, hi, step, target)` sends the runes `lo, lo + step, ..., hi` to
`target, target + step, ...`. -/
def lowerRanges : List (Nat × Nat × Nat × Nat) := [
  (0x00C0, 0x00D6, 1, 0x00E0), (0x00D8, 0x00DE, 1, 0x00F8), (0x0100, 0x012E, 2, 0x0101), (0x0130, 0x0130, 1, 0x0069),
  (0x0132, 0x0136, 2, 0x0133), (0x0139, 0x0147, 2, 0x013A), (0x014A, 0x0176, 2, 0x014B), (0x0178, 0x0178, 1, 0x00FF),
  (0x0179, 0x017D, 2, 0x017A), (0x0181, 0x0181, 1, 0x0253), (0x0182, 0x0184, 2, 0x0183), (0x0186, 0x0186, 1, 0x0254),
  (0x0187, 0x0187, 1, 0x0188), (0x0189, 0x018A, 1, 0x0256), (0x018B, 0x018B, 1, 0x018C), (0x018E, 0x018E, 1, 0x01DD),
  (0x018F, 0x018F, 1, 0x0259), (0x0190, 0x0190, 1, 0x025B), (0x0191, 0x0191, 1, 0x0192), (0x0193, 0x0193, 1, 0x0260),
  (0x0194, 0x0194, 1, 0x0263), (0x0196, 0x0196, 1, 0x0269), (0x0197, 0x0197, 1, 0x0268), (0x0198, 0x0198, 1, 0x0199),
  (0x019C, 0x019C, 1, 0x026F), (0x019D, 0x019D, 1, 0x0272), (0x019F, 0x019F, 1, 0x0275), (0x01A0, 0x01A4, 2, 0x01A1),
  (0x01A6, 0x01A6, 1, 0x0280), (0x01A7, 0x01A7, 1, 0x01A8), (0x01A9, 0x01A9, 1, 0x0283), (0x01AC, 0x01AC, 1, 0x01AD),
  (0x01AE, 0x01AE, 1, 0x0288), (0x01AF, 0x01AF, 1, 0x01B0), (0x01B1, 0x01B2, 1, 0x028A), (0x01B3, 0x01B5, 2, 0x01B4),
  (0x01B7, 0x01B7, 1, 0x0292), (0x01B8, 0x01B8, 1, 0x01B9), (0x01BC, 0x01BC, 1, 0x01BD), (0x01C4, 0x01C4, 1, 0x01C6),
  (0x01C5, 0x01C5, 1, 0x01C6), (0x01C7, 0x01C7, 1, 0x01C9), (0x01C8, 0x01C8, 1, 0x01C9), (0x01CA, 0x01CA, 1, 0x01CC),
  (0x01CB, 0x01DB, 2, 0x01CC), (0x01DE, 0x01EE, 2, 0x01DF), (0x01F1, 0x01F1, 1, 0x01F3), (0x01F2, 0x01F4, 2, 0x01F3),
  (0x01F6, 0x01F6, 1, 0x0195), (0x01F7, 0x01F7, 1, 0x01BF), (0x01F8, 0x021E, 2, 0x01F9), (0x0220, 0x0220, 1, 0x019E),
  (0x0222, 0x0232, 2, 0x0223), (0x023A, 0x023A, 1, 0x2C65), (0x023B, 0x023B, 1, 0x023C), (0x023D, 0x023D, 1, 0x019A),
  (0x023E, 0x023E, 1, 0x2C66), (0x0241, 0x0241, 1, 0x0242), (0x0243, 0x0243, 1, 0x0180), (0x0244, 0x0244, 1, 0x0289),
  (0x0245, 0x0245, 1, 0x028C), (0x0246, 0x024E, 2, 0x0247), (0x0370, 0x0372, 2, 0x0371), (0x0376, 0x0376, 1, 0x0377),
  (0x037F, 0x037F, 1, 0x03F3), (0x0386, 0x0386, 1, 0x03AC), (0x0388, 0x038A, 1, 0x03AD), (0x038C, 0x038C, 1, 0x03CC),
  (0x038E, 0x038F, 1, 0x03CD), (0x0391, 0x03A1, 1, 0x03B1), (0x03A3, 0x03AB, 1, 0x03C3), (0x03CF, 0x03CF, 1, 0x03D7),
  (0x03D8, 0x03EE, 2, 0x03D9), (0x03F4, 0x03F4, 1, 0x03B8), (0x03F7, 0x03F7, 1, 0x03F8), (0x03F9, 0x03F9, 1, 0x03F2),
  (0x03FA, 0x03FA, 1, 0x03FB), (0x03FD, 0x03FF, 1, 0x037B), (0x0400, 0x040F, 1, 0x0450), (0x0410, 0x042F, 1, 0x0430),
  (0x0460, 0x0480, 2, 0x0461), (0x048A, 0x04BE, 2, 0x048B), (0x04C0, 0x04C0, 1, 0x04CF), (0x04C1, 0x04CD, 2, 0x04C2),
  (0x04D0, 0x052E, 2, 0x04D1), (0x0531, 0x0556, 1, 0x0561), (0x10A0, 0x10C5, 1, 0x2D00), (0x10C7, 0x10C7, 1, 0x2D27),
  (0x10CD, 0x10CD, 1, 0x2D2D), (0x13A0, 0x13EF, 1, 0xAB70), (0x13F0, 0x13F5, 1, 0x13F8), (0x1C90, 0x1CBA, 1, 0x10D0),
  (0x1CBD, 0x1CBF, 1, 0x10FD), (0x1E00, 0x1E94, 2, 0x1E01), (0x1E9E, 0x1E9E, 1, 0x00DF), (0x1EA0, 0x1EFE, 2, 0x1EA1),
  (0x1F08, 0x1F0F, 1, 0x1F00), (0x1F18, 0x1F1D, 1, 0x1F10), (0x1F28, 0x1F2F, 1, 0x1F20), (0x1F38, 0x1F3F, 1, 0x1F30),
  (0x1F48, 0x1F4D, 1, 0x1F40), (0x1F59, 0x1F5F, 2, 0x1F51), (0x1F68, 0x1F6F, 1, 0x1F60), (0x1F88, 0x1F8F, 1, 0x1F80),
  (0x1F98, 0x1F9F, 1, 0x1F90), (0x1FA8, 0x1FAF, 1, 0x1FA0), (0x1FB8, 0x1FB9, 1, 0x1FB0), (0x1FBA, 0x1FBB, 1, 0x1F70),
  (0x1FBC, 0x1FBC, 1, 0x1FB3), (0x1FC8, 0x1FCB, 1, 0x1F72), (0x1FCC, 0x1FCC, 1, 0x1FC3), (0x1FD8, 0x1FD9, 1, 0x1FD0),
  (0x1FDA, 0x1FDB, 1, 0x1F76), (0x1FE8, 0x1FE9, 1, 0x1FE0), (0x1FEA, 0x1FEB, 1, 0x1F7A), (0x1FEC, 0x1FEC, 1, 0x1FE5),
  (0x1FF8, 0x1FF9, 1, 0x1F78), (0x1FFA, 0x1FFB, 1, 0x1F7C), (0x1FFC, 0x1FFC, 1, 0x1FF3), (0x2126, 0x2126, 1, 0x03C9),
  (0x212A, 0x212A, 1, 0x006B), (0x212B, 0x212B, 1, 0x00E5), (0x2132, 0x2132, 1, 0x214E), (0x2160, 0x216F, 1, 0x2170),
  (0x2183, 0x2183, 1, 0x2184), (0x24B6, 0x24CF, 1, 0x24D0), (0x2C00, 0x2C2F, 1, 0x2C30), (0x2C60, 0x2C60, 1, 0x2C61),
  (0x2C62, 0x2C62, 1, 0x026B), (0x2C63, 0x2C63, 1, 0x1D7D), (0x2C64, 0x2C64, 1, 0x027D), (0x2C67, 0x2C6B, 2, 0x2C68),
  (0x2C6D, 0x2C6D, 1, 0x0251), (0x2C6E, 0x2C6E, 1, 0x0271), (0x2C6F, 0x2C6F, 1, 0x0250), (0x2C70, 0x2C70, 1, 0x0252),
  (0x2C72, 0x2C72, 1, 0x2C73), (0x2C75, 0x2C75, 1, 0x2C76), (0x2C7E, 0x2C7F, 1, 0x023F), (0x2C80, 0x2CE2, 2, 0x2C81),
  (0x2CEB, 0x2CED, 2, 0x2CEC), (0x2CF2, 0x2CF2, 1, 0x2CF3), (0xA640, 0xA66C, 2, 0xA641), (0xA680, 0xA69A, 2, 0xA681),
  (0xA722, 0xA72E, 2, 0xA723), (0xA732, 0xA76E, 2, 0xA733), (0xA779, 0xA77B, 2, 0xA77A), (0xA77D, 0xA77D, 1, 0x1D79),
  (0xA77E, 0xA786, 2, 0xA77F), (0xA78B, 0xA78B, 1, 0xA78C), (0xA78D, 0xA78D, 1, 0x0265), (0xA790, 0xA792, 2, 0xA791),
  (0xA796, 0xA7A8, 2, 0xA797), (0xA7AA, 0xA7AA, 1, 0x0266), (0xA7AB, 0xA7AB, 1, 0x025C), (0xA7AC, 0xA7AC, 1, 0x0261),
  (0xA7AD, 0xA7AD, 1, 0x026C), (0xA7AE, 0xA7AE, 1, 0x026A), (0xA7B0, 0xA7B0, 1, 0x029E), (0xA7B1, 0xA7B1, 1, 0x0287),
  (0xA7B2, 0xA7B2, 1, 0x029D), (0xA7B3, 0xA7B3, 1, 0xAB53), (0xA7B4, 0xA7C2, 2, 0xA7B5), (0xA7C4, 0xA7C4, 1, 0xA794),
  (0xA7C5, 0xA7C5, 1, 0x0282), (0xA7C6, 0xA7C6, 1, 0x1D8E), (0xA7C7, 0xA7C9, 2, 0xA7C8), (0xA7D0, 0xA7D0, 1, 0xA7D1),
  (0xA7D6, 0xA7D8, 2, 0xA7D7), (0xA7F5, 0xA7F5, 1, 0xA7F6), (0xFF21, 0xFF3A, 1, 0xFF41), (0x10400, 0x10427, 1, 0x10428),
  (0x104B0, 0x104D3, 1, 0x104D8), (0x10570, 0x1057A, 1, 0x10597), (0x1057C, 0x1058A, 1, 0x105A3), (0x1058C, 0x10592, 1, 0x105B3),
  (0x10594, 0x10595, 1, 0x105BB), (0x10C80, 0x10CB2, 1, 0x10CC0), (0x118A0, 0x118BF, 1, 0x118C0), (0x16E40, 0x16E5F, 1, 0x16E60),
  (0x1E900, 0x1E921, 1, 0x1E922)]

/-- The upper-case ranges of the Unicode case table above ASCII, in the format of
`lowerRanges`. -/
def upperRanges : List (Nat × Nat × Nat × Nat) := [
  (0x00B5, 0x00B5, 1, 0x039C), (0x00E0, 0x00F6, 1, 0x00C0), (0x00F8, 0x00FE, 1, 0x00D8), (0x00FF, 0x00FF, 1, 0x0178),
  (0x0101, 0x012F, 2, 0x0100), (0x0131, 0x0131, 1, 0x0049), (0x0133, 0x0137, 2, 0x0132), (0x013A, 0x0148, 2, 0x0139),
  (0x014B, 0x0177, 2, 0x014A), (0x017A, 0x017E, 2, 0x0179), (0x017F, 0x017F, 1, 0x0053), (0x0180, 0x0180, 1, 0x0243),
  (0x0183, 0x0185, 2, 0x0182), (0x0188, 0x0188, 1, 0x0187), (0x018C, 0x018C, 1, 0x018B), (0x0192, 0x0192, 1, 0x0191),
  (0x0195, 0x0195, 1, 0x01F6), (0x0199, 0x0199, 1, 0x0198), (0x019A, 0x019A, 1, 0x023D), (0x019E, 0x019E, 1, 0x0220),
  (0x01A1, 0x01A5, 2, 0x01A0), (0x01A8, 0x01A8, 1, 0x01A7), (0x01AD, 0x01AD, 1, 0x01AC), (0x01B0, 0x01B0, 1, 0x01AF),
  (0x01B4, 0x01B6, 2, 0x01B3), (0x01B9, 0x01B9, 1, 0x01B8), (0x01BD, 0x01BD, 1, 0x01BC), (0x01BF, 0x01BF, 1, 0x01F7),
  (0x01C5, 0x01C5, 1, 0x01C4), (0x01C6, 0x01C6, 1, 0x01C4), (0x01C8, 0x01C8, 1, 0x01C7), (0x01C9, 0x01C9, 1, 0x01C7),
  (0x01CB, 0x01CB, 1, 0x01CA), (0x01CC, 0x01CC, 1, 0x01CA), (0x01CE, 0x01DC, 2, 0x01CD), (0x01DD, 0x01DD, 1, 0x018E),
  (0x01DF, 0x01EF, 2, 0x01DE), (0x01F2, 0x01F2, 1, 0x01F1), (0x01F3, 0x01F3, 1, 0x01F1), (0x01F5, 0x01F5, 1, 0x01F4),
  (0x01F9, 0x021F, 2, 0x01F8), (0x0223, 0x0233, 2, 0x0222), (0x023C, 0x023C, 1, 0x023B), (0x023F, 0x0240, 1, 0x2C7E),
  (0x0242, 0x0242, 1, 0x0241), (0x0247, 0x024F, 2, 0x0246), (0x0250, 0x0250, 1, 0x2C6F), (0x0251, 0x0251, 1, 0x2C6D),
  (0x0252, 0x0252, 1, 0x2C70), (0x0253, 0x0253, 1, 0x0181), (0x0254, 0x0254, 1, 0x0186), (0x0256, 0x0257, 1, 0x0189),
  (0x0259, 0x0259, 1, 0x018F), (0x025B, 0x025B, 1, 0x0190), (0x025C, 0x025C, 1, 0xA7AB), (0x0260, 0x0260, 1, 0x0193),
  (0x0261, 0x0261, 1, 0xA7AC), (0x0263, 0x0263, 1, 0x0194), (0x0265, 0x0265, 1, 0xA78D), (0x0266, 0x0266, 1, 0xA7AA),
  (0x0268, 0x0268, 1, 0x0197), (0x0269, 0x0269, 1, 0x0196), (0x026A, 0x026A, 1, 0xA7AE), (0x026B, 0x026B, 1, 0x2C62),
  (0x026C, 0x026C, 1, 0xA7AD), (0x026F, 0x026F, 1, 0x019C), (0x0271, 0x0271, 1, 0x2C6E), (0x0272, 0x0272, 1, 0x019D),
  (0x0275, 0x0275, 1, 0x019F), (0x027D, 0x027D, 1, 0x2C64), (0x0280, 0x0280, 1, 0x01A6), (0x0282, 0x0282, 1, 0xA7C5),
  (0x0283, 0x0283, 1, 0x01A9), (0x0287, 0x0287, 1, 0xA7B1), (0x0288, 0x0288, 1, 0x01AE), (0x0289, 0x0289, 1, 0x0244),
  (0x028A, 0x028B, 1, 0x01B1), (0x028C, 0x028C, 1, 0x0245), (0x0292, 0x0292, 1, 0x01B7), (0x029D, 0x029D, 1, 0xA7B2),
  (0x029E, 0x029E, 1, 0xA7B0), (0x0345, 0x0345, 1, 0x0399), (0x0371, 0x0373, 2, 0x0370), (0x0377, 0x0377, 1, 0x0376),
  (0x037B, 0x037D, 1, 0x03FD), (0x03AC, 0x03AC, 1, 0x0386), (0x03AD, 0x03AF, 1, 0x0388), (0x03B1, 0x03C1, 1, 0x0391),
  (0x03C2, 0x03C2, 1, 0x03A3), (0x03C3, 0x03CB, 1, 0x03A3), (0x03CC, 0x03CC, 1, 0x038C), (0x03CD, 0x03CE, 1, 0x038E),
  (0x03D0, 0x03D0, 1, 0x0392), (0x03D1, 0x03D1, 1, 0x0398), (0x03D5, 0x03D5, 1, 0x03A6), (0x03D6, 0x03D6, 1, 0x03A0),
  (0x03D7, 0x03D7, 1, 0x03CF), (0x03D9, 0x03EF, 2, 0x03D8), (0x03F0, 0x03F0, 1, 0x039A), (0x03F1, 0x03F1, 1, 0x03A1),
  (0x03F2, 0x03F2, 1, 0x03F9), (0x03F3, 0x03F3, 1, 0x037F), (0x03F5, 0x03F5, 1, 0x0395), (0x03F8, 0x03F8, 1, 0x03F7),
  (0x03FB, 0x03FB, 1, 0x03FA), (0x0430, 0x044F, 1, 0x0410), (0x0450, 0x045F, 1, 0x0400), (0x0461, 0x0481, 2, 0x0460),
  (0x048B, 0x04BF, 2, 0x048A), (0x04C2, 0x04CE, 2, 0x04C1), (0x04CF, 0x04CF, 1, 0x04C0), (0x04D1, 0x052F, 2, 0x04D0),
  (0x0561, 0x0586, 1, 0x0531), (0x10D0, 0x10FA, 1, 0x1C90), (0x10FD, 0x10FF, 1, 0x1CBD), (0x13F8, 0x13FD, 1, 0x13F0),
  (0x1C80, 0x1C80, 1, 0x0412), (0x1C81, 0x1C81, 1, 0x0414), (0x1C82, 0x1C82, 1, 0x041E), (0x1C83, 0x1C84, 1, 0x0421),
  (0x1C85, 0x1C85, 1, 0x0422), (0x1C86, 0x1C86, 1, 0x042A), (0x1C87, 0x1C87, 1, 0x0462), (0x1C88, 0x1C88, 1, 0xA64A),
  (0x1D79, 0x1D79, 1, 0xA77D), (0x1D7D, 0x1D7D, 1, 0x2C63), (0x1D8E, 0x1D8E, 1, 0xA7C6), (0x1E01, 0x1E95, 2, 0x1E00),
  (0x1E9B, 0x1E9B, 1, 0x1E60), (0x1EA1, 0x1EFF, 2, 0x1EA0), (0x1F00, 0x1F07, 1, 0x1F08), (0x1F10, 0x1F15, 1, 0x1F18),
  (0x1F20, 0x1F27, 1, 0x1F28), (0x1F30, 0x1F37, 1, 0x1F38), (0x1F40, 0x1F45, 1, 0x1F48), (0x1F51, 0x1F57, 2, 0x1F59),
  (0x1F60, 0x1F67, 1, 0x1F68), (0x1F70, 0x1F71, 1, 0x1FBA), (0x1F72, 0x1F75, 1, 0x1FC8), (0x1F76, 0x1F77, 1, 0x1FDA),
  (0x1F78, 0x1F79, 1, 0x1FF8), (0x1F7A, 0x1F7B, 1, 0x1FEA), (0x1F7C, 0x1F7D, 1, 0x1FFA), (0x1F80, 0x1F87, 1, 0x1F88),
  (0x1F90, 0x1F97, 1, 0x1F98), (0x1FA0, 0x1FA7, 1, 0x1FA8), (0x1FB0, 0x1FB1, 1, 0x1FB8), (0x1FB3, 0x1FB3, 1, 0x1FBC),
  (0x1FBE, 0x1FBE, 1, 0x0399), (0x1FC3, 0x1FC3, 1, 0x1FCC), (0x1FD0, 0x1FD1, 1, 0x1FD8), (0x1FE0, 0x1FE1, 1, 0x1FE8),
  (0x1FE5, 0x1FE5, 1, 0x1FEC), (0x1FF3, 0x1FF3, 1, 0x1FFC), (0x214E, 0x214E, 1, 0x2132), (0x2170, 0x217F, 1, 0x2160),
  (0x2184, 0x2184, 1, 0x2183), (0x24D0, 0x24E9, 1, 0x24B6), (0x2C30, 0x2C5F, 1, 0x2C00), (0x2C61, 0x2C61, 1, 0x2C60),
  (0x2C65, 0x2C65, 1, 0x023A), (0x2C66, 0x2C66, 1, 0x023E), (0x2C68, 0x2C6C, 2, 0x2C67), (0x2C73, 0x2C73, 1, 0x2C72),
  (0x2C76, 0x2C76, 1, 0x2C75), (0x2C81, 0x2CE3, 2, 0x2C80), (0x2CEC, 0x2CEE, 2, 0x2CEB), (0x2CF3, 0x2CF3, 1, 0x2CF2),
  (0x2D00, 0x2D25, 1, 0x10A0), (0x2D27, 0x2D27, 1, 0x10C7), (0x2D2D, 0x2D2D, 1, 0x10CD), (0xA641, 0xA66D, 2, 0xA640),
  (0xA681, 0xA69B, 2, 0xA680), (0xA723, 0xA72F, 2, 0xA722), (0xA733, 0xA76F, 2, 0xA732), (0xA77A, 0xA77C, 2, 0xA779),
  (0xA77F, 0xA787, 2, 0xA77E), (0xA78C, 0xA78C, 1, 0xA78B), (0xA791, 0xA793, 2, 0xA790), (0xA794, 0xA794, 1, 0xA7C4),
  (0xA797, 0xA7A9, 2, 0xA796), (0xA7B5, 0xA7C3, 2, 0xA7B4), (0xA7C8, 0xA7CA, 2, 0xA7C7), (0xA7D1, 0xA7D1, 1, 0xA7D0),
  (0xA7D7, 0xA7D9, 2, 0xA7D6), (0xA7F6, 0xA7F6, 1, 0xA7F5), (0xAB53, 0xAB53, 1, 0xA7B3), (0xAB70, 0xABBF, 1, 0x13A0),
  (0xFF41, 0xFF5A, 1, 0xFF21), (0x10428, 0x1044F, 1, 0x10400), (0x104D8, 0x104FB, 1, 0x104B0), (0x10597, 0x105A1, 1, 0x10570),
  (0x105A3, 0x105B1, 1, 0x1057C), (0x105B3, 0x105B9, 1, 0x1058C), (0x105BB, 0x105BC, 1, 0x10594), (0x10CC0, 0x10CF2, 1, 0x10C80),
  (0x118C0, 0x118DF, 1, 0x118A0), (0x16E60, 0x16E7F, 1, 0x16E40), (0x1E922, 0x1E943, 1, 0x1E900)]

/-- Looks a rune up in a list of case ranges; a rune in no range is unchanged. -/
def mapRune (ranges : List (Nat × Nat × Nat × Nat)) (c : Char) : Char :=
  match ranges.find? (fun r =>
      decide (r.1 ≤ c.toNat) && decide (c.toNat ≤ r.2.1) && (c.toNat - r.1) % r.2.2.1 == 0) with
  | some r => Char.ofNat (r.2.2.2 + (c.toNat - r.1))
  | none => c

/-- The function `unicode.ToLower`: ASCII runes directly, the others through the
case table. -/
def lowerRune (c : Char) : Char :=
  if c.toNat < 128 then Char.toLower c else mapRune lowerRanges c

/-- The function `unicode.ToUpper`. -/
def upperRune (c : Char) : Char :=
  if c.toNat < 128 then Char.toUpper c else mapRune upperRanges c

/-- The function `strings.ToLower`: every rune of the string is lower-cased. -/
def toLower (s : String) : String := ⟨s.data.map lowerRune⟩

/-- The function `strings.ToUpper`: every rune of the string is upper-cased. -/
def toUpper (s : String) : String := ⟨s.data.map upperRune⟩

/-- Suffix test as in `strings.HasSuffix`. -/
def hasSuffix (s suffix : String) : Bool := suffix.data.isSuffixOf s.data

/-- Suffix removal as in `strings.TrimSuffix`: `s` without the trailing
`suffix`, or `s` itself when it does not end with `suffix`. -/
def trimSuffix (s suffix : String) : String :=
  if hasSuffix s suffix then ⟨s.data.take (s.data.length - suffix.data.length)⟩ else s

/-- Path concatenation as in `filepath.Join(dir, name)` for a clean `dir` and a
plain entry name. -/
def pathJoin (dir name : String) : String := dir ++ "/" ++ name

/-- The directory of a source sub-directory on the mounted device:
`filepath.Join("/media/videoserver", name, sourceDir)`. -/
def sdCardPath (name sourceDir : String) : String :=
  pathJoin (pathJoin "/media/videoserver" name) sourceDir

/-- The mount point of a label: `filepath.Join("/media/videoserver", label)`. -/
def mountPoint (label : String) : String := pathJoin "/media/videoserver" label

/-! ## Operating-system primitives on the world -/

namespace World

/-- Append one observable action. -/
def emit (w : World) (e : Event) : World := { w with trace := w.trace ++ [e] }

/-- The call `logReceiver.Log(format, args...)`. -/
def log (w : World) (format : String) (args : List String) : World :=
  w.emit (.log format args)

/-- The call `logReceiver.Log("%v", err)`. -/
def logErr (w : World) (err : GoError) : World := w.emit (.logErr err)

/-- The listing `os.ReadDir(path)`: `none` is an error. -/
def readDir (w : World) (path : String) : Option (List DirEntry) :=
  if path ∈ w.unreadable then none else w.dirs.lookup path

/-- Whether `os.Stat(path)` succeeds: the path is an existing directory or an
entry of the listing of an existing directory. -/
def statOk (w : World) (path : String) : Bool :=
  (w.dirs.lookup path).isSome ||
    w.dirs.any (fun d => d.2.any (fun e => pathJoin d.1 e.name == path))

/-- The call `os.MkdirAll(path, 0777)`: nothing to do for an existing
directory; otherwise the directory is made (with an empty listing), unless
making it fails. -/
def mkdirAll (w : World) (path : String) : Bool × World :=
  if (w.dirs.lookup path).isSome then (true, w)
  else if path ∈ w.mkdirFailing then (false, w)
  else (true, { w with dirs := w.dirs ++ [(path, [])] })

/-- Add an entry to the listing of an existing directory, unless an entry of
that name is already there. -/
def addEntry (w : World) (dir : String) (e : DirEntry) : World :=
  { w with dirs := w.dirs.map (fun d =>
      if d.1 == dir && !(d.2.any (fun x => x.name == e.name)) then (d.1, d.2 ++ [e]) else d) }

/-- The call `os.MkdirAll(filepath.Join(dir, name), 0777)` for a child of an
existing directory: on success the child is also listed in `dir`. -/
def mkdirChild (w : World) (dir name : String) : Bool × World :=
  match w.mkdirAll (pathJoin dir name) with
  | (false, w1) => (false, w1)
  | (true, w1) => (true, w1.addEntry dir ⟨name, true⟩)

/-- Empty a directory: its listing becomes empty and every directory below it
is gone (the effect of `find path -mindepth 1 -delete`). -/
def clearDir (w : World) (path : String) : World :=
  let kept := w.dirs.filter (fun d => !(List.isPrefixOf (path ++ "/").data d.1.data))
  { w with dirs := kept.map (fun d => if d.1 == path then (d.1, []) else d) }

/-- Run an external command to completion: `true` when it exits successfully.
The effect of a successful command on the file system is applied by the
caller. -/
def exec (w : World) (argv : List String) : Bool × World :=
  (!(argv ∈ w.failing), w.emit (.exec argv))

end World

/-! ## sdcard.go -/

/-- The function `shouldIgnoreFile`: some configured extension, lower-cased, is
a suffix of the lower-cased name. -/
def shouldIgnoreFile (w : World) (fileName : String) : Bool :=
  w.ignoredExtensions.any (fun ext => hasSuffix (toLower fileName) (toLower ext))

/-- The destination file name computed in `copyFiles` (lines 91-96). -/
def destinationFileName (fileName : String) : String :=
  if hasSuffix (toLower fileName) ".insv" then trimSuffix fileName ".insv" ++ ".mp4"
  else fileName

/-- The inner loop of `copyFiles` (lines 80-107) over the entries of one source
directory.  Result: world, `filesCopied`, error. -/
def copyDirFiles (sd : SDCard) (srcDir : String) :
    List DirEntry → World → Bool → World × Bool × Option GoError
  | [], w, filesCopied => (w, filesCopied, none)
  | file :: rest, w, filesCopied =>
    if file.isDir then copyDirFiles sd srcDir rest w filesCopied
    else if shouldIgnoreFile w file.name then
      copyDirFiles sd srcDir rest (w.log "Ignoring file: %s" [file.name]) filesCopied
    else
      let sourceFilePath := pathJoin srcDir file.name
      let destinationFilePath := pathJoin sd.Destination (destinationFileName file.name)
      match w.exec ["cp", sourceFilePath, destinationFilePath] with
      | (false, w1) =>
        (w1, false, some ⟨"failed to copy file from %s to %s: %v\nOutput: %s",
          [sourceFilePath, destinationFilePath]⟩)
      | (true, w1) =>
        copyDirFiles sd srcDir rest
          ((w1.addEntry sd.Destination ⟨destinationFileName file.name, false⟩).log
            "Copied file: %s to %s" [sourceFilePath, destinationFilePath]) true

/-- The outer loop of `copyFiles` (lines 57-108) over the source directories. -/
def copySourceDirs (sd : SDCard) :
    List String → World → Bool → World × Bool × Option GoError
  | [], w, filesCopied => (w, filesCopied, none)
  | sourceDir :: rest, w, filesCopied =>
    let path := sdCardPath sd.Name sourceDir
    if !w.statOk path then
      copySourceDirs sd rest (w.log "Source directory does not exist: %s" [path]) filesCopied
    else
      match w.readDir path with
      | none => (w, false, some ⟨"failed to read directory %s: %v", [path]⟩)
      | some files =>
        let w1 := w.log "Files found in %s: %v" (path :: files.map DirEntry.name)
        match w1.mkdirAll sd.Destination with
        | (false, w2) => (w2, false, some ⟨"failed to create destination directory: %v", []⟩)
        | (true, w2) =>
          match copyDirFiles sd path files w2 filesCopied with
          | (w3, _, some err) => (w3, false, some err)
          | (w3, copied, none) => copySourceDirs sd rest w3 copied

/-- The function `copyFiles`. -/
def copyFiles (w : World) (sd : SDCard) : World × Bool × Option GoError :=
  copySourceDirs sd sd.SourceDirs (w.emit (.call "copyFiles" sd.Name)) false

/-- The ffmpeg command line of `createProxiesForDirectory` (lines 147-153). -/
def ffmpegArgv (originalFilePath proxyFilePath : String) : List String :=
  ["ffmpeg", "-i", originalFilePath, "-vf", "scale=-1:720",
   "-c:v", "libx264", "-preset", "fast", "-crf", "23",
   "-c:a", "aac", "-b:a", "128k", proxyFilePath]

/-- The loop of `createProxiesForDirectory` (lines 132-163) over the listing
taken before the loop. -/
def proxyLoop (directory proxyFolder : String) : List DirEntry → World → World
  | [], w => w
  | file :: rest, w =>
    if file.isDir then proxyLoop directory proxyFolder rest w
    else
      let originalFilePath := pathJoin directory file.name
      let proxyFilePath := pathJoin proxyFolder file.name
      if w.statOk proxyFilePath then proxyLoop directory proxyFolder rest w
      else if hasSuffix (toLower file.name) ".mp4" then
        match w.exec (ffmpegArgv originalFilePath proxyFilePath) with
        | (false, w1) =>
          proxyLoop directory proxyFolder rest
            (w1.log "Failed to create proxy for %s: %v\nOutput: %s" [originalFilePath])
        | (true, w1) =>
          proxyLoop directory proxyFolder rest
            ((w1.addEntry proxyFolder ⟨file.name, false⟩).log
              "Created proxy for %s" [originalFilePath])
      else
        proxyLoop directory proxyFolder rest
          (w.log "Skipping proxy creation for unsupported file: %s" [originalFilePath])

/-- The function `createProxiesForDirectory`. -/
def createProxiesForDirectory (w : World) (directory : String) : World × Option GoError :=
  let w0 := w.emit (.call "createProxiesForDirectory" directory)
  if w0.statOk directory then
    match w0.readDir directory with
    | none => (w0, some ⟨"failed to read directory %s: %v", [directory]⟩)
    | some files =>
      match w0.mkdirChild directory "Proxy" with
      | (false, w1) => (w1, some ⟨"failed to create Proxy folder: %v", []⟩)
      | (true, w1) => (proxyLoop directory (pathJoin directory "Proxy") files w1, none)
  else (w0, none)

/-- The function `createProxies`. -/
def createProxies (w : World) (sd : SDCard) : World × Option GoError :=
  createProxiesForDirectory (w.emit (.call "createProxies" sd.Name)) sd.Destination

/-- The loop and tail of `clearSDCard` (lines 170-179).  `find` fails on a path
that does not exist. -/
def clearLoop (sd : SDCard) : List String → World → World × Option GoError
  | [], w => (w.emit .sleep, none)
  | sourceDir :: rest, w =>
    let path := sdCardPath sd.Name sourceDir
    match w.exec ["find", path, "-mindepth", "1", "-delete"] with
    | (ok, w1) =>
      if ok && w1.statOk path then
        clearLoop sd rest
          ((w1.clearDir path).log "Cleared directory %s on SD card: %s" [sourceDir, sd.Name])
      else
        (w1, some ⟨"failed to clear directory %s on SD card: %s", [sourceDir, sd.Name]⟩)

/-- The function `clearSDCard`. -/
def clearSDCard (w : World) (sd : SDCard) : World × Option GoError :=
  clearLoop sd sd.SourceDirs (w.emit (.call "clearSDCard" sd.Name))

/-- The function `isMounted`.  `mountpoint -q` exits successfully when a device
is mounted at the mount point, unless its command line is among the failing
ones.  The error result is always nil. -/
def isMounted (w : World) (label : String) : World × Bool × Option GoError :=
  if !w.statOk (mountPoint label) then
    (w.log "Mount point does not exist: %s" [mountPoint label], false, none)
  else
    match w.exec ["mountpoint", "-q", mountPoint label] with
    | (ok, w1) =>
      if ok && decide (mountPoint label ∈ w1.mounted) then
        (w1.log "Device %s is mounted at %s" [label, mountPoint label], true, none)
      else
        (w1.log "Device %s is not mounted at %s" [label, mountPoint label], false, none)

/-- The function `mountDevice`. -/
def mountDevice (w : World) (label : String) : World × Option GoError :=
  let w0 := w.emit (.call "mountDevice" label)
  let devicePath := "/dev/disk/by-label/" ++ label
  match w0.mkdirAll (mountPoint label) with
  | (false, w1) => (w1, some ⟨"failed to create mount point %s: %v", [mountPoint label]⟩)
  | (true, w1) =>
    match w1.exec ["mount", devicePath, mountPoint label] with
    | (false, w2) =>
      (w2, some ⟨"failed to mount %s to %s: %v\nOutput: %s", [devicePath, mountPoint label]⟩)
    | (true, w2) =>
      ({ w2 with mounted := mountPoint label :: w2.mounted }.log
        "Successfully mounted device %s to %s" [devicePath, mountPoint label], none)

/-- The function `ejectSDCard`. -/
def ejectSDCard (w : World) (sd : SDCard) : World × Option GoError :=
  match isMounted (w.emit (.call "ejectSDCard" sd.Name)) sd.Name with
  | (w1, _, some err) =>
    (w1, some ⟨"error checking mount status for %s: %v", [sd.Name, err.format]⟩)
  | (w1, false, none) =>
    (w1.log "Device %s is not mounted. Skipping unmount." [sd.Name], none)
  | (w1, true, none) =>
    match w1.exec ["umount", mountPoint sd.Name] with
    | (false, w2) => (w2, some ⟨"failed to unmount %s: %v\nOutput: %s", [mountPoint sd.Name]⟩)
    | (true, w2) =>
      ({ w2 with mounted := w2.mounted.filter (fun m => m != mountPoint sd.Name) }.log
        "Successfully unmounted device %s" [mountPoint sd.Name], none)

/-- The function `verifyFileExists` of web.go. -/
def verifyFileExists (w : World) (filePath : String) : Bool := w.statOk filePath

/-- The inner verification loop of `processSDCard` (lines 311-319): `false`
when a file is missing and `processSDCard` returns. -/
def verifyDirFiles (sd : SDCard) : List DirEntry → World → World × Bool
  | [], w => (w, true)
  | file :: rest, w =>
    if !file.isDir then
      let destinationFilePath := pathJoin sd.Destination file.name
      if !verifyFileExists w destinationFilePath then
        (w.log "File %s not found at destination %s" [file.name, destinationFilePath], false)
      else verifyDirFiles sd rest w
    else verifyDirFiles sd rest w

/-- The outer verification loop of `processSDCard` (lines 303-320). -/
def verifySourceDirs (sd : SDCard) : List String → World → World × Bool
  | [], w => (w, true)
  | sourceDir :: rest, w =>
    let path := sdCardPath sd.Name sourceDir
    match w.readDir path with
    | none => verifySourceDirs sd rest (w.log "Error reading directory %s: %v" [path])
    | some files =>
      match verifyDirFiles sd files w with
      | (w1, false) => (w1, false)
      | (w1, true) => verifySourceDirs sd rest w1

/-- The end of `processSDCard` (lines 330-336). -/
def ejectAndFinish (w : World) (label : String) (sd : SDCard) : World :=
  match ejectSDCard w sd with
  | (w1, some err) => w1.logErr err
  | (w1, none) => w1.log "Finished processing SD card: %s" [label]

/-- The part of `processSDCard` from the copy step on (lines 288-336). -/
def processMounted (w : World) (label : String) (sd : SDCard) : World :=
  match copyFiles w sd with
  | (w1, _, some err) => w1.logErr err
  | (w1, false, none) =>
    ejectAndFinish
      (w1.log "No files copied from %s. Skipping proxy creation and clearing." [label]) label sd
  | (w1, true, none) =>
    match createProxies (w1.log "Files were copied from %s, creating proxies..." [label]) sd with
    | (w2, some err) => w2.logErr err
    | (w2, none) =>
      match verifySourceDirs sd sd.SourceDirs (w2.emit (.call "verify" sd.Name)) with
      | (w3, false) => w3
      | (w3, true) =>
        match clearSDCard w3 sd with
        | (w4, some err) => w4.logErr err
        | (w4, none) => ejectAndFinish w4 label sd

/-- The mount check and mount attempt of `processSDCard` (lines 266-286):
`true` when the pipeline goes on to the copy step. -/
def ensureMounted (w : World) (label : String) : World × Bool :=
  match isMounted w label with
  | (w1, _, some err) => (w1.logErr err, false)
  | (w1, true, none) => (w1, true)
  | (w1, false, none) =>
    match mountDevice w1 label with
    | (w2, some err) => (w2.log "Error mounting device %s: %v" [label, err.format], false)
    | (w2, none) =>
      match isMounted w2 label with
      | (w3, true, none) => (w3, true)
      | (w3, _, _) =>
        (w3.log "Failed to verify mount status for device %s after mounting attempt" [label],
          false)

/-- The marking step of `processSDCard` (lines 256-258): the label is entered
in `processedDevices`. -/
def startProcessing (w : World) (label : String) : World :=
  { w with processedDevices := w.processedDevices ++ [label] }.log
    "Starting processing for device: %s" [label]

/-- The function `processSDCard`. -/
def processSDCard (w : World) (label : String) : World :=
  let w0 := w.emit (.call "processSDCard" label)
  if label ∈ w0.processedDevices then
    w0.log "Skipping already processed device: %s" [label]
  else
    let w1 := startProcessing w0 label
    match w1.sdCardMappings.lookup label with
    | none => w1.log "No configuration found for label: %s" [label]
    | some sd =>
      match ensureMounted w1 label with
      | (w2, false) => w2
      | (w2, true) => processMounted w2 label sd

/-- The function `contains`. -/
def contains (devices : List String) (label : String) : Bool :=
  match devices with
  | [] => false
  | device :: rest => if device = label then true else contains rest label

/-- The loop of `getConnectedDevices` (lines 41-49). -/
def connectedLoop : List DirEntry → World → List String → World × List String
  | [], w, devices => (w, devices)
  | file :: rest, w, devices =>
    if (w.sdCardMappings.lookup file.name).isSome then
      if !(file.name ∈ w.processedDevices) then
        connectedLoop rest (w.log "Detected new device: %s" [file.name]) (devices ++ [file.name])
      else connectedLoop rest w (devices ++ [file.name])
    else connectedLoop rest w devices

/-- The function `getConnectedDevices`. -/
def getConnectedDevices (w : World) : World × List String :=
  match w.readDir "/dev/disk/by-label" with
  | none => (w.log "Error reading /dev/disk/by-label: %v" [], [])
  | some files => connectedLoop files w []

/-! ## main.go: the discovery loop -/

/-- The reclaim loop of `main` (lines 204-209), over the keys the map has when
the loop starts.  `delete(processedDevices, label)` removes the key. -/
def reclaimLoop (devices : List String) : List String → World → World
  | [], w => w
  | label :: rest, w =>
    if !contains devices label then
      reclaimLoop devices rest
        ({ w with processedDevices := w.processedDevices.filter (fun l => l != label) }.log
          "Removed %s from processed devices" [label])
    else reclaimLoop devices rest w

/-- The dispatch loop of `main` (lines 212-228): the devices for which a
goroutine is started, in order.  The goroutines run later (`lifecycleTask`). -/
def dispatchLoop : List String → World → List String → List String
  | [], _, started => started
  | device :: rest, w, started =>
    if !(device ∈ w.processedDevices) then dispatchLoop rest w (started ++ [device])
    else dispatchLoop rest w started

/-- One iteration of the loop of `main` after the sleep (lines 200-228):
the world afterwards and the devices for which a task was dispatched. -/
def mainIteration (w : World) : World × List String :=
  match getConnectedDevices w with
  | (w1, devices) =>
    let w2 := reclaimLoop devices w1.processedDevices w1
    (w2, dispatchLoop devices w2 [])

/-- The body of the goroutine started by `main` (lines 223-225). -/
def lifecycleTask (w : World) (device : String) : World :=
  (processSDCard (w.log "Processing SD card: %s" [device]) device).log
    "Finished processing SD card: %s" [device]

/-- The environment between two polls: the labels now listed in
`/dev/disk/by-label`. -/
def World.setDevices (w : World) (labels : List String) : World :=
  { w with dirs := ("/dev/disk/by-label", labels.map (fun l => ⟨l, false⟩)) ::
      w.dirs.filter (fun d => d.1 != "/dev/disk/by-label") }

/-! ## main.go: the log receiver -/

/-- The type `LogReceiver`, with the connections it has handed to the
operating system.  A connection is named by a number. -/
structure LogReceiver where
  /-- Keys of `clients map[*websocket.Conn]bool`. -/
  clients : List Nat
  /-- Field `logs []string`. -/
  logs : List String
  /-- Connections on which `WriteMessage` returns an error. -/
  broken : List Nat
  /-- Every successful `WriteMessage(conn, message)`, oldest first. -/
  received : List (Nat × String)
  /-- Connections on which `Close` was called, oldest first. -/
  closed : List Nat
deriving DecidableEq, Repr

/-- The function `NewLogReceiver`. -/
def NewLogReceiver : LogReceiver := ⟨[], [], [], [], []⟩

namespace LogReceiver

/-- The fan-out loop of `Start` (lines 69-76), over the clients attached when
the loop starts. -/
def fanOut (message : String) : List Nat → LogReceiver → LogReceiver
  | [], lr => lr
  | client :: rest, lr =>
    if client ∈ lr.broken then
      fanOut message rest
        { lr with closed := lr.closed ++ [client],
                  clients := lr.clients.filter (fun c => c != client) }
    else fanOut message rest { lr with received := lr.received ++ [(client, message)] }

/-- One iteration of the loop of `Start` (lines 61-77): a message taken from the
`broadcast` channel is stored and sent to every client. -/
def publish (lr : LogReceiver) (message : String) : LogReceiver :=
  let logs := if lr.logs.length = 20 then lr.logs.drop 1 else lr.logs
  let lr1 := { lr with logs := logs ++ [message] }
  fanOut message lr1.clients lr1

/-- The replay loop of `HandleWebSocket` (lines 103-112). -/
def replay (conn : Nat) : List String → LogReceiver → LogReceiver
  | [], lr => lr
  | logEntry :: rest, lr =>
    if conn ∈ lr.broken then
      { lr with closed := lr.closed ++ [conn],
                clients := lr.clients.filter (fun c => c != conn) }
    else replay conn rest { lr with received := lr.received ++ [(conn, logEntry)] }

/-- The locked part of `HandleWebSocket` (lines 99-113) for an upgraded
connection. -/
def HandleWebSocket (lr : LogReceiver) (conn : Nat) : LogReceiver :=
  let lr1 := { lr with clients := if conn ∈ lr.clients then lr.clients else lr.clients ++ [conn] }
  replay conn lr1.logs lr1

/-- The deferred function of the reader goroutine of `HandleWebSocket`
(lines 119-125), run when the client disconnects. -/
def disconnect (lr : LogReceiver) (conn : Nat) : LogReceiver :=
  { lr with clients := lr.clients.filter (fun c => c != conn), closed := lr.closed ++ [conn] }

/-- The messages written successfully to a connection, oldest first. -/
def receivedBy (lr : LogReceiver) (conn : Nat) : List String :=
  (lr.received.filter (fun r => r.1 == conn)).map Prod.snd

end LogReceiver

/-- What happens to the log receiver, one step at a time. -/
inductive LogAction where
  /-- A message arrives on the `broadcast` channel. -/
  | publish (message : String)
  /-- A client connects: `HandleWebSocket`. -/
  | attach (conn : Nat)
  /-- A client disconnects. -/
  | detach (conn : Nat)
  /-- The connection breaks: from now on writes to it fail. -/
  | fail (conn : Nat)
deriving DecidableEq, Repr

/-- Apply one action to the log receiver. -/
def LogReceiver.step (lr : LogReceiver) : LogAction → LogReceiver
  | .publish message => lr.publish message
  | .attach conn => lr.HandleWebSocket conn
  | .detach conn => lr.disconnect conn
  | .fail conn => { lr with broken := lr.broken ++ [conn] }

/-- Apply a sequence of actions, oldest first. -/
def LogReceiver.run (lr : LogReceiver) (actions : List LogAction) : LogReceiver :=
  actions.foldl LogReceiver.step lr

/-- The messages of the publish actions of a sequence, in order. -/
def published : List LogAction → List String
  | [] => []
  | .publish message :: rest => message :: published rest
  | _ :: rest => published rest

/-! ## Observations on a trace -/

/-- The arguments of the invocations of the function `fn` recorded in a trace,
oldest first. -/
def calls (fn : String) (t : List Event) : List String :=
  t.filterMap (fun e => match e with
    | .call f a => if f = fn then some a else none
    | _ => none)

/-- The command lines of the external processes recorded in a trace whose
program is `prog`, oldest first. -/
def execsOf (prog : String) (t : List Event) : List (List String) :=
  t.filterMap (fun e => match e with
    | .exec argv => if argv.head? = some prog then some argv else none
    | _ => none)

/-- Whether an event may be produced by code that enters only the functions
named in `fns`: every log line, external command and delay, and the entry into
a function of `fns`. -/
def Event.allowed (fns : List String) : Event → Bool
  | .call f _ => fns.contains f
  | _ => true

/-- The world `w2` comes from `w1` by steps that append only events allowed for
`fns` and change nothing but the file system and the mount table. -/
structure Ext (fns : List String) (w1 w2 : World) : Prop where
  trace : ∃ es, w2.trace = w1.trace ++ es ∧ ∀ e ∈ es, e.allowed fns = true
  processedDevices : w2.processedDevices = w1.processedDevices
  sdCardMappings : w2.sdCardMappings = w1.sdCardMappings
  ignoredExtensions : w2.ignoredExtensions = w1.ignoredExtensions
  unreadable : w2.unreadable = w1.unreadable
  failing : w2.failing = w1.failing
  mkdirFailing : w2.mkdirFailing = w1.mkdirFailing

/-! ## Scenarios, schedules and predicates used in the statements -/

/-- The profile of the scenario: label and name `CARD1`, source directory
`DCIM`, destination `/archive/trip1`. -/
def card1 : SDCard := ⟨"CARD1", ["DCIM"], "/archive/trip1"⟩

/-- The world of the scenario: `CARD1` is configured and mounted, `.thm` is
ignored, the device holds `DCIM/{a.mp4, b.thm, c.insv}`, the destination is
empty and no external command fails. -/
def scenarioWorld : World where
  processedDevices := []
  sdCardMappings := [("CARD1", card1)]
  ignoredExtensions := [".thm"]
  dirs := [("/media/videoserver/CARD1", [⟨"DCIM", true⟩]),
           ("/media/videoserver/CARD1/DCIM",
             [⟨"a.mp4", false⟩, ⟨"b.thm", false⟩, ⟨"c.insv", false⟩]),
           ("/archive/trip1", [])]
  unreadable := []
  mounted := ["/media/videoserver/CARD1"]
  failing := []
  mkdirFailing := []
  trace := []

/-- The scenario when `processSDCard` reaches the copy step. -/
def scenarioMounted : World :=
  (ensureMounted (startProcessing (scenarioWorld.emit (.call "processSDCard" "CARD1")) "CARD1")
    "CARD1").1

/-- The scenario after `copyFiles`. -/
def scenarioCopied : World := (copyFiles scenarioMounted card1).1

/-- The scenario after `createProxies`, when verification starts. -/
def scenarioProxied : World :=
  (createProxies (scenarioCopied.log "Files were copied from %s, creating proxies..." ["CARD1"])
    card1).1

/-- The goroutines dispatched by one poll, run one after the other in dispatch
order. -/
def runTasks (w : World) (devices : List String) : World :=
  devices.foldl lifecycleTask w

/-- The scenario world with `CARD1` listed in `/dev/disk/by-label`. -/
def pollWorld : World := scenarioWorld.setDevices ["CARD1"]

/-- Twenty-five distinct log lines. -/
def lines25 : List String :=
  ["line 01", "line 02", "line 03", "line 04", "line 05", "line 06", "line 07", "line 08",
   "line 09", "line 10", "line 11", "line 12", "line 13", "line 14", "line 15", "line 16",
   "line 17", "line 18", "line 19", "line 20", "line 21", "line 22", "line 23", "line 24",
   "line 25"]

/-- The scenario with only the ignored file `b.thm` on the device. -/
def ignoredOnlyWorld : World :=
  { scenarioWorld with
    dirs := [("/media/videoserver/CARD1", [⟨"DCIM", true⟩]),
             ("/media/videoserver/CARD1/DCIM", [⟨"b.thm", false⟩]),
             ("/archive/trip1", [])] }

/-- The world `ignoredOnlyWorld` when `processSDCard` reaches the copy step. -/
def ignoredOnlyMounted : World :=
  (ensureMounted (startProcessing (ignoredOnlyWorld.emit (.call "processSDCard" "CARD1")) "CARD1")
    "CARD1").1

/-- What a run of the copy loops from `w` to `w2`, with results `copied` and
`err`, has done: a failed command is the last thing done and goes with the
result `(false, err)`; the target of every successful `cp` exists afterwards;
nothing that existed has disappeared. -/
structure CopyRun (w w2 : World) (copied : Bool) (err : Option GoError) : Prop where
  events : ∃ es, w2.trace = w.trace ++ es ∧
    (∀ argv, Event.exec argv ∈ es → argv ∈ w.failing →
      copied = false ∧ err.isSome = true ∧ es.getLast? = some (.exec argv)) ∧
    (∀ src dst, Event.exec ["cp", src, dst] ∈ es → ["cp", src, dst] ∉ w.failing →
      w2.statOk dst = true)
  mono : ∀ p, w.statOk p = true → w2.statOk p = true
  failing : w2.failing = w.failing

/-- The scenario with the copy of `c.insv` failing. -/
def copyFailWorld : World :=
  { scenarioWorld with
    failing := [["cp", "/media/videoserver/CARD1/DCIM/c.insv", "/archive/trip1/c.mp4"]] }

/-- The world `copyFailWorld` when `processSDCard` reaches the copy step. -/
def copyFailMounted : World :=
  (ensureMounted (startProcessing (copyFailWorld.emit (.call "processSDCard" "CARD1")) "CARD1")
    "CARD1").1

/-- The entries for which a proxy is due: not a directory, no same-named entry
in the proxy folder, and a name ending in `.mp4` in any letter case. -/
def needsProxy (w : World) (proxyFolder : String) (file : DirEntry) : Bool :=
  !file.isDir && !(w.statOk (pathJoin proxyFolder file.name)) &&
    hasSuffix (toLower file.name) ".mp4"

/-- The transcoder command for an entry of `directory`. -/
def proxyCommand (directory : String) (file : DirEntry) : List String :=
  ffmpegArgv (pathJoin directory file.name) (pathJoin (pathJoin directory "Proxy") file.name)

/-- A destination with `a.mp4` (no proxy yet), `b.MP4` (proxy present),
`notes.txt` and `c.mp4`, the transcoder failing on `a.mp4`. -/
def proxyWorld : World :=
  { scenarioWorld with
    dirs := [("/archive/trip1",
               [⟨"a.mp4", false⟩, ⟨"b.MP4", false⟩, ⟨"notes.txt", false⟩, ⟨"c.mp4", false⟩,
                ⟨"Proxy", true⟩]),
             ("/archive/trip1/Proxy", [⟨"b.MP4", false⟩])],
    failing := [proxyCommand "/archive/trip1" ⟨"a.mp4", false⟩] }

/-- An empty destination directory whose `Proxy` folder does not exist and
cannot be made. -/
def noProxyFolderWorld : World :=
  { scenarioWorld with
    dirs := [("/archive/trip1", [])],
    mkdirFailing := ["/archive/trip1/Proxy"] }

/-- A destination directory that exists but cannot be listed, holding `a.mp4`
with its proxy in `Proxy/`. -/
def unlistableWorld : World :=
  { scenarioWorld with
    dirs := [("/archive/trip1", [⟨"a.mp4", false⟩, ⟨"Proxy", true⟩]),
             ("/archive/trip1/Proxy", [⟨"a.mp4", false⟩])],
    unreadable := ["/archive/trip1"] }

/-- A destination directory in which every file has its proxy. -/
def allProxiedWorld : World :=
  { scenarioWorld with
    dirs := [("/archive/trip1", [⟨"a.mp4", false⟩, ⟨"c.mp4", false⟩, ⟨"Proxy", true⟩]),
             ("/archive/trip1/Proxy", [⟨"a.mp4", false⟩, ⟨"c.mp4", false⟩])] }

/-- Every non-directory entry of `directory` has a same-named entry in its
`Proxy` folder. -/
def allProxied (w : World) (directory : String) : Bool :=
  w.dirs.all (fun d => d.1 != directory ||
    d.2.all (fun f => f.isDir || w.statOk (pathJoin (pathJoin directory "Proxy") f.name)))

/-- The scenario with the device not mounted and the `mount` command failing. -/
def mountFailWorld : World :=
  { scenarioWorld with
    mounted := [],
    failing := [["mount", "/dev/disk/by-label/CARD1", "/media/videoserver/CARD1"]] }

/-- The world `mountFailWorld` after the first mount check of `processSDCard`. -/
def mountFailChecked : World :=
  (isMounted (startProcessing (mountFailWorld.emit (.call "processSDCard" "CARD1")) "CARD1")
    "CARD1").1

/-- A log receiver with observers 1, 2 and 3 attached, writes to observer 2
failing, and one line of history. -/
def threeObservers : LogReceiver :=
  { clients := [1, 2, 3], logs := ["line 01"], broken := [2], received := [], closed := [] }

/-! ## web.go: the configuration snapshot -/

/-- The type `DestinationConfig` of main.go (field `Type` is called `Kind` here:
"local" or "nfs"). -/
structure DestinationConfig where
  Kind : String
  Path : String
deriving DecidableEq, Repr

/-- The type `Config` of main.go, as decoded from the configuration file. -/
structure Config where
  SDCardMappings : List (String × SDCard)
  IgnoredExtensions : List String
  Timezone : String
  DestinationConfig : DestinationConfig
deriving DecidableEq, Repr

/-- The four package variables that `loadConfig` sets.  The variable `timezone`
is a pointer `*time.Location`: `none` is the nil pointer, `some name` the
location of that name. -/
structure Snapshot where
  sdCardMappings : List (String × SDCard)
  ignoredExtensions : List String
  timezone : Option String
  destinationConfig : DestinationConfig
deriving DecidableEq, Repr

/-- What `loadConfig` and `UpdateConfig` see of the host. -/
structure ConfigHost where
  /-- The files that can be opened, each with the `Config` its content decodes
  to (`none` when `json.Decode` returns an error). -/
  files : List (String × Option Config)
  /-- The names for which `time.LoadLocation` succeeds. -/
  zones : List String
  /-- Whether `ioutil.WriteFile("config.json", ...)` fails. -/
  writeFails : Bool
deriving DecidableEq, Repr

/-- The call `time.LoadLocation(name)`: the location, or nil with an error. -/
def ConfigHost.loadLocation (host : ConfigHost) (name : String) : Option String :=
  if name ∈ host.zones then some name else none

/-- The function `loadConfig` of web.go: the snapshot after the call and the
error returned. -/
def loadConfig (host : ConfigHost) (s : Snapshot) (filePath : String) :
    Snapshot × Option GoError :=
  match host.files.lookup filePath with
  | none => (s, some ⟨"failed to open config file: %v", []⟩)
  | some none => (s, some ⟨"failed to decode config file: %v", []⟩)
  | some (some config) =>
    let s1 : Snapshot :=
      { s with sdCardMappings := config.SDCardMappings,
               ignoredExtensions := config.IgnoredExtensions,
               destinationConfig := config.DestinationConfig }
    match host.loadLocation config.Timezone with
    | none => ({ s1 with timezone := none }, some ⟨"failed to load timezone: %v", []⟩)
    | some location => ({ s1 with timezone := some location }, none)

/-- The function `UpdateConfig` of web.go for a request body that decodes to
`newConfig`: the host and snapshot afterwards and the HTTP status written. -/
def UpdateConfig (host : ConfigHost) (s : Snapshot) (newConfig : Config) :
    ConfigHost × Snapshot × Nat :=
  if newConfig.DestinationConfig.Kind != "nfs" && newConfig.DestinationConfig.Kind != "local" then
    (host, s, 400)
  else if newConfig.Timezone == "" then (host, s, 400)
  else if host.writeFails then (host, s, 500)
  else
    let host1 : ConfigHost :=
      { host with files := ("config.json", some newConfig) ::
          host.files.filter (fun f => f.1 != "config.json") }
    match loadConfig host1 s "config.json" with
    | (s1, some _) => (host1, s1, 500)
    | (s1, none) => (host1, s1, 200)

/-- A host whose time-zone database knows `UTC` and `Europe/Berlin`. -/
def configHost : ConfigHost :=
  { files := [], zones := ["UTC", "Europe/Berlin"], writeFails := false }

/-- The snapshot in force: `CARD1`, `.thm` ignored, time zone `UTC`. -/
def oldSnapshot : Snapshot :=
  { sdCardMappings := [("CARD1", card1)], ignoredExtensions := [".thm"],
    timezone := some "UTC", destinationConfig := ⟨"local", "/archive"⟩ }

/-- A new configuration whose time zone does not exist. -/
def badZoneConfig : Config :=
  { SDCardMappings := [("CARD2", ⟨"CARD2", ["PRIVATE"], "/archive/trip2"⟩)],
    IgnoredExtensions := [".lrv"], Timezone := "Mars/Phobos",
    DestinationConfig := ⟨"nfs", "/media/nfs/video_archive"⟩ }

/-- The scenario with the clip named `C.INSV` on the device. -/
def upperInsvWorld : World :=
  { scenarioWorld with
    dirs := [("/media/videoserver/CARD1", [⟨"DCIM", true⟩]),
             ("/media/videoserver/CARD1/DCIM", [⟨"C.INSV", false⟩]),
             ("/archive/trip1", [])] }

/-- The scenario with the device not mounted, the `mount` command succeeding
and `mountpoint -q` not confirming the mount. -/
def recheckFailWorld : World :=
  { scenarioWorld with
    mounted := [],
    failing := [["mountpoint", "-q", "/media/videoserver/CARD1"]] }

/-- The world `recheckFailWorld` after the first mount check of
`processSDCard`. -/
def recheckFailChecked : World :=
  (isMounted (startProcessing (recheckFailWorld.emit (.call "processSDCard" "CARD1")) "CARD1")
    "CARD1").1

/-- Upper-casing of the ASCII letters only: every other rune is kept. -/
def upperASCII (s : String) : String := ⟨s.data.map Char.toUpper⟩

/-- The scenario with `.ini` as the only ignored extension. -/
def iniWorld : World := { scenarioWorld with ignoredExtensions := [".ini"] }

/-- Lower-casing of the ASCII letters only: every other rune is kept. -/
def lowerASCII (s : String) : String := ⟨s.data.map Char.toLower⟩

/-! ## Frame lemmas: which events each function appends -/

theorem Ext.refl (fns : List String) (w : World) : Ext fns w w :=
  ⟨⟨[], by simp⟩, rfl, rfl, rfl, rfl, rfl, rfl⟩

theorem Ext.trans {fns : List String} {a b c : World} (h1 : Ext fns a b) (h2 : Ext fns b c) :
    Ext fns a c := by
  obtain ⟨e1, he1, hq1⟩ := h1.trace
  obtain ⟨e2, he2, hq2⟩ := h2.trace
  refine ⟨⟨e1 ++ e2, by rw [he2, he1, List.append_assoc], ?_⟩, ?_, ?_, ?_, ?_, ?_, ?_⟩
  · intro e he
    rcases List.mem_append.mp he with h | h
    · exact hq1 e h
    · exact hq2 e h
  · rw [h2.processedDevices, h1.processedDevices]
  · rw [h2.sdCardMappings, h1.sdCardMappings]
  · rw [h2.ignoredExtensions, h1.ignoredExtensions]
  · rw [h2.unreadable, h1.unreadable]
  · rw [h2.failing, h1.failing]
  · rw [h2.mkdirFailing, h1.mkdirFailing]

theorem Ext.emit (fns : List String) (w : World) (e : Event) (he : e.allowed fns = true) :
    Ext fns w (w.emit e) :=
  ⟨⟨[e], rfl, by simpa using he⟩, rfl, rfl, rfl, rfl, rfl, rfl⟩

theorem Ext.call (fns : List String) (w : World) (f a : String) (hf : f ∈ fns) :
    Ext fns w (w.emit (.call f a)) :=
  Ext.emit fns w _ (by simpa [Event.allowed] using hf)

theorem Ext.log (fns : List String) (w : World) (f : String) (a : List String) :
    Ext fns w (w.log f a) :=
  Ext.emit fns w _ rfl

theorem Ext.logErr (fns : List String) (w : World) (e : GoError) : Ext fns w (w.logErr e) :=
  Ext.emit fns w _ rfl

theorem Ext.exec (fns : List String) (w : World) (argv : List String) :
    Ext fns w (w.exec argv).2 :=
  Ext.emit fns w _ rfl

theorem Ext.fs (fns : List String) (w : World) (dirs : List (String × List DirEntry))
    (mounted : List String) : Ext fns w { w with dirs := dirs, mounted := mounted } :=
  ⟨⟨[], by simp⟩, rfl, rfl, rfl, rfl, rfl, rfl⟩

theorem Ext.addEntry (fns : List String) (w : World) (dir : String) (e : DirEntry) :
    Ext fns w (w.addEntry dir e) :=
  Ext.fs fns w _ _

theorem Ext.clearDir (fns : List String) (w : World) (path : String) :
    Ext fns w (w.clearDir path) :=
  Ext.fs fns w _ _

theorem Ext.mkdirAll (fns : List String) (w : World) (path : String) :
    Ext fns w (w.mkdirAll path).2 := by
  unfold World.mkdirAll
  split
  · exact Ext.refl fns w
  · split
    · exact Ext.refl fns w
    · exact Ext.fs fns w _ _

theorem Ext.mkdirChild (fns : List String) (w : World) (dir name : String) :
    Ext fns w (w.mkdirChild dir name).2 := by
  unfold World.mkdirChild
  have h := Ext.mkdirAll fns w (pathJoin dir name)
  split
  · rename_i w1 hw; rw [hw] at h; exact h
  · rename_i w1 hw; rw [hw] at h; exact h.trans (Ext.addEntry fns _ _ _)

theorem calls_append (fn : String) (a b : List Event) :
    calls fn (a ++ b) = calls fn a ++ calls fn b := by
  simp [calls, List.filterMap_append]

theorem calls_eq_nil_of_allowed (fn : String) (fns : List String) (hfn : fn ∉ fns) :
    ∀ es : List Event, (∀ e ∈ es, e.allowed fns = true) → calls fn es = []
  | [], _ => rfl
  | e :: es, h => by
    have ih := calls_eq_nil_of_allowed fn fns hfn es (fun x hx => h x (List.mem_cons_of_mem _ hx))
    have he := h e (List.mem_cons_self _ _)
    cases e with
    | call f a =>
      have hf : f ≠ fn := by
        intro hEq; subst hEq
        exact hfn (by simpa [Event.allowed] using he)
      simp only [calls, List.filterMap_cons, hf, if_false] at ih ⊢
      exact ih
    | _ => simpa [calls, List.filterMap_cons] using ih

/-- Steps that never enter `fn` leave the record of its invocations unchanged. -/
theorem Ext.calls_eq {fns : List String} {w1 w2 : World} (h : Ext fns w1 w2) (fn : String)
    (hfn : fn ∉ fns) : calls fn w2.trace = calls fn w1.trace := by
  obtain ⟨es, hes, hall⟩ := h.trace
  rw [hes, calls_append, calls_eq_nil_of_allowed fn fns hfn es hall, List.append_nil]

theorem ext_copyDirFiles (fns : List String) (sd : SDCard) (srcDir : String)
    (files : List DirEntry) :
    ∀ (w : World) (fc : Bool), Ext fns w (copyDirFiles sd srcDir files w fc).1 := by
  induction files with
  | nil => intro w fc; exact Ext.refl fns w
  | cons file rest ih =>
    intro w fc
    unfold copyDirFiles
    split
    · exact ih w fc
    · split
      · exact (Ext.log fns w _ _).trans (ih _ _)
      · have h := Ext.exec fns w ["cp", pathJoin srcDir file.name,
          pathJoin sd.Destination (destinationFileName file.name)]
        dsimp only
        split
        · rename_i w1 hw; rw [hw] at h; exact h
        · rename_i w1 hw; rw [hw] at h
          exact h.trans (((Ext.addEntry fns _ _ _).trans (Ext.log fns _ _ _)).trans (ih _ _))

theorem ext_copySourceDirs (fns : List String) (sd : SDCard) (dirs : List String) :
    ∀ (w : World) (fc : Bool), Ext fns w (copySourceDirs sd dirs w fc).1 := by
  induction dirs with
  | nil => intro w fc; exact Ext.refl fns w
  | cons d rest ih =>
    intro w fc
    unfold copySourceDirs
    simp only []
    split
    · exact (Ext.log fns w _ _).trans (ih _ _)
    · split
      · exact Ext.refl fns w
      · rename_i files hfiles
        have h1 := (Ext.log fns w "Files found in %s: %v"
          (sdCardPath sd.Name d :: files.map DirEntry.name)).trans
            (Ext.mkdirAll fns _ sd.Destination)
        split
        · rename_i w2 hw2; rw [hw2] at h1; exact h1
        · rename_i w2 hw2; rw [hw2] at h1
          have h2 := ext_copyDirFiles fns sd (sdCardPath sd.Name d) files w2 fc
          split
          · rename_i w3 _ err h3; rw [h3] at h2; exact h1.trans h2
          · rename_i w3 copied h3; rw [h3] at h2; exact (h1.trans h2).trans (ih _ _)

theorem ext_copyFiles (fns : List String) (hf : "copyFiles" ∈ fns) (w : World) (sd : SDCard) :
    Ext fns w (copyFiles w sd).1 :=
  (Ext.call fns w _ _ hf).trans (ext_copySourceDirs fns sd _ _ _)

theorem ext_proxyLoop (fns : List String) (directory proxyFolder : String)
    (files : List DirEntry) :
    ∀ w : World, Ext fns w (proxyLoop directory proxyFolder files w) := by
  induction files with
  | nil => intro w; exact Ext.refl fns w
  | cons file rest ih =>
    intro w
    unfold proxyLoop
    split
    · exact ih w
    · dsimp only
      split
      · exact ih w
      · split
        · have h := Ext.exec fns w
            (ffmpegArgv (pathJoin directory file.name) (pathJoin proxyFolder file.name))
          split
          · rename_i w1 hw; rw [hw] at h
            exact h.trans ((Ext.log fns _ _ _).trans (ih _))
          · rename_i w1 hw; rw [hw] at h
            exact h.trans (((Ext.addEntry fns _ _ _).trans (Ext.log fns _ _ _)).trans (ih _))
        · exact (Ext.log fns w _ _).trans (ih _)

theorem ext_createProxiesForDirectory (fns : List String)
    (hf : "createProxiesForDirectory" ∈ fns) (w : World) (directory : String) :
    Ext fns w (createProxiesForDirectory w directory).1 := by
  have h0 := Ext.call fns w "createProxiesForDirectory" directory hf
  unfold createProxiesForDirectory
  dsimp only
  split
  · split
    · exact h0
    · have h1 := Ext.mkdirChild fns
        (w.emit (.call "createProxiesForDirectory" directory)) directory "Proxy"
      split
      · rename_i w1 hw; rw [hw] at h1; exact h0.trans h1
      · rename_i w1 hw; rw [hw] at h1
        exact (h0.trans h1).trans (ext_proxyLoop fns _ _ _ _)
  · exact h0

theorem ext_createProxies (fns : List String) (h1 : "createProxies" ∈ fns)
    (h2 : "createProxiesForDirectory" ∈ fns) (w : World) (sd : SDCard) :
    Ext fns w (createProxies w sd).1 :=
  (Ext.call fns w _ _ h1).trans (ext_createProxiesForDirectory fns h2 _ _)

theorem ext_clearLoop (fns : List String) (sd : SDCard) (dirs : List String) :
    ∀ w : World, Ext fns w (clearLoop sd dirs w).1 := by
  induction dirs with
  | nil => intro w; exact Ext.emit fns w _ rfl
  | cons d rest ih =>
    intro w
    unfold clearLoop
    dsimp only
    have h := Ext.exec fns w ["find", sdCardPath sd.Name d, "-mindepth", "1", "-delete"]
    split
    · exact h.trans (((Ext.clearDir fns _ _).trans (Ext.log fns _ _ _)).trans (ih _))
    · exact h

theorem ext_clearSDCard (fns : List String) (hf : "clearSDCard" ∈ fns) (w : World)
    (sd : SDCard) : Ext fns w (clearSDCard w sd).1 :=
  (Ext.call fns w _ _ hf).trans (ext_clearLoop fns sd _ _)

theorem ext_isMounted (fns : List String) (w : World) (label : String) :
    Ext fns w (isMounted w label).1 := by
  unfold isMounted
  split
  · exact Ext.log fns w _ _
  · have h := Ext.exec fns w ["mountpoint", "-q", mountPoint label]
    split
    rename_i ok w1 hw
    rw [hw] at h
    split
    · exact h.trans (Ext.log fns _ _ _)
    · exact h.trans (Ext.log fns _ _ _)

theorem isMounted_err (w : World) (label : String) : (isMounted w label).2.2 = none := by
  unfold isMounted
  split
  · rfl
  · split
    split <;> rfl

theorem ext_mountDevice (fns : List String) (hf : "mountDevice" ∈ fns) (w : World)
    (label : String) : Ext fns w (mountDevice w label).1 := by
  have h0 := Ext.call fns w "mountDevice" label hf
  unfold mountDevice
  dsimp only
  have h1 := Ext.mkdirAll fns (w.emit (.call "mountDevice" label)) (mountPoint label)
  split
  · rename_i w1 hw; rw [hw] at h1; exact h0.trans h1
  · rename_i w1 hw; rw [hw] at h1
    have h2 := Ext.exec fns w1 ["mount", "/dev/disk/by-label/" ++ label, mountPoint label]
    split
    · rename_i w2 hw2; rw [hw2] at h2; exact (h0.trans h1).trans h2
    · rename_i w2 hw2; rw [hw2] at h2
      exact ((h0.trans h1).trans h2).trans ((Ext.fs fns w2 w2.dirs _).trans (Ext.log fns _ _ _))

theorem ext_ejectSDCard (fns : List String) (hf : "ejectSDCard" ∈ fns) (w : World)
    (sd : SDCard) : Ext fns w (ejectSDCard w sd).1 := by
  have h0 := (Ext.call fns w "ejectSDCard" sd.Name hf).trans (ext_isMounted fns _ sd.Name)
  unfold ejectSDCard
  split
  · rename_i w1 _ err hw; rw [hw] at h0; exact h0
  · rename_i w1 hw; rw [hw] at h0; exact h0.trans (Ext.log fns _ _ _)
  · rename_i w1 hw; rw [hw] at h0
    have h2 := Ext.exec fns w1 ["umount", mountPoint sd.Name]
    split
    · rename_i w2 hw2; rw [hw2] at h2; exact h0.trans h2
    · rename_i w2 hw2; rw [hw2] at h2
      exact (h0.trans h2).trans ((Ext.fs fns w2 w2.dirs _).trans (Ext.log fns _ _ _))

theorem ext_verifyDirFiles (fns : List String) (sd : SDCard) (files : List DirEntry) :
    ∀ w : World, Ext fns w (verifyDirFiles sd files w).1 := by
  induction files with
  | nil => intro w; exact Ext.refl fns w
  | cons file rest ih =>
    intro w
    unfold verifyDirFiles
    split
    · dsimp only
      split
      · exact Ext.log fns w _ _
      · exact ih w
    · exact ih w

theorem ext_verifySourceDirs (fns : List String) (sd : SDCard) (dirs : List String) :
    ∀ w : World, Ext fns w (verifySourceDirs sd dirs w).1 := by
  induction dirs with
  | nil => intro w; exact Ext.refl fns w
  | cons d rest ih =>
    intro w
    unfold verifySourceDirs
    dsimp only
    split
    · exact (Ext.log fns w _ _).trans (ih _)
    · rename_i files hfiles
      have h := ext_verifyDirFiles fns sd files w
      split
      · rename_i w1 hw; rw [hw] at h; exact h
      · rename_i w1 hw; rw [hw] at h; exact h.trans (ih _)

theorem ext_ensureMounted (fns : List String) (hf : "mountDevice" ∈ fns) (w : World)
    (label : String) : Ext fns w (ensureMounted w label).1 := by
  have h0 := ext_isMounted fns w label
  unfold ensureMounted
  split
  · rename_i w1 _ err hw; rw [hw] at h0; exact h0.trans (Ext.logErr fns _ _)
  · rename_i w1 hw; rw [hw] at h0; exact h0
  · rename_i w1 hw; rw [hw] at h0
    have h1 := ext_mountDevice fns hf w1 label
    split
    · rename_i w2 err hw2; rw [hw2] at h1; exact (h0.trans h1).trans (Ext.log fns _ _ _)
    · rename_i w2 hw2; rw [hw2] at h1
      have h2 := ext_isMounted fns w2 label
      split
      · rename_i w3 hw3; rw [hw3] at h2; exact (h0.trans h1).trans h2
      · rename_i w3 _ _ _ hw3
        rw [hw3] at h2
        exact (h0.trans h1).trans (h2.trans (Ext.log fns _ _ _))

theorem ext_ejectAndFinish (fns : List String) (hf : "ejectSDCard" ∈ fns) (w : World)
    (label : String) (sd : SDCard) : Ext fns w (ejectAndFinish w label sd) := by
  have h0 := ext_ejectSDCard fns hf w sd
  unfold ejectAndFinish
  split
  · rename_i w1 err hw; rw [hw] at h0; exact h0.trans (Ext.logErr fns _ _)
  · rename_i w1 hw; rw [hw] at h0; exact h0.trans (Ext.log fns _ _ _)

/-! ## Verification loop -/

theorem verifyDirFiles_fs (sd : SDCard) (files : List DirEntry) :
    ∀ w : World, (verifyDirFiles sd files w).1.dirs = w.dirs := by
  induction files with
  | nil => intro w; rfl
  | cons file rest ih =>
    intro w
    unfold verifyDirFiles
    split
    · dsimp only
      split
      · rfl
      · exact ih w
    · exact ih w

/-- A passing inner verification loop has found every non-directory entry at
the destination. -/
theorem verifyDirFiles_true (sd : SDCard) (files : List DirEntry) :
    ∀ w : World, (verifyDirFiles sd files w).2 = true →
      ∀ f ∈ files, f.isDir = false →
        verifyFileExists w (pathJoin sd.Destination f.name) = true := by
  induction files with
  | nil => intro w _ f hf; cases hf
  | cons file rest ih =>
    intro w h f hf hdir
    unfold verifyDirFiles at h
    by_cases hd : file.isDir = true
    · simp only [hd, Bool.not_true, Bool.false_eq_true, if_false] at h
      rcases List.mem_cons.mp hf with rfl | hmem
      · rw [hd] at hdir; cases hdir
      · exact ih w h f hmem hdir
    · simp only [hd, Bool.not_false, if_true] at h
      by_cases hv : verifyFileExists w (pathJoin sd.Destination file.name) = true
      · simp only [hv, Bool.not_true, Bool.false_eq_true, if_false] at h
        rcases List.mem_cons.mp hf with rfl | hmem
        · exact hv
        · exact ih w h f hmem hdir
      · simp [hv] at h

theorem readDir_congr {w1 w2 : World} (hd : w2.dirs = w1.dirs)
    (hu : w2.unreadable = w1.unreadable) (p : String) : w2.readDir p = w1.readDir p := by
  simp [World.readDir, hd, hu]

theorem statOk_congr {w1 w2 : World} (hd : w2.dirs = w1.dirs) (p : String) :
    w2.statOk p = w1.statOk p := by
  simp [World.statOk, hd]

theorem verifySourceDirs_fs (sd : SDCard) (dirs : List String) :
    ∀ w : World, (verifySourceDirs sd dirs w).1.dirs = w.dirs := by
  induction dirs with
  | nil => intro w; rfl
  | cons d rest ih =>
    intro w
    unfold verifySourceDirs
    dsimp only
    split
    · rw [ih]; rfl
    · rename_i files hfiles
      have h := verifyDirFiles_fs sd files w
      split
      · rename_i w1 hw; rw [hw] at h; exact h
      · rename_i w1 hw; rw [hw] at h; rw [ih, h]

/-- A passing verification has found, for every listable source directory,
every non-directory entry at the destination. -/
theorem verifySourceDirs_true (sd : SDCard) (dirs : List String) :
    ∀ w : World, (verifySourceDirs sd dirs w).2 = true →
      ∀ d ∈ dirs, ∀ files, w.readDir (sdCardPath sd.Name d) = some files →
        ∀ f ∈ files, f.isDir = false →
          verifyFileExists w (pathJoin sd.Destination f.name) = true := by
  induction dirs with
  | nil => intro w _ d hd; cases hd
  | cons d0 rest ih =>
    intro w h d hd files hfiles f hf hdir
    unfold verifySourceDirs at h
    dsimp only at h
    cases hr : w.readDir (sdCardPath sd.Name d0) with
    | none =>
      rw [hr] at h
      dsimp only at h
      rcases List.mem_cons.mp hd with rfl | hmem
      · rw [hr] at hfiles; cases hfiles
      · exact ih _ h d hmem files hfiles f hf hdir
    | some files0 =>
      rw [hr] at h
      dsimp only at h
      have hfs := verifyDirFiles_fs sd files0 w
      have hex := ext_verifyDirFiles [] sd files0 w
      have htrue := verifyDirFiles_true sd files0 w
      cases hv : verifyDirFiles sd files0 w with
      | mk w1 b =>
        rw [hv] at h hfs hex htrue
        cases b with
        | false => simp at h
        | true =>
          dsimp only at h
          rcases List.mem_cons.mp hd with rfl | hmem
          · rw [hr] at hfiles
            cases hfiles
            exact htrue rfl f hf hdir
          · have := ih w1 h d hmem files
              (by rw [readDir_congr hfs hex.unreadable]; exact hfiles) f hf hdir
            simpa [verifyFileExists, statOk_congr hfs] using this

theorem calls_emit (fn : String) (w : World) (e : Event) :
    calls fn (w.emit e).trace = calls fn w.trace ++ calls fn [e] := by
  simp [World.emit, calls_append]

/-- Where `processSDCard` goes for a label that is configured and not yet in
the ledger. -/
theorem processSDCard_fresh (w : World) (label : String) (sd : SDCard)
    (hnew : label ∉ w.processedDevices) (hcfg : w.sdCardMappings.lookup label = some sd) :
    processSDCard w label =
      match ensureMounted (startProcessing (w.emit (.call "processSDCard" label)) label) label with
      | (w2, false) => w2
      | (w2, true) => processMounted w2 label sd := by
  unfold processSDCard
  have h1 : label ∉ (w.emit (.call "processSDCard" label)).processedDevices := hnew
  have h2 : (startProcessing (w.emit (.call "processSDCard" label)) label).sdCardMappings.lookup
      label = some sd := hcfg
  simp only [h1, if_false, h2]

theorem calls_startProcessing (fn : String) (hfn : fn ≠ "processSDCard") (w : World)
    (label : String) :
    calls fn (startProcessing (w.emit (.call "processSDCard" label)) label).trace =
      calls fn w.trace := by
  have h : ¬ ("processSDCard" = fn) := fun h => hfn h.symm
  simp [startProcessing, World.log, World.emit, calls_append, calls, List.filterMap_cons, h]

/-- C1: in a run of `processSDCard` that reaches the copy step (label new and
configured, device mounted) and in which `copyFiles` copied at least one file,
if some listable configured source directory holds a non-directory entry with
no same-named file at the destination when verification runs, then
`clearSDCard` is not invoked in the run. -/
theorem verification_gate_blocks_clear (w wm wc wp : World) (label : String) (sd : SDCard)
    (perr : Option GoError)
    (hnew : label ∉ w.processedDevices)
    (hcfg : w.sdCardMappings.lookup label = some sd)
    (hmount : ensureMounted (startProcessing (w.emit (.call "processSDCard" label)) label) label
      = (wm, true))
    (hcopy : copyFiles wm sd = (wc, true, none))
    (hprox : createProxies (wc.log "Files were copied from %s, creating proxies..." [label]) sd
      = (wp, perr))
    (hmiss : ∃ d ∈ sd.SourceDirs, ∃ files, wp.readDir (sdCardPath sd.Name d) = some files ∧
      ∃ f ∈ files, f.isDir = false ∧
        verifyFileExists wp (pathJoin sd.Destination f.name) = false) :
    calls "clearSDCard" (processSDCard w label).trace = calls "clearSDCard" w.trace := by
  have hfns : "clearSDCard" ∉ ["mountDevice", "copyFiles", "createProxies",
      "createProxiesForDirectory", "verify"] := by decide
  rw [processSDCard_fresh w label sd hnew hcfg, hmount]
  dsimp only
  have e1 := ext_ensureMounted ["mountDevice", "copyFiles", "createProxies",
      "createProxiesForDirectory", "verify"] (by decide)
      (startProcessing (w.emit (.call "processSDCard" label)) label) label
  rw [hmount] at e1
  have e2 := ext_copyFiles ["mountDevice", "copyFiles", "createProxies",
      "createProxiesForDirectory", "verify"] (by decide) wm sd
  rw [hcopy] at e2
  have e3 := ext_createProxies ["mountDevice", "copyFiles", "createProxies",
      "createProxiesForDirectory", "verify"] (by decide) (by decide)
      (wc.log "Files were copied from %s, creating proxies..." [label]) sd
  rw [hprox] at e3
  have e123 := (e1.trans e2).trans ((Ext.log _ wc _ _).trans e3)
  have hbase := calls_startProcessing "clearSDCard" (by decide) w label
  unfold processMounted
  rw [hcopy]
  dsimp only
  rw [hprox]
  cases perr with
  | some err =>
    dsimp only
    rw [(e123.trans (Ext.logErr _ _ _)).calls_eq "clearSDCard" hfns, hbase]
  | none =>
    dsimp only
    have e4 := ext_verifySourceDirs ["mountDevice", "copyFiles", "createProxies",
      "createProxiesForDirectory", "verify"] sd sd.SourceDirs (wp.emit (.call "verify" sd.Name))
    have hv := verifySourceDirs_true sd sd.SourceDirs (wp.emit (.call "verify" sd.Name))
    cases hres : verifySourceDirs sd sd.SourceDirs (wp.emit (.call "verify" sd.Name)) with
    | mk w3 ok =>
      rw [hres] at e4 hv
      cases ok with
      | true =>
        exfalso
        obtain ⟨d, hd, files, hfiles, f, hf, hdir, hno⟩ := hmiss
        have := hv rfl d hd files hfiles f hf hdir
        have h' : verifyFileExists wp (pathJoin sd.Destination f.name) = true := this
        rw [hno] at h'
        cases h'
      | false =>
        dsimp only
        rw [((e123.trans (Ext.call _ wp "verify" sd.Name (by decide))).trans e4).calls_eq
          "clearSDCard" hfns, hbase]

/-- Witness for C1 on the scenario world: `b.thm` is listed in `DCIM` but was
never copied, and `clearSDCard` is not invoked. -/
theorem verification_gate_blocks_clear_witness :
    calls "clearSDCard" (processSDCard scenarioWorld "CARD1").trace = [] :=
  verification_gate_blocks_clear scenarioWorld scenarioMounted scenarioCopied scenarioProxied
    "CARD1" card1 none
    (by decide) (by decide) (by decide) (by decide) (by decide)
    ⟨"DCIM", by decide, [⟨"a.mp4", false⟩, ⟨"b.thm", false⟩, ⟨"c.insv", false⟩], by decide,
      ⟨"b.thm", false⟩, by decide, rfl, by decide⟩

/-- C2 (evaluation of the scenario): `copyFiles` copies `a.mp4` and `c.insv`
(as `c.mp4`) and skips `b.thm`, the transcoder runs for `a.mp4` and `c.mp4`,
but verification then looks for `b.thm` at the destination, does not find it,
and `processSDCard` returns: `clearSDCard` and `ejectSDCard` are never invoked,
`DCIM` still holds the three files and the device is still mounted. -/
theorem scenario_run_stops_at_verification :
    execsOf "cp" (processSDCard scenarioWorld "CARD1").trace =
        [["cp", "/media/videoserver/CARD1/DCIM/a.mp4", "/archive/trip1/a.mp4"],
         ["cp", "/media/videoserver/CARD1/DCIM/c.insv", "/archive/trip1/c.mp4"]] ∧
      (execsOf "ffmpeg" (processSDCard scenarioWorld "CARD1").trace).map (fun a => a.getLast?) =
        [some "/archive/trip1/Proxy/a.mp4", some "/archive/trip1/Proxy/c.mp4"] ∧
      (processSDCard scenarioWorld "CARD1").trace.getLast? =
        some (.log "File %s not found at destination %s" ["b.thm", "/archive/trip1/b.thm"]) ∧
      calls "verify" (processSDCard scenarioWorld "CARD1").trace = ["CARD1"] ∧
      calls "clearSDCard" (processSDCard scenarioWorld "CARD1").trace = [] ∧
      calls "ejectSDCard" (processSDCard scenarioWorld "CARD1").trace = [] ∧
      (processSDCard scenarioWorld "CARD1").readDir "/media/videoserver/CARD1/DCIM" =
        some [⟨"a.mp4", false⟩, ⟨"b.thm", false⟩, ⟨"c.insv", false⟩] ∧
      (processSDCard scenarioWorld "CARD1").mounted = ["/media/videoserver/CARD1"] := by
  decide

/-! ## The discovery loop -/

theorem contains_eq (devices : List String) (label : String) :
    contains devices label = decide (label ∈ devices) := by
  induction devices with
  | nil => simp [contains]
  | cons d rest ih =>
    unfold contains
    by_cases h : d = label
    · simp [h]
    · have h' : ¬ label = d := fun e => h e.symm
      simp [h, h', ih]

theorem connectedLoop_spec (files : List DirEntry) :
    ∀ (w : World) (acc : List String),
      (connectedLoop files w acc).2 =
          acc ++ (files.map DirEntry.name).filter
            (fun n => (w.sdCardMappings.lookup n).isSome) ∧
        Ext [] w (connectedLoop files w acc).1 ∧
        (connectedLoop files w acc).1.dirs = w.dirs := by
  induction files with
  | nil => intro w acc; exact ⟨by simp [connectedLoop], Ext.refl _ _, rfl⟩
  | cons file rest ih =>
    intro w acc
    unfold connectedLoop
    by_cases hc : (w.sdCardMappings.lookup file.name).isSome = true
    · simp only [hc, if_true]
      by_cases hp : file.name ∈ w.processedDevices
      · simp only [hp, decide_True, Bool.not_true, Bool.false_eq_true, if_false]
        obtain ⟨h1, h2, h3⟩ := ih w (acc ++ [file.name])
        refine ⟨?_, h2, h3⟩
        rw [h1]; simp [List.filter_cons, hc]
      · simp only [hp, decide_False, Bool.not_false, if_true]
        obtain ⟨h1, h2, h3⟩ := ih (w.log "Detected new device: %s" [file.name])
          (acc ++ [file.name])
        refine ⟨?_, (Ext.log _ _ _ _).trans h2, h3⟩
        rw [h1]
        have : (w.log "Detected new device: %s" [file.name]).sdCardMappings
            = w.sdCardMappings := rfl
        simp [List.filter_cons, hc, this]
    · simp only [hc, Bool.false_eq_true, if_false]
      obtain ⟨h1, h2, h3⟩ := ih w acc
      refine ⟨?_, h2, h3⟩
      rw [h1]; simp [List.filter_cons, hc]

/-- The devices reported by `getConnectedDevices`: the configured names among
the entries of `/dev/disk/by-label`, in listing order; none when the directory
cannot be read. -/
theorem getConnectedDevices_spec (w : World) :
    (getConnectedDevices w).2 =
        (((w.readDir "/dev/disk/by-label").getD []).map DirEntry.name).filter
          (fun n => (w.sdCardMappings.lookup n).isSome) ∧
      Ext [] w (getConnectedDevices w).1 ∧
      (getConnectedDevices w).1.dirs = w.dirs := by
  unfold getConnectedDevices
  cases h : w.readDir "/dev/disk/by-label" with
  | none => exact ⟨by simp, Ext.log _ _ _ _, rfl⟩
  | some files =>
    obtain ⟨h1, h2, h3⟩ := connectedLoop_spec files w []
    exact ⟨by simpa using h1, h2, h3⟩

theorem reclaimLoop_spec (devices : List String) (keys : List String) :
    ∀ w : World,
      (reclaimLoop devices keys w).processedDevices =
          w.processedDevices.filter (fun l => decide (l ∉ keys) || decide (l ∈ devices)) ∧
        (reclaimLoop devices keys w).trace =
          w.trace ++ (keys.filter (fun l => decide (l ∉ devices))).map
            (fun l => Event.log "Removed %s from processed devices" [l]) ∧
        (reclaimLoop devices keys w).sdCardMappings = w.sdCardMappings := by
  induction keys with
  | nil => intro w; simp [reclaimLoop]
  | cons k rest ih =>
    intro w
    unfold reclaimLoop
    rw [contains_eq]
    by_cases hk : k ∈ devices
    · simp only [hk, decide_True, Bool.not_true, Bool.false_eq_true, if_false]
      obtain ⟨h1, h2, h3⟩ := ih w
      refine ⟨?_, ?_, h3⟩
      · rw [h1]
        apply List.filter_congr
        intro l _
        by_cases hlk : l = k
        · subst hlk; simp [hk]
        · simp [hlk]
      · rw [h2]; simp [List.filter_cons, hk]
    · simp only [hk, decide_False, Bool.not_false, if_true]
      obtain ⟨h1, h2, h3⟩ := ih (World.log
        { w with processedDevices := List.filter (fun l => l != k) w.processedDevices }
        "Removed %s from processed devices" [k])
      refine ⟨?_, ?_, h3⟩
      · rw [h1]
        simp only [World.log, World.emit, List.filter_filter]
        apply List.filter_congr
        intro l _
        by_cases hlk : l = k
        · subst hlk; simp [hk]
        · simp [hlk]
      · rw [h2]; simp [List.filter_cons, hk, World.log, World.emit]

theorem dispatchLoop_spec (devices : List String) (w : World) :
    ∀ acc : List String,
      dispatchLoop devices w acc =
        acc ++ devices.filter (fun d => decide (d ∉ w.processedDevices)) := by
  induction devices with
  | nil => intro acc; simp [dispatchLoop]
  | cons d rest ih =>
    intro acc
    unfold dispatchLoop
    by_cases hd : d ∈ w.processedDevices
    · simp [hd, ih, List.filter_cons]
    · simp [hd, ih, List.filter_cons]

theorem ext_processMounted (fns : List String) (h1 : "copyFiles" ∈ fns)
    (h2 : "createProxies" ∈ fns) (h3 : "createProxiesForDirectory" ∈ fns) (h4 : "verify" ∈ fns)
    (h5 : "clearSDCard" ∈ fns) (h6 : "ejectSDCard" ∈ fns) (w : World) (label : String)
    (sd : SDCard) : Ext fns w (processMounted w label sd) := by
  have e1 := ext_copyFiles fns h1 w sd
  unfold processMounted
  split
  · rename_i w1 _ err hw; rw [hw] at e1; exact e1.trans (Ext.logErr fns _ _)
  · rename_i w1 hw; rw [hw] at e1
    exact e1.trans ((Ext.log fns _ _ _).trans (ext_ejectAndFinish fns h6 _ _ _))
  · rename_i w1 hw; rw [hw] at e1
    have e2 := (Ext.log fns w1 "Files were copied from %s, creating proxies..." [label]).trans
      (ext_createProxies fns h2 h3 _ sd)
    split
    · rename_i w2 err hw2; rw [hw2] at e2; exact (e1.trans e2).trans (Ext.logErr fns _ _)
    · rename_i w2 hw2; rw [hw2] at e2
      have e3 := (Ext.call fns w2 "verify" sd.Name h4).trans
        (ext_verifySourceDirs fns sd sd.SourceDirs _)
      split
      · rename_i w3 hw3; rw [hw3] at e3; exact (e1.trans e2).trans e3
      · rename_i w3 hw3; rw [hw3] at e3
        have e4 := ext_clearSDCard fns h5 w3 sd
        split
        · rename_i w4 err hw4; rw [hw4] at e4
          exact ((e1.trans e2).trans e3).trans (e4.trans (Ext.logErr fns _ _))
        · rename_i w4 hw4; rw [hw4] at e4
          exact ((e1.trans e2).trans e3).trans (e4.trans (ext_ejectAndFinish fns h6 _ _ _))

/-- What `processSDCard` does to the global variables: the label is in the
ledger afterwards, nothing leaves the ledger, and the configuration is
untouched. -/
theorem processSDCard_globals (w : World) (label : String) :
    (processSDCard w label).processedDevices =
        (if label ∈ w.processedDevices then w.processedDevices
          else w.processedDevices ++ [label]) ∧
      (processSDCard w label).sdCardMappings = w.sdCardMappings ∧
      (processSDCard w label).unreadable = w.unreadable := by
  unfold processSDCard
  dsimp only
  by_cases hp : label ∈ w.processedDevices
  · have hp' : label ∈ (w.emit (.call "processSDCard" label)).processedDevices := hp
    simp only [hp', hp, if_true]
    exact ⟨rfl, rfl, rfl⟩
  · have hp' : label ∉ (w.emit (.call "processSDCard" label)).processedDevices := hp
    simp only [hp', hp, if_false]
    split
    · exact ⟨rfl, rfl, rfl⟩
    · rename_i sd hsd
      have e1 := ext_ensureMounted ["mountDevice", "copyFiles", "createProxies",
        "createProxiesForDirectory", "verify", "clearSDCard", "ejectSDCard"] (by decide)
        (startProcessing (w.emit (.call "processSDCard" label)) label) label
      split
      · rename_i w2 hw2; rw [hw2] at e1
        exact ⟨e1.processedDevices, e1.sdCardMappings, e1.unreadable⟩
      · rename_i w2 hw2; rw [hw2] at e1
        have e2 := e1.trans (ext_processMounted _ (by decide) (by decide) (by decide)
          (by decide) (by decide) (by decide) w2 label sd)
        exact ⟨e2.processedDevices, e2.sdCardMappings, e2.unreadable⟩

theorem lifecycleTask_globals (w : World) (device : String) :
    (lifecycleTask w device).processedDevices =
        (if device ∈ w.processedDevices then w.processedDevices
          else w.processedDevices ++ [device]) ∧
      (lifecycleTask w device).sdCardMappings = w.sdCardMappings ∧
      (lifecycleTask w device).unreadable = w.unreadable := by
  have h := processSDCard_globals (w.log "Processing SD card: %s" [device]) device
  exact h

/-- Running dispatched tasks marks each of their labels and removes nothing
from the ledger. -/
theorem runTasks_globals (devices : List String) :
    ∀ w : World,
      (∀ l, l ∈ (runTasks w devices).processedDevices ↔ l ∈ w.processedDevices ∨ l ∈ devices) ∧
      (runTasks w devices).sdCardMappings = w.sdCardMappings ∧
      (runTasks w devices).unreadable = w.unreadable ∧
      (w.processedDevices.Nodup → (runTasks w devices).processedDevices.Nodup) := by
  induction devices with
  | nil => intro w; simp [runTasks]
  | cons d rest ih =>
    intro w
    obtain ⟨h1, h2, h3⟩ := lifecycleTask_globals w d
    obtain ⟨i1, i2, i3, i4⟩ := ih (lifecycleTask w d)
    have hrun : runTasks w (d :: rest) = runTasks (lifecycleTask w d) rest := rfl
    rw [hrun]
    refine ⟨?_, by rw [i2, h2], by rw [i3, h3], ?_⟩
    · intro l
      rw [i1 l, h1]
      by_cases hd : d ∈ w.processedDevices
      · simp only [hd, if_true, List.mem_cons]
        constructor
        · rintro (h | h)
          · exact Or.inl h
          · exact Or.inr (Or.inr h)
        · rintro (h | h | h)
          · exact Or.inl h
          · subst h; exact Or.inl hd
          · exact Or.inr h
      · simp only [hd, if_false, List.mem_append, List.mem_singleton, List.mem_cons]
        tauto
    · intro hnd
      apply i4
      rw [h1]
      by_cases hd : d ∈ w.processedDevices
      · simpa [hd] using hnd
      · simp only [hd, if_false]
        exact List.Nodup.append hnd (List.nodup_singleton d) (by simpa using hd)

/-- One iteration of the main loop: the ledger keeps exactly its labels that
are among the current devices, and a task is dispatched for exactly the current
devices that were not in the ledger. -/
theorem mainIteration_spec (w : World) :
    (mainIteration w).2 =
        (getConnectedDevices w).2.filter (fun d => decide (d ∉ w.processedDevices)) ∧
      (mainIteration w).1.processedDevices =
        w.processedDevices.filter (fun l => decide (l ∈ (getConnectedDevices w).2)) ∧
      (mainIteration w).1.sdCardMappings = w.sdCardMappings := by
  obtain ⟨_, hext, _⟩ := getConnectedDevices_spec w
  unfold mainIteration
  cases hg : getConnectedDevices w with
  | mk w1 devices =>
    rw [hg] at hext
    dsimp only
    obtain ⟨r1, _, r3⟩ := reclaimLoop_spec devices w1.processedDevices w1
    have hp : w1.processedDevices = w.processedDevices := hext.processedDevices
    have hledger : (reclaimLoop devices w1.processedDevices w1).processedDevices =
        w.processedDevices.filter (fun l => decide (l ∈ devices)) := by
      rw [r1, hp]
      apply List.filter_congr
      intro l hl
      simp [hl]
    refine ⟨?_, hledger, by rw [r3]; exact hext.sdCardMappings⟩
    rw [dispatchLoop_spec, hledger, List.nil_append]
    apply List.filter_congr
    intro d hd
    simp [List.mem_filter, hd]

theorem getConnectedDevices_setDevices (w : World) (labels : List String) :
    (getConnectedDevices (w.setDevices labels)).2 =
      if "/dev/disk/by-label" ∈ w.unreadable then []
      else labels.filter (fun n => (w.sdCardMappings.lookup n).isSome) := by
  rw [(getConnectedDevices_spec _).1]
  by_cases hu : "/dev/disk/by-label" ∈ w.unreadable
  · have : (w.setDevices labels).readDir "/dev/disk/by-label" = none := by
      simp [World.readDir, World.setDevices, hu]
    simp [this, hu]
  · have : (w.setDevices labels).readDir "/dev/disk/by-label" =
        some (labels.map (fun l => ⟨l, false⟩)) := by
      simp [World.readDir, World.setDevices, hu, List.lookup]
    simp only [this, hu, if_false, Option.getD_some, List.map_map]
    have hm : (DirEntry.name ∘ fun l => ({ name := l, isDir := false } : DirEntry)) = id := rfl
    rw [hm, List.map_id]
    rfl

theorem nodup_dispatched (w : World) (labels : List String) (hn : labels.Nodup) :
    (mainIteration (w.setDevices labels)).2.Nodup := by
  rw [(mainIteration_spec _).1, getConnectedDevices_setDevices]
  split
  · simp
  · exact (hn.filter _).filter _

theorem not_dispatched_of_mem_ledger (w : World) (l : String) (hl : l ∈ w.processedDevices) :
    l ∉ (mainIteration w).2 := by
  rw [(mainIteration_spec w).1]
  simp [List.mem_filter, hl]

/-- Dedup when the dispatched tasks have run: a label that is in the ledger when
a poll runs gets no task dispatched by that poll; and over two consecutive
polls, the tasks dispatched by the first poll having run (and so marked their
labels) before the second poll five seconds later, every label (in particular
one in the device set of both polls) has at most one task dispatched. -/
theorem dedup_consecutive_polls (w : World) (labels1 labels2 : List String) (l : String)
    (hn1 : labels1.Nodup) (hn2 : labels2.Nodup) :
    (∀ (w0 : World) (l0 : String), l0 ∈ w0.processedDevices → l0 ∉ (mainIteration w0).2) ∧
      ((mainIteration (w.setDevices labels1)).2 ++
        (mainIteration ((runTasks (mainIteration (w.setDevices labels1)).1
          (mainIteration (w.setDevices labels1)).2).setDevices labels2)).2).count l ≤ 1 := by
  refine ⟨not_dispatched_of_mem_ledger, ?_⟩
  have hd1 := nodup_dispatched w labels1 hn1
  have hd2 := nodup_dispatched (runTasks (mainIteration (w.setDevices labels1)).1
    (mainIteration (w.setDevices labels1)).2) labels2 hn2
  rw [List.count_append]
  by_cases h2 : l ∈ (mainIteration ((runTasks (mainIteration (w.setDevices labels1)).1
      (mainIteration (w.setDevices labels1)).2).setDevices labels2)).2
  · have h1 : l ∉ (mainIteration (w.setDevices labels1)).2 := by
      intro hmem
      have hmarked := ((runTasks_globals (mainIteration (w.setDevices labels1)).2
        (mainIteration (w.setDevices labels1)).1).1 l).mpr (Or.inr hmem)
      exact not_dispatched_of_mem_ledger
        ((runTasks (mainIteration (w.setDevices labels1)).1
          (mainIteration (w.setDevices labels1)).2).setDevices labels2) l hmarked h2
    rw [List.count_eq_zero_of_not_mem h1, Nat.zero_add]
    exact List.nodup_iff_count_le_one.mp hd2 l
  · rw [List.count_eq_zero_of_not_mem h2, Nat.add_zero]
    exact List.nodup_iff_count_le_one.mp hd1 l

/-- Dedup on the scenario, the first task having run: `CARD1` present in both
polls. -/
theorem dedup_consecutive_polls_witness :
    ((mainIteration (scenarioWorld.setDevices ["CARD1"])).2 ++
      (mainIteration ((runTasks (mainIteration (scenarioWorld.setDevices ["CARD1"])).1
        (mainIteration (scenarioWorld.setDevices ["CARD1"])).2).setDevices ["CARD1"])).2).count
          "CARD1" ≤ 1 :=
  (dedup_consecutive_polls scenarioWorld ["CARD1"] ["CARD1"] "CARD1"
    (by decide) (by decide)).2

/-- C3: the claim fails in the code.  The marking of a label happens inside its
task (`processSDCard`, line 257), not in the main loop: when the second of two
consecutive polls runs before the task dispatched by the first has marked the
label, `CARD1`, in the device set of both polls and with an empty ledger at
the start, has two tasks dispatched across the two polls. -/
theorem second_dispatch_before_marking :
    "CARD1" ∈ (getConnectedDevices pollWorld).2 ∧
      "CARD1" ∈ (getConnectedDevices (mainIteration pollWorld).1).2 ∧
      (mainIteration pollWorld).2 = ["CARD1"] ∧
      (mainIteration pollWorld).1.processedDevices = [] ∧
      (mainIteration (mainIteration pollWorld).1).2 = ["CARD1"] ∧
      ((mainIteration pollWorld).2 ++ (mainIteration (mainIteration pollWorld).1).2).count
        "CARD1" = 2 := by
  decide

/-- What one fan-out pass does: clients whose write fails are closed and
removed, every other client of the pass receives the message, and the history
is untouched. -/
theorem fanOut_spec (message : String) (cs : List Nat) :
    ∀ lr : LogReceiver,
      (LogReceiver.fanOut message cs lr).broken = lr.broken ∧
      (LogReceiver.fanOut message cs lr).logs = lr.logs ∧
      (LogReceiver.fanOut message cs lr).clients =
        lr.clients.filter (fun x => !(decide (x ∈ cs) && decide (x ∈ lr.broken))) ∧
      (LogReceiver.fanOut message cs lr).received =
        lr.received ++ (cs.filter (fun x => decide (x ∉ lr.broken))).map (fun x => (x, message)) ∧
      (LogReceiver.fanOut message cs lr).closed =
        lr.closed ++ cs.filter (fun x => decide (x ∈ lr.broken)) := by
  induction cs with
  | nil => intro lr; simp [LogReceiver.fanOut]
  | cons c rest ih =>
    intro lr
    unfold LogReceiver.fanOut
    by_cases hb : c ∈ lr.broken
    · simp only [hb, if_true]
      obtain ⟨h1, h2, h3, h4, h5⟩ := ih (LogReceiver.mk
        (lr.clients.filter (fun x => x != c)) lr.logs lr.broken lr.received (lr.closed ++ [c]))
      refine ⟨h1, h2, ?_, ?_, ?_⟩
      · rw [h3]
        simp only [List.filter_filter]
        apply List.filter_congr
        intro x _
        by_cases hx : x = c
        · subst hx; simp [hb]
        · simp [hx]
      · rw [h4]; simp [List.filter_cons, hb]
      · rw [h5]; simp [List.filter_cons, hb]
    · simp only [hb, if_false]
      obtain ⟨h1, h2, h3, h4, h5⟩ := ih (LogReceiver.mk
        lr.clients lr.logs lr.broken (lr.received ++ [(c, message)]) lr.closed)
      refine ⟨h1, h2, ?_, ?_, ?_⟩
      · rw [h3]
        apply List.filter_congr
        intro x _
        by_cases hx : x = c
        · subst hx; simp [hb]
        · simp [hx]
      · rw [h4]; simp [List.filter_cons, hb]
      · rw [h5]; simp [List.filter_cons, hb]

theorem publish_logs (lr : LogReceiver) (message : String) :
    (lr.publish message).logs =
      (if lr.logs.length = 20 then lr.logs.drop 1 else lr.logs) ++ [message] := by
  unfold LogReceiver.publish
  dsimp only
  rw [(fanOut_spec message _ _).2.1]

theorem replay_logs (conn : Nat) (entries : List String) :
    ∀ lr : LogReceiver, (LogReceiver.replay conn entries lr).logs = lr.logs := by
  induction entries with
  | nil => intro lr; rfl
  | cons e rest ih =>
    intro lr
    unfold LogReceiver.replay
    split
    · rfl
    · rw [ih]

theorem step_logs (lr : LogReceiver) (a : LogAction) :
    (lr.step a).logs =
      match a with
      | .publish message =>
        (if lr.logs.length = 20 then lr.logs.drop 1 else lr.logs) ++ [message]
      | _ => lr.logs := by
  cases a with
  | publish m => exact publish_logs lr m
  | attach c => exact replay_logs c _ _
  | detach c => rfl
  | fail c => rfl

theorem run_append (lr : LogReceiver) (xs ys : List LogAction) :
    lr.run (xs ++ ys) = (lr.run xs).run ys := by
  simp [LogReceiver.run, List.foldl_append]

theorem published_append (xs ys : List LogAction) :
    published (xs ++ ys) = published xs ++ published ys := by
  induction xs with
  | nil => rfl
  | cons a rest ih => cases a <;> simp [published, ih]

/-- The last `min n 20` elements of a list of length `n`. -/
theorem last20_snoc (p : List String) (m : String) :
    (if (p.drop (p.length - min p.length 20)).length = 20
        then (p.drop (p.length - min p.length 20)).drop 1
        else p.drop (p.length - min p.length 20)) ++ [m] =
      (p ++ [m]).drop ((p ++ [m]).length - min (p ++ [m]).length 20) := by
  by_cases h : 20 ≤ p.length
  · have h1 : p.length - min p.length 20 = p.length - 20 := by omega
    have h2 : (p ++ [m]).length - min (p ++ [m]).length 20 = p.length - 20 + 1 := by
      simp only [List.length_append, List.length_singleton]; omega
    rw [h1, h2]
    have hlen : (p.drop (p.length - 20)).length = 20 := by
      rw [List.length_drop]; omega
    rw [if_pos hlen, List.drop_drop, List.drop_append_of_le_length (by omega)]
  · have h1 : p.length - min p.length 20 = 0 := by omega
    have h2 : (p ++ [m]).length - min (p ++ [m]).length 20 = 0 := by
      simp only [List.length_append, List.length_singleton]; omega
    rw [h1, h2]
    simp only [List.drop_zero]
    rw [if_neg (by omega)]

theorem run_logs (actions : List LogAction) :
    (NewLogReceiver.run actions).logs =
      (published actions).drop
        ((published actions).length - min (published actions).length 20) := by
  induction actions using List.reverseRecOn with
  | nil => rfl
  | append_singleton xs a ih =>
    rw [run_append]
    have hstep : (NewLogReceiver.run xs).run [a] = (NewLogReceiver.run xs).step a := rfl
    rw [hstep, step_logs, published_append]
    cases a with
    | publish m =>
      dsimp only
      rw [ih]
      exact last20_snoc (published xs) m
    | attach c => simpa [published] using ih
    | detach c => simpa [published] using ih
    | fail c => simpa [published] using ih

/-- C5: after any sequence of steps of the log receiver, of which `n` are
publishes, the retained history is the last `min n 20` published lines in
publish order; it never holds more than 20 lines; and a line published when
the history holds 20 lines drops the oldest one. -/
theorem history_is_last_twenty (actions : List LogAction) :
    (NewLogReceiver.run actions).logs =
        (published actions).drop
          ((published actions).length - min (published actions).length 20) ∧
      (NewLogReceiver.run actions).logs.length = min (published actions).length 20 ∧
      (NewLogReceiver.run actions).logs.length ≤ 20 ∧
      ∀ message : String, (NewLogReceiver.run actions).logs.length = 20 →
        ((NewLogReceiver.run actions).publish message).logs =
          (NewLogReceiver.run actions).logs.tail ++ [message] := by
  have h := run_logs actions
  have hlen : (NewLogReceiver.run actions).logs.length = min (published actions).length 20 := by
    rw [h, List.length_drop]; omega
  refine ⟨h, hlen, by omega, ?_⟩
  intro message hfull
  rw [publish_logs, if_pos hfull, List.drop_one]

/-- Witness for C5: after 25 published lines the history is lines 6 to 25, and
publishing a 26th drops line 6. -/
theorem history_is_last_twenty_witness :
    (NewLogReceiver.run (lines25.map LogAction.publish)).logs = lines25.drop 5 ∧
      ((NewLogReceiver.run (lines25.map LogAction.publish)).publish "line 26").logs =
        (NewLogReceiver.run (lines25.map LogAction.publish)).logs.tail ++ ["line 26"] :=
  ⟨by decide,
    (history_is_last_twenty (lines25.map LogAction.publish)).2.2.2 "line 26" (by decide)⟩

/-- The replay loop: a connection whose writes fail is closed and removed at
the first entry; otherwise every entry is written, in order. -/
theorem replay_spec (conn : Nat) (entries : List String) :
    ∀ lr : LogReceiver,
      LogReceiver.replay conn entries lr =
        if conn ∈ lr.broken ∧ entries ≠ [] then
          LogReceiver.mk (lr.clients.filter (fun c => c != conn)) lr.logs lr.broken lr.received
            (lr.closed ++ [conn])
        else
          LogReceiver.mk lr.clients lr.logs lr.broken
            (lr.received ++ entries.map (fun e => (conn, e))) lr.closed := by
  induction entries with
  | nil => intro lr; simp [LogReceiver.replay]
  | cons e rest ih =>
    intro lr
    unfold LogReceiver.replay
    by_cases hb : conn ∈ lr.broken
    · simp [hb]
    · simp only [hb, if_false, false_and]
      rw [ih]
      simp [hb]

theorem receivedBy_append (lr : LogReceiver) (c : Nat) (extra : List (Nat × String)) :
    LogReceiver.receivedBy
        (LogReceiver.mk lr.clients lr.logs lr.broken (lr.received ++ extra) lr.closed) c =
      lr.receivedBy c ++ (extra.filter (fun r => r.1 == c)).map Prod.snd := by
  simp [LogReceiver.receivedBy, List.filter_append]

theorem filter_map_pair_self (c : Nat) (entries : List String) :
    ((entries.map (fun e => (c, e))).filter (fun r => r.1 == c)).map Prod.snd = entries := by
  induction entries with
  | nil => rfl
  | cons e rest ih => simp [List.filter_cons, ih]

theorem filter_map_pair_other (c d : Nat) (hd : d ≠ c) (entries : List String) :
    ((entries.map (fun e => (d, e))).filter (fun r => r.1 == c)).map Prod.snd = [] := by
  induction entries with
  | nil => rfl
  | cons e rest ih =>
    have hdc : (d == c) = false := by simpa using hd
    simp only [List.map_cons, List.filter_cons, hdc, Bool.false_eq_true, if_false]
    exact ih

theorem filter_map_fanout (c : Nat) (m : String) (xs : List Nat) (hn : xs.Nodup) :
    ((xs.map (fun x => (x, m))).filter (fun r => r.1 == c)).map Prod.snd =
      if c ∈ xs then [m] else [] := by
  induction xs with
  | nil => rfl
  | cons x rest ih =>
    have hrest := ih (List.nodup_cons.mp hn).2
    have hx : x ∉ rest := (List.nodup_cons.mp hn).1
    by_cases hxc : x = c
    · subst hxc
      simp only [List.map_cons, List.filter_cons, beq_self_eq_true, if_true, List.mem_cons,
        true_or, List.map_cons]
      rw [hrest, if_neg hx]
    · have hne : (x == c) = false := by simpa using hxc
      have hcx : ¬ c = x := fun h => hxc h.symm
      simp only [List.map_cons, List.filter_cons, hne, Bool.false_eq_true, if_false,
        List.mem_cons, hcx, false_or]
      exact hrest

/-- A step that is not about connection `c` (no attach, detach or failure of
`c`): `c` stays attached or unattached as it was, its writes still succeed, and
it receives exactly the published message when attached and nothing otherwise. -/
theorem step_other (lr : LogReceiver) (a : LogAction) (c : Nat)
    (hn : lr.clients.Nodup) (hb : c ∉ lr.broken)
    (ha : a ≠ .attach c ∧ a ≠ .detach c ∧ a ≠ .fail c) :
    (lr.step a).clients.Nodup ∧ c ∉ (lr.step a).broken ∧
      (c ∈ (lr.step a).clients ↔ c ∈ lr.clients) ∧
      (lr.step a).receivedBy c =
        lr.receivedBy c ++ (if c ∈ lr.clients then published [a] else []) := by
  cases a with
  | publish m =>
    obtain ⟨f1, _, f3, f4, _⟩ := fanOut_spec m lr.clients
      (LogReceiver.mk lr.clients ((if lr.logs.length = 20 then lr.logs.drop 1 else lr.logs) ++ [m])
        lr.broken lr.received lr.closed)
    have hstep : lr.step (.publish m) = LogReceiver.fanOut m lr.clients
      (LogReceiver.mk lr.clients ((if lr.logs.length = 20 then lr.logs.drop 1 else lr.logs) ++ [m])
        lr.broken lr.received lr.closed) := rfl
    rw [hstep]
    refine ⟨by rw [f3]; exact hn.filter _, by rw [f1]; exact hb, ?_, ?_⟩
    · rw [f3, List.mem_filter]
      simp [hb]
    · simp only [LogReceiver.receivedBy] at *
      rw [f4, List.filter_append, List.map_append,
        filter_map_fanout c m _ (hn.filter _)]
      simp [List.mem_filter, hb, published]
  | attach d =>
    have hd : d ≠ c := fun h => ha.1 (by rw [h])
    have hstep : lr.step (.attach d) = LogReceiver.replay d lr.logs
      (LogReceiver.mk (if d ∈ lr.clients then lr.clients else lr.clients ++ [d]) lr.logs
        lr.broken lr.received lr.closed) := rfl
    have hn' : (if d ∈ lr.clients then lr.clients else lr.clients ++ [d]).Nodup := by
      split
      · exact hn
      · rename_i hnot
        exact List.Nodup.append hn (List.nodup_singleton d) (by simpa using hnot)
    have hmem : c ∈ (if d ∈ lr.clients then lr.clients else lr.clients ++ [d]) ↔
        c ∈ lr.clients := by
      split
      · rfl
      · simp [Ne.symm hd]
    rw [hstep, replay_spec]
    have hcd : (c != d) = true := by simpa using Ne.symm hd
    dsimp only
    by_cases hbr : d ∈ lr.broken ∧ lr.logs ≠ []
    · rw [if_pos hbr]
      refine ⟨hn'.filter _, hb, ?_, ?_⟩
      · simp only [List.mem_filter, hcd, and_true]; exact hmem
      · simp [LogReceiver.receivedBy, published]
    · rw [if_neg hbr]
      refine ⟨hn', hb, hmem, ?_⟩
      simp only [LogReceiver.receivedBy, List.filter_append, List.map_append,
        filter_map_pair_other c d hd, published]
      simp
  | detach d =>
    have hd : d ≠ c := fun h => ha.2.1 (by rw [h])
    have hcd : (c != d) = true := by simpa using Ne.symm hd
    refine ⟨hn.filter _, hb, ?_, ?_⟩
    · simp [LogReceiver.step, LogReceiver.disconnect, List.mem_filter, hcd]
    · simp [LogReceiver.step, LogReceiver.disconnect, LogReceiver.receivedBy, published]
  | fail d =>
    have hd : d ≠ c := fun h => ha.2.2 (by rw [h])
    refine ⟨hn, ?_, Iff.rfl, ?_⟩
    · simp [LogReceiver.step, hb, Ne.symm hd]
    · simp [LogReceiver.step, LogReceiver.receivedBy, published]

/-- Over a sequence of steps none of which is about connection `c`. -/
theorem run_other (c : Nat) (actions : List LogAction) :
    ∀ lr : LogReceiver, lr.clients.Nodup → c ∉ lr.broken →
      (∀ a ∈ actions, a ≠ .attach c ∧ a ≠ .detach c ∧ a ≠ .fail c) →
      (lr.run actions).clients.Nodup ∧ c ∉ (lr.run actions).broken ∧
        (c ∈ (lr.run actions).clients ↔ c ∈ lr.clients) ∧
        (lr.run actions).receivedBy c =
          lr.receivedBy c ++ (if c ∈ lr.clients then published actions else []) := by
  induction actions with
  | nil => intro lr hn hb _; simp [LogReceiver.run, published, hn, hb]
  | cons a rest ih =>
    intro lr hn hb hall
    obtain ⟨s1, s2, s3, s4⟩ := step_other lr a c hn hb (hall a (List.mem_cons_self _ _))
    obtain ⟨i1, i2, i3, i4⟩ := ih (lr.step a) s1 s2
      (fun x hx => hall x (List.mem_cons_of_mem _ hx))
    have hrun : lr.run (a :: rest) = (lr.step a).run rest := rfl
    rw [hrun]
    refine ⟨i1, i2, i3.trans s3, ?_⟩
    rw [i4, s4]
    have hpub : published (a :: rest) = published [a] ++ published rest :=
      published_append [a] rest
    by_cases hc : c ∈ lr.clients
    · simp [hc, s3.mpr hc, hpub]
    · have hc' : c ∉ (lr.step a).clients := fun h => hc (s3.mp h)
      simp [hc, hc']

/-- C6: an observer attached once, after the steps `pre`, whose writes all
succeed and which stays attached during the steps `post`, receives exactly the
history at attach time (the last `min n 20` of the `n` lines published in
`pre`, oldest first) followed by every line published in `post`, in publish
order. -/
theorem replay_then_live (pre post : List LogAction) (c : Nat)
    (hpre : ∀ a ∈ pre, a ≠ .attach c ∧ a ≠ .detach c ∧ a ≠ .fail c)
    (hpost : ∀ a ∈ post, a ≠ .attach c ∧ a ≠ .detach c ∧ a ≠ .fail c) :
    (NewLogReceiver.run (pre ++ [.attach c] ++ post)).receivedBy c =
      (published pre).drop ((published pre).length - min (published pre).length 20) ++
        published post := by
  obtain ⟨p1, p2, p3, p4⟩ := run_other c pre NewLogReceiver List.nodup_nil
    (by simp [NewLogReceiver]) hpre
  have hnot : c ∉ (NewLogReceiver.run pre).clients := by
    rw [p3]; simp [NewLogReceiver]
  have hrecv : (NewLogReceiver.run pre).receivedBy c = [] := by
    rw [p4]; simp [NewLogReceiver, LogReceiver.receivedBy]
  have hattach : (NewLogReceiver.run pre).step (.attach c) =
      LogReceiver.mk ((NewLogReceiver.run pre).clients ++ [c]) (NewLogReceiver.run pre).logs
        (NewLogReceiver.run pre).broken
        ((NewLogReceiver.run pre).received ++
          (NewLogReceiver.run pre).logs.map (fun e => (c, e)))
        (NewLogReceiver.run pre).closed := by
    have hstep : (NewLogReceiver.run pre).step (.attach c) = LogReceiver.replay c
        (NewLogReceiver.run pre).logs
        (LogReceiver.mk (if c ∈ (NewLogReceiver.run pre).clients
            then (NewLogReceiver.run pre).clients else (NewLogReceiver.run pre).clients ++ [c])
          (NewLogReceiver.run pre).logs (NewLogReceiver.run pre).broken
          (NewLogReceiver.run pre).received (NewLogReceiver.run pre).closed) := rfl
    rw [hstep, replay_spec]
    simp [hnot, p2]
  have hrun : NewLogReceiver.run (pre ++ [.attach c] ++ post) =
      ((NewLogReceiver.run pre).step (.attach c)).run post := by
    rw [run_append, run_append]; rfl
  rw [hrun, hattach]
  obtain ⟨_, _, _, q4⟩ := run_other c post
    (LogReceiver.mk ((NewLogReceiver.run pre).clients ++ [c]) (NewLogReceiver.run pre).logs
        (NewLogReceiver.run pre).broken
        ((NewLogReceiver.run pre).received ++
          (NewLogReceiver.run pre).logs.map (fun e => (c, e)))
        (NewLogReceiver.run pre).closed)
    (List.Nodup.append p1 (List.nodup_singleton c) (by simpa using hnot)) p2 hpost
  rw [q4]
  simp only [LogReceiver.receivedBy, List.filter_append, List.map_append] at hrecv ⊢
  rw [hrecv, filter_map_pair_self, run_logs]
  simp

/-- Witness for C6: attached after 25 distinct lines, then two more lines are
published: the observer receives lines 6 to 25 and then the two new lines. -/
theorem replay_then_live_witness :
    (NewLogReceiver.run (lines25.map LogAction.publish ++ [.attach 7] ++
        [.publish "line 26", .publish "line 27"])).receivedBy 7 =
      lines25.drop 5 ++ ["line 26", "line 27"] :=
  replay_then_live (lines25.map LogAction.publish) [.publish "line 26", .publish "line 27"] 7
    (by decide) (by decide)

/-! ## The pipeline after the copy step -/

theorem ext_ejectSDCard_body (fns : List String) (w : World) (sd : SDCard) :
    Ext fns (w.emit (.call "ejectSDCard" sd.Name)) (ejectSDCard w sd).1 := by
  have h0 := ext_isMounted fns (w.emit (.call "ejectSDCard" sd.Name)) sd.Name
  unfold ejectSDCard
  split
  · rename_i w1 _ err hw; rw [hw] at h0; exact h0
  · rename_i w1 hw; rw [hw] at h0; exact h0.trans (Ext.log fns _ _ _)
  · rename_i w1 hw; rw [hw] at h0
    have h2 := Ext.exec fns w1 ["umount", mountPoint sd.Name]
    split
    · rename_i w2 hw2; rw [hw2] at h2; exact h0.trans h2
    · rename_i w2 hw2; rw [hw2] at h2
      exact (h0.trans h2).trans ((Ext.fs fns w2 w2.dirs _).trans (Ext.log fns _ _ _))

theorem calls_ejectAndFinish (fn : String) (w : World) (label : String) (sd : SDCard) :
    calls fn (ejectAndFinish w label sd).trace =
      calls fn w.trace ++ calls fn [.call "ejectSDCard" sd.Name] := by
  have h0 := ext_ejectSDCard_body [] w sd
  have hbase := calls_emit fn w (.call "ejectSDCard" sd.Name)
  have key : Ext [] (w.emit (.call "ejectSDCard" sd.Name)) (ejectAndFinish w label sd) := by
    unfold ejectAndFinish
    split
    · rename_i w1 err hw; rw [hw] at h0; exact h0.trans (Ext.logErr _ _ _)
    · rename_i w1 hw; rw [hw] at h0; exact h0.trans (Ext.log _ _ _ _)
  rw [key.calls_eq fn (by simp), hbase]

/-- C7: in a run of `processSDCard` on a new, configured label whose device is
mounted (at once or after a successful mount) and for which `copyFiles`
returns `(false, nil)`, neither `createProxies` nor `clearSDCard` is invoked
and `ejectSDCard` is invoked, once. -/
theorem empty_copy_skips_to_eject (w wm wc : World) (label : String) (sd : SDCard)
    (hnew : label ∉ w.processedDevices)
    (hcfg : w.sdCardMappings.lookup label = some sd)
    (hmount : ensureMounted (startProcessing (w.emit (.call "processSDCard" label)) label) label
      = (wm, true))
    (hcopy : copyFiles wm sd = (wc, false, none)) :
    calls "createProxies" (processSDCard w label).trace = calls "createProxies" w.trace ∧
      calls "createProxiesForDirectory" (processSDCard w label).trace =
        calls "createProxiesForDirectory" w.trace ∧
      calls "clearSDCard" (processSDCard w label).trace = calls "clearSDCard" w.trace ∧
      calls "ejectSDCard" (processSDCard w label).trace =
        calls "ejectSDCard" w.trace ++ [sd.Name] := by
  have e1 := ext_ensureMounted ["mountDevice", "copyFiles"] (by decide)
      (startProcessing (w.emit (.call "processSDCard" label)) label) label
  rw [hmount] at e1
  have e2 := ext_copyFiles ["mountDevice", "copyFiles"] (by decide) wm sd
  rw [hcopy] at e2
  have e3 := (e1.trans e2).trans (Ext.log _ wc
    "No files copied from %s. Skipping proxy creation and clearing." [label])
  have hrun : processSDCard w label = ejectAndFinish
      (wc.log "No files copied from %s. Skipping proxy creation and clearing." [label])
      label sd := by
    rw [processSDCard_fresh w label sd hnew hcfg, hmount]
    dsimp only
    unfold processMounted
    rw [hcopy]
  have hall : ∀ fn : String, fn ≠ "processSDCard" → fn ∉ ["mountDevice", "copyFiles"] →
      calls fn (processSDCard w label).trace =
        calls fn w.trace ++ calls fn [.call "ejectSDCard" sd.Name] := by
    intro fn h1 h2
    rw [hrun, calls_ejectAndFinish, e3.calls_eq fn h2, calls_startProcessing fn h1]
  refine ⟨?_, ?_, ?_, ?_⟩
  · simpa [calls] using hall "createProxies" (by decide) (by decide)
  · simpa [calls] using hall "createProxiesForDirectory" (by decide) (by decide)
  · simpa [calls] using hall "clearSDCard" (by decide) (by decide)
  · simpa [calls] using hall "ejectSDCard" (by decide) (by decide)

/-- Witness for C7: the device holds only the ignored file `b.thm`. -/
theorem empty_copy_skips_to_eject_witness :
    calls "createProxies" (processSDCard ignoredOnlyWorld "CARD1").trace = [] ∧
      calls "clearSDCard" (processSDCard ignoredOnlyWorld "CARD1").trace = [] ∧
      calls "ejectSDCard" (processSDCard ignoredOnlyWorld "CARD1").trace = ["CARD1"] :=
  have h := empty_copy_skips_to_eject ignoredOnlyWorld ignoredOnlyMounted
    (copyFiles ignoredOnlyMounted card1).1 "CARD1" card1
    (by decide) (by decide) (by decide) (by decide)
  ⟨h.1, h.2.2.1, h.2.2.2⟩

/-! ## File-system facts -/

theorem lookup_isSome_iff (p : String) (dirs : List (String × List DirEntry)) :
    (dirs.lookup p).isSome = true ↔ ∃ d ∈ dirs, d.1 = p := by
  induction dirs with
  | nil => simp
  | cons d rest ih =>
    obtain ⟨k, v⟩ := d
    by_cases hk : p = k
    · subst hk; simp [List.lookup]
    · have hk' : (p == k) = false := by simpa using hk
      have hk2 : ¬ k = p := fun h => hk h.symm
      simp [List.lookup, hk', ih, hk2]

/-- A path exists exactly when it is a listed directory or an entry of one. -/
theorem statOk_iff (w : World) (p : String) :
    w.statOk p = true ↔
      (∃ d ∈ w.dirs, d.1 = p) ∨ ∃ d ∈ w.dirs, ∃ e ∈ d.2, pathJoin d.1 e.name = p := by
  unfold World.statOk
  rw [Bool.or_eq_true, lookup_isSome_iff]
  simp [List.any_eq_true]

theorem mem_dirs_addEntry (w : World) (dir : String) (e : DirEntry)
    (d : String × List DirEntry) (hd : d ∈ w.dirs) :
    ∃ d' ∈ (w.addEntry dir e).dirs, d'.1 = d.1 ∧ (∀ x ∈ d.2, x ∈ d'.2) ∧
      (d.1 = dir → ∃ x ∈ d'.2, x.name = e.name) := by
  by_cases hc : (d.1 == dir && !(d.2.any (fun x => x.name == e.name))) = true
  · refine ⟨(d.1, d.2 ++ [e]), ?_, rfl, ?_, ?_⟩
    · simp only [World.addEntry, List.mem_map]
      exact ⟨d, hd, by simp only [hc, if_true]⟩
    · intro x hx; exact List.mem_append_left _ hx
    · intro _; exact ⟨e, by simp, rfl⟩
  · refine ⟨d, ?_, rfl, fun x hx => hx, ?_⟩
    · simp only [World.addEntry, List.mem_map]
      exact ⟨d, hd, by simp only [hc, Bool.false_eq_true, if_false]⟩
    · intro hdir
      have hany : d.2.any (fun x => x.name == e.name) = true := by
        simp only [Bool.and_eq_true, Bool.not_eq_true', not_and, Bool.not_eq_false] at hc
        exact hc (by simpa using hdir)
      obtain ⟨x, hx, hxe⟩ := List.any_eq_true.mp hany
      exact ⟨x, hx, by simpa using hxe⟩

theorem statOk_addEntry_mono (w : World) (dir : String) (e : DirEntry) (p : String)
    (h : w.statOk p = true) : (w.addEntry dir e).statOk p = true := by
  rw [statOk_iff] at h ⊢
  rcases h with ⟨d, hd, hp⟩ | ⟨d, hd, x, hx, hp⟩
  · obtain ⟨d', hd', h1, _, _⟩ := mem_dirs_addEntry w dir e d hd
    exact Or.inl ⟨d', hd', h1.trans hp⟩
  · obtain ⟨d', hd', h1, h2, _⟩ := mem_dirs_addEntry w dir e d hd
    exact Or.inr ⟨d', hd', x, h2 x hx, by rw [h1]; exact hp⟩

theorem dirExists_addEntry (w : World) (dir : String) (e : DirEntry) (p : String)
    (h : ∃ d ∈ w.dirs, d.1 = p) : ∃ d ∈ (w.addEntry dir e).dirs, d.1 = p := by
  obtain ⟨d, hd, hp⟩ := h
  obtain ⟨d', hd', h1, _, _⟩ := mem_dirs_addEntry w dir e d hd
  exact ⟨d', hd', h1.trans hp⟩

/-- After a file has been added to an existing directory, its path exists. -/
theorem statOk_addEntry_self (w : World) (dir : String) (e : DirEntry)
    (h : ∃ d ∈ w.dirs, d.1 = dir) : (w.addEntry dir e).statOk (pathJoin dir e.name) = true := by
  obtain ⟨d, hd, hp⟩ := h
  obtain ⟨d', hd', h1, _, h3⟩ := mem_dirs_addEntry w dir e d hd
  obtain ⟨x, hx, hxe⟩ := h3 hp
  rw [statOk_iff]
  exact Or.inr ⟨d', hd', x, hx, by rw [h1, hp, hxe]⟩

theorem mkdirAll_mono (w : World) (path p : String) (h : w.statOk p = true) :
    (w.mkdirAll path).2.statOk p = true := by
  unfold World.mkdirAll
  split
  · exact h
  · split
    · exact h
    · rw [statOk_iff] at h ⊢
      rcases h with ⟨d, hd, hp⟩ | ⟨d, hd, x, hx, hp⟩
      · exact Or.inl ⟨d, List.mem_append_left _ hd, hp⟩
      · exact Or.inr ⟨d, List.mem_append_left _ hd, x, hx, hp⟩

theorem mkdirAll_exists (w : World) (path : String) (h : (w.mkdirAll path).1 = true) :
    ∃ d ∈ (w.mkdirAll path).2.dirs, d.1 = path := by
  unfold World.mkdirAll at h ⊢
  split
  · rename_i hs; exact (lookup_isSome_iff _ _).mp hs
  · split
    · rename_i hs hf; simp [hs, hf] at h
    · exact ⟨(path, []), by simp, rfl⟩

/-! ## The copy step -/

theorem getLast?_append_of_some {α : Type} (l es : List α) (x : α)
    (h : es.getLast? = some x) : (l ++ es).getLast? = some x := by
  cases es with
  | nil => simp at h
  | cons a rest =>
    rw [List.getLast?_append_cons]
    exact h

theorem CopyRun.start (w : World) (copied : Bool) : CopyRun w w copied none :=
  ⟨⟨[], by simp, by simp, by simp⟩, fun _ h => h, rfl⟩

/-- A run preceded by steps `pre` none of which is a failed command. -/
theorem CopyRun.prepend (w w1 : World) {w2 : World} {copied : Bool} {err : Option GoError}
    (pre : List Event) (htrace : w1.trace = w.trace ++ pre)
    (hok : ∀ argv, Event.exec argv ∈ pre → argv ∉ w.failing)
    (hcp : ∀ src dst, Event.exec ["cp", src, dst] ∈ pre → w1.statOk dst = true)
    (hmono : ∀ p, w.statOk p = true → w1.statOk p = true)
    (hfail : w1.failing = w.failing)
    (h : CopyRun w1 w2 copied err) : CopyRun w w2 copied err := by
  obtain ⟨es, he, h1, h2⟩ := h.events
  refine ⟨⟨pre ++ es, by rw [he, htrace, List.append_assoc], ?_, ?_⟩,
    fun p hp => h.mono p (hmono p hp), by rw [h.failing, hfail]⟩
  · intro argv hmem hf
    rcases List.mem_append.mp hmem with hpre | hes
    · exact absurd hf (hok argv hpre)
    · obtain ⟨a, b, c⟩ := h1 argv hes (by rw [hfail]; exact hf)
      exact ⟨a, b, getLast?_append_of_some pre es _ c⟩
  · intro src dst hmem hnf
    rcases List.mem_append.mp hmem with hpre | hes
    · exact h.mono dst (hcp src dst hpre)
    · exact h2 src dst hes (by rw [hfail]; exact hnf)

theorem copyRun_copyDirFiles (sd : SDCard) (srcDir : String) (files : List DirEntry) :
    ∀ (w : World) (fc : Bool), (∃ d ∈ w.dirs, d.1 = sd.Destination) →
      CopyRun w (copyDirFiles sd srcDir files w fc).1 (copyDirFiles sd srcDir files w fc).2.1
          (copyDirFiles sd srcDir files w fc).2.2 ∧
        ∃ d ∈ (copyDirFiles sd srcDir files w fc).1.dirs, d.1 = sd.Destination := by
  induction files with
  | nil => intro w fc hd; exact ⟨CopyRun.start w fc, hd⟩
  | cons file rest ih =>
    intro w fc hd
    unfold copyDirFiles
    split
    · exact ih w fc hd
    · split
      · obtain ⟨i1, i2⟩ := ih (w.log "Ignoring file: %s" [file.name]) fc hd
        exact ⟨CopyRun.prepend w (w.log "Ignoring file: %s" [file.name])
          [.log "Ignoring file: %s" [file.name]] rfl (by simp) (by simp)
          (fun _ h => h) rfl i1, i2⟩
      · dsimp only
        by_cases hf : ["cp", pathJoin srcDir file.name,
            pathJoin sd.Destination (destinationFileName file.name)] ∈ w.failing
        · have hexec : w.exec ["cp", pathJoin srcDir file.name,
              pathJoin sd.Destination (destinationFileName file.name)] =
              (false, w.emit (.exec ["cp", pathJoin srcDir file.name,
                pathJoin sd.Destination (destinationFileName file.name)])) := by
            simp [World.exec, hf]
          rw [hexec]
          refine ⟨⟨⟨[.exec ["cp", pathJoin srcDir file.name,
            pathJoin sd.Destination (destinationFileName file.name)]], rfl, ?_, ?_⟩,
            fun _ h => h, rfl⟩, hd⟩
          · intro argv hmem _
            simp only [List.mem_singleton, Event.exec.injEq] at hmem
            subst hmem
            exact ⟨rfl, rfl, rfl⟩
          · intro src dst hmem hnf
            simp only [List.mem_singleton, Event.exec.injEq] at hmem
            rw [hmem] at hnf
            exact absurd hf hnf
        · have hexec : w.exec ["cp", pathJoin srcDir file.name,
              pathJoin sd.Destination (destinationFileName file.name)] =
              (true, w.emit (.exec ["cp", pathJoin srcDir file.name,
                pathJoin sd.Destination (destinationFileName file.name)])) := by
            simp [World.exec, hf]
          rw [hexec]
          dsimp only
          have hd1 : ∃ d ∈ (w.emit (.exec ["cp", pathJoin srcDir file.name,
              pathJoin sd.Destination (destinationFileName file.name)])).dirs,
              d.1 = sd.Destination := hd
          obtain ⟨wn, hwn⟩ : ∃ wn : World, wn = ((w.emit (.exec ["cp", pathJoin srcDir file.name,
              pathJoin sd.Destination (destinationFileName file.name)])).addEntry sd.Destination
                ⟨destinationFileName file.name, false⟩).log "Copied file: %s to %s"
                [pathJoin srcDir file.name,
                  pathJoin sd.Destination (destinationFileName file.name)] := ⟨_, rfl⟩
          rw [← hwn]
          have hdn : ∃ d ∈ wn.dirs, d.1 = sd.Destination := by
            rw [hwn]; exact dirExists_addEntry _ _ _ _ hd1
          obtain ⟨i1, i2⟩ := ih wn true hdn
          refine ⟨CopyRun.prepend w wn [.exec ["cp", pathJoin srcDir file.name,
              pathJoin sd.Destination (destinationFileName file.name)],
              .log "Copied file: %s to %s" [pathJoin srcDir file.name,
                pathJoin sd.Destination (destinationFileName file.name)]]
            (by rw [hwn]; simp [World.log, World.emit, World.addEntry]) ?_ ?_ ?_
            (by rw [hwn]; rfl) i1, i2⟩
          · intro argv hmem
            simp only [List.mem_cons, Event.exec.injEq, List.mem_singleton, reduceCtorEq,
              or_false, List.not_mem_nil] at hmem
            rw [hmem]; exact hf
          · intro src dst hmem
            simp only [List.mem_cons, Event.exec.injEq, List.mem_singleton, reduceCtorEq,
              or_false, List.not_mem_nil, List.cons.injEq, and_true, true_and] at hmem
            rw [hmem.2, hwn]
            exact statOk_addEntry_self _ sd.Destination ⟨destinationFileName file.name, false⟩ hd1
          · intro p hp
            rw [hwn]
            exact statOk_addEntry_mono _ _ _ p hp

theorem CopyRun.stop (w : World) (copied : Bool) (err : Option GoError) :
    CopyRun w w copied err :=
  ⟨⟨[], by simp, by simp, by simp⟩, fun _ h => h, rfl⟩

theorem CopyRun.toFalse {w w2 : World} {copied : Bool} {err : Option GoError}
    (h : CopyRun w w2 copied err) : CopyRun w w2 false err := by
  obtain ⟨es, he, h1, h2⟩ := h.events
  exact ⟨⟨es, he, fun argv hm hf => ⟨rfl, (h1 argv hm hf).2⟩, h2⟩, h.mono, h.failing⟩

/-- A run that ended without error, followed by another run. -/
theorem CopyRun.trans_none {a b c : World} {c1 c2 : Bool} {err : Option GoError}
    (h1 : CopyRun a b c1 none) (h2 : CopyRun b c c2 err) : CopyRun a c c2 err := by
  obtain ⟨es1, he1, f1, g1⟩ := h1.events
  refine CopyRun.prepend a b es1 he1 ?_ ?_ h1.mono h1.failing h2
  · intro argv hm hf
    have := (f1 argv hm hf).2.1
    simp at this
  · intro src dst hm
    by_cases hf : ["cp", src, dst] ∈ a.failing
    · have := (f1 _ hm hf).2.1
      simp at this
    · exact g1 src dst hm hf

theorem mkdirAll_trace (w : World) (path : String) :
    (w.mkdirAll path).2.trace = w.trace ∧ (w.mkdirAll path).2.failing = w.failing := by
  unfold World.mkdirAll
  split
  · exact ⟨rfl, rfl⟩
  · split <;> exact ⟨rfl, rfl⟩

theorem copyRun_copySourceDirs (sd : SDCard) (dirs : List String) :
    ∀ (w : World) (fc : Bool),
      CopyRun w (copySourceDirs sd dirs w fc).1 (copySourceDirs sd dirs w fc).2.1
        (copySourceDirs sd dirs w fc).2.2 := by
  induction dirs with
  | nil => intro w fc; exact CopyRun.stop w fc none
  | cons d rest ih =>
    intro w fc
    unfold copySourceDirs
    dsimp only
    split
    · exact CopyRun.prepend w (w.log "Source directory does not exist: %s" [sdCardPath sd.Name d])
        [.log "Source directory does not exist: %s" [sdCardPath sd.Name d]] rfl
        (by simp) (by simp) (fun _ h => h) rfl (ih _ _)
    · split
      · exact CopyRun.stop w false _
      · rename_i files hfiles
        obtain ⟨w1, hw1⟩ : ∃ w1 : World, w1 = w.log "Files found in %s: %v"
          (sdCardPath sd.Name d :: files.map DirEntry.name) := ⟨_, rfl⟩
        rw [← hw1]
        have hpre : ∀ (w2 : World) (c : Bool) (e : Option GoError),
            w2 = (w1.mkdirAll sd.Destination).2 → CopyRun w2 w2 c e → CopyRun w w2 c e := by
          intro w2 c e h2 hrun
          refine CopyRun.prepend w w2 [.log "Files found in %s: %v"
            (sdCardPath sd.Name d :: files.map DirEntry.name)] ?_ (by simp) (by simp) ?_ ?_ hrun
          · rw [h2, (mkdirAll_trace w1 _).1, hw1]; rfl
          · intro p hp
            rw [h2]
            exact mkdirAll_mono w1 _ p (by rw [hw1]; exact hp)
          · rw [h2, (mkdirAll_trace w1 _).2, hw1]; rfl
        have hex := mkdirAll_exists w1 sd.Destination
        split
        · rename_i w2 hw2
          exact hpre w2 false _ (by rw [hw2]) (CopyRun.stop w2 false _)
        · rename_i w2 hw2
          have h2 : w2 = (w1.mkdirAll sd.Destination).2 := by rw [hw2]
          have hd2 : ∃ x ∈ w2.dirs, x.1 = sd.Destination := by
            rw [h2]; exact hex (by rw [hw2])
          obtain ⟨r1, _⟩ := copyRun_copyDirFiles sd (sdCardPath sd.Name d) files w2 fc hd2
          have hstart : CopyRun w w2 fc none := hpre w2 fc none h2 (CopyRun.stop w2 fc none)
          split
          · rename_i w3 _ err h3
            rw [h3] at r1
            exact hstart.trans_none r1.toFalse
          · rename_i w3 copied h3
            rw [h3] at r1
            exact (hstart.trans_none r1).trans_none (ih w3 copied)

theorem copyRun_copyFiles (w : World) (sd : SDCard) :
    CopyRun w (copyFiles w sd).1 (copyFiles w sd).2.1 (copyFiles w sd).2.2 :=
  CopyRun.prepend w (w.emit (.call "copyFiles" sd.Name)) [.call "copyFiles" sd.Name] rfl
    (by simp) (by simp) (fun _ h => h) rfl (copyRun_copySourceDirs sd sd.SourceDirs _ false)

/-- C8: in a run of `processSDCard` that reaches the copy step, if a command
run by `copyFiles` fails, then that command is the last thing `copyFiles` does
and `copyFiles` returns an error with files-copied false; `processSDCard` ends
without invoking `createProxies`, the verification loop, `clearSDCard` or
`ejectSDCard`; and the target of every `cp` that succeeded before the failure
still exists when `processSDCard` ends. -/
theorem copy_failure_aborts (w wm : World) (label : String) (sd : SDCard)
    (argv : List String)
    (hnew : label ∉ w.processedDevices)
    (hcfg : w.sdCardMappings.lookup label = some sd)
    (hmount : ensureMounted (startProcessing (w.emit (.call "processSDCard" label)) label) label
      = (wm, true))
    (hrun : Event.exec argv ∈ (copyFiles wm sd).1.trace.drop wm.trace.length)
    (hfail : argv ∈ wm.failing) :
    (copyFiles wm sd).2.1 = false ∧ (copyFiles wm sd).2.2.isSome = true ∧
      (copyFiles wm sd).1.trace.getLast? = some (.exec argv) ∧
      (∀ fn ∈ ["createProxies", "createProxiesForDirectory", "verify", "clearSDCard",
          "ejectSDCard"],
        calls fn (processSDCard w label).trace = calls fn w.trace) ∧
      (∀ src dst, Event.exec ["cp", src, dst] ∈ (copyFiles wm sd).1.trace.drop wm.trace.length →
        ["cp", src, dst] ∉ wm.failing → (processSDCard w label).statOk dst = true) := by
  obtain ⟨es, he, h1, h2⟩ := (copyRun_copyFiles wm sd).events
  have hdrop : (copyFiles wm sd).1.trace.drop wm.trace.length = es := by
    rw [he, List.drop_left]
  rw [hdrop] at hrun ⊢
  obtain ⟨a1, a2, a3⟩ := h1 argv hrun hfail
  obtain ⟨err, herr⟩ := Option.isSome_iff_exists.mp a2
  have e1 := ext_ensureMounted ["mountDevice", "copyFiles"] (by decide)
      (startProcessing (w.emit (.call "processSDCard" label)) label) label
  rw [hmount] at e1
  have e2 := ext_copyFiles ["mountDevice", "copyFiles"] (by decide) wm sd
  have hproc : processSDCard w label = (copyFiles wm sd).1.logErr err := by
    rw [processSDCard_fresh w label sd hnew hcfg, hmount]
    dsimp only
    unfold processMounted
    cases hc : copyFiles wm sd with
    | mk wc r =>
      obtain ⟨c, e⟩ := r
      rw [hc] at herr
      dsimp only at herr
      subst herr
      cases c <;> rfl
  refine ⟨a1, a2, ?_, ?_, ?_⟩
  · rw [he]; exact getLast?_append_of_some _ _ _ a3
  · intro fn hfn
    have h3 := (e1.trans e2).trans (Ext.logErr _ (copyFiles wm sd).1 err)
    rw [hproc, h3.calls_eq fn, calls_startProcessing fn]
    · intro h; subst h; simp at hfn
    · intro h
      simp only [List.mem_cons, List.mem_singleton, List.not_mem_nil, or_false] at hfn h
      rcases h with h | h <;> subst h <;> simp at hfn
  · intro src dst hm hnf
    rw [hproc]
    exact h2 src dst hm hnf

/-- Witness for C8: the copy of `c.insv` fails after `a.mp4` has been copied. -/
theorem copy_failure_aborts_witness :
    (copyFiles copyFailMounted card1).2.1 = false ∧
      calls "ejectSDCard" (processSDCard copyFailWorld "CARD1").trace = [] ∧
      (processSDCard copyFailWorld "CARD1").statOk "/archive/trip1/a.mp4" = true :=
  have h := copy_failure_aborts copyFailWorld copyFailMounted "CARD1" card1
    ["cp", "/media/videoserver/CARD1/DCIM/c.insv", "/archive/trip1/c.mp4"]
    (by decide) (by decide) (by decide) (by decide) (by decide)
  ⟨h.1, h.2.2.2.1 "ejectSDCard" (by decide),
    h.2.2.2.2 "/media/videoserver/CARD1/DCIM/a.mp4" "/archive/trip1/a.mp4"
      (by decide) (by decide)⟩

/-! ## Proxy creation -/

theorem pathJoin_injective (dir a b : String) (h : pathJoin dir a = pathJoin dir b) : a = b := by
  unfold pathJoin at h
  have h' := congrArg String.data h
  simp only [String.data_append] at h'
  exact String.ext (List.append_cancel_left h')

theorem pathJoin_ne_dir (dir name : String) : pathJoin dir name ≠ dir := by
  intro h
  have h' := congrArg String.length h
  unfold pathJoin at h'
  simp only [String.length_append] at h'
  have : "/".length = 1 := rfl
  omega

theorem mem_dirs_of_addEntry (w : World) (dir : String) (e : DirEntry)
    (d' : String × List DirEntry) (hd' : d' ∈ (w.addEntry dir e).dirs) :
    ∃ d ∈ w.dirs, d'.1 = d.1 ∧ ∀ x ∈ d'.2, x ∈ d.2 ∨ (d.1 = dir ∧ x = e) := by
  simp only [World.addEntry, List.mem_map] at hd'
  obtain ⟨d, hd, hEq⟩ := hd'
  refine ⟨d, hd, ?_⟩
  by_cases hc : (d.1 == dir && !(d.2.any (fun x => x.name == e.name))) = true
  · simp only [hc, if_true] at hEq
    subst hEq
    refine ⟨rfl, ?_⟩
    intro x hx
    rcases List.mem_append.mp hx with h | h
    · exact Or.inl h
    · simp only [Bool.and_eq_true, beq_iff_eq] at hc
      exact Or.inr ⟨hc.1, by simpa using h⟩
  · simp only [hc, Bool.false_eq_true, if_false] at hEq
    subst hEq
    exact ⟨rfl, fun x hx => Or.inl hx⟩

/-- Adding an entry changes the existence of no other path. -/
theorem statOk_addEntry_other (w : World) (dir : String) (e : DirEntry) (p : String)
    (hp : p ≠ pathJoin dir e.name) : (w.addEntry dir e).statOk p = w.statOk p := by
  apply Bool.eq_iff_iff.mpr
  constructor
  · intro h
    rw [statOk_iff] at h ⊢
    rcases h with ⟨d', hd', hk⟩ | ⟨d', hd', x, hx, hk⟩
    · obtain ⟨d, hd, h1, _⟩ := mem_dirs_of_addEntry w dir e d' hd'
      exact Or.inl ⟨d, hd, h1 ▸ hk⟩
    · obtain ⟨d, hd, h1, h2⟩ := mem_dirs_of_addEntry w dir e d' hd'
      rcases h2 x hx with hin | ⟨hdir, hxe⟩
      · exact Or.inr ⟨d, hd, x, hin, h1 ▸ hk⟩
      · exfalso
        apply hp
        rw [← hk, h1, hdir, hxe]
  · exact statOk_addEntry_mono w dir e p

theorem statOk_mkdirAll_other (w : World) (path p : String) (hp : p ≠ path) :
    (w.mkdirAll path).2.statOk p = w.statOk p := by
  unfold World.mkdirAll
  split
  · rfl
  · split
    · rfl
    · apply Bool.eq_iff_iff.mpr
      rw [statOk_iff, statOk_iff]
      simp only [List.mem_append, List.mem_singleton]
      constructor
      · rintro (⟨d, hd | hd, hk⟩ | ⟨d, hd | hd, x, hx, hk⟩)
        · exact Or.inl ⟨d, hd, hk⟩
        · subst hd; exact absurd hk.symm hp
        · exact Or.inr ⟨d, hd, x, hx, hk⟩
        · subst hd; simp at hx
      · rintro (⟨d, hd, hk⟩ | ⟨d, hd, x, hx, hk⟩)
        · exact Or.inl ⟨d, Or.inl hd, hk⟩
        · exact Or.inr ⟨d, Or.inl hd, x, hx, hk⟩

theorem execsOf_append (prog : String) (a b : List Event) :
    execsOf prog (a ++ b) = execsOf prog a ++ execsOf prog b := by
  simp [execsOf, List.filterMap_append]

theorem execsOf_ffmpeg_log (f : String) (a : List String) (es : List Event) :
    execsOf "ffmpeg" (Event.log f a :: es) = execsOf "ffmpeg" es := rfl

theorem execsOf_ffmpeg_cons (o p : String) (es : List Event) :
    execsOf "ffmpeg" (Event.exec (ffmpegArgv o p) :: es) =
      ffmpegArgv o p :: execsOf "ffmpeg" es := by
  simp [execsOf, List.filterMap_cons, ffmpegArgv]

theorem needsProxy_congr (w w2 : World) (pf : String) (files : List DirEntry)
    (h : ∀ f ∈ files, w2.statOk (pathJoin pf f.name) = w.statOk (pathJoin pf f.name)) :
    files.filter (needsProxy w2 pf) = files.filter (needsProxy w pf) := by
  apply List.filter_congr
  intro f hf
  simp [needsProxy, h f hf]

/-- The loop of `createProxiesForDirectory` runs the transcoder for exactly the
entries that need a proxy, in listing order, whatever the transcoder returns. -/
theorem proxyLoop_execs (directory : String) (files : List DirEntry) :
    ∀ w : World, (files.map DirEntry.name).Nodup →
      ∃ es, (proxyLoop directory (pathJoin directory "Proxy") files w).trace = w.trace ++ es ∧
        execsOf "ffmpeg" es =
          (files.filter (needsProxy w (pathJoin directory "Proxy"))).map
            (proxyCommand directory) := by
  induction files with
  | nil => intro w _; exact ⟨[], by simp [proxyLoop], rfl⟩
  | cons file rest ih =>
    intro w hn
    have hrest : (rest.map DirEntry.name).Nodup := (List.nodup_cons.mp hn).2
    have hnot : file.name ∉ rest.map DirEntry.name := (List.nodup_cons.mp hn).1
    unfold proxyLoop
    by_cases hd : file.isDir = true
    · obtain ⟨es, h1, h2⟩ := ih w hrest
      refine ⟨es, by simp only [hd, if_true]; exact h1, ?_⟩
      rw [h2]; simp [List.filter_cons, needsProxy, hd]
    · simp only [hd, Bool.false_eq_true, if_false]
      by_cases hs : w.statOk (pathJoin (pathJoin directory "Proxy") file.name) = true
      · obtain ⟨es, h1, h2⟩ := ih w hrest
        refine ⟨es, by simp only [hs, if_true]; exact h1, ?_⟩
        rw [h2]; simp [List.filter_cons, needsProxy, hs]
      · simp only [hs, Bool.false_eq_true, if_false]
        by_cases hm : hasSuffix (toLower file.name) ".mp4" = true
        · simp only [hm, if_true]
          have hneed : needsProxy w (pathJoin directory "Proxy") file = true := by
            simp [needsProxy, hd, hs, hm]
          by_cases hf : ffmpegArgv (pathJoin directory file.name)
              (pathJoin (pathJoin directory "Proxy") file.name) ∈ w.failing
          · have hexec : w.exec (ffmpegArgv (pathJoin directory file.name)
                (pathJoin (pathJoin directory "Proxy") file.name)) =
                (false, w.emit (.exec (ffmpegArgv (pathJoin directory file.name)
                  (pathJoin (pathJoin directory "Proxy") file.name)))) := by
              simp [World.exec, hf]
            rw [hexec]
            dsimp only
            obtain ⟨es, h1, h2⟩ := ih ((w.emit (.exec (ffmpegArgv (pathJoin directory file.name)
                (pathJoin (pathJoin directory "Proxy") file.name)))).log
                  "Failed to create proxy for %s: %v\nOutput: %s"
                  [pathJoin directory file.name]) hrest
            refine ⟨Event.exec (ffmpegArgv (pathJoin directory file.name)
                (pathJoin (pathJoin directory "Proxy") file.name)) ::
                Event.log "Failed to create proxy for %s: %v\nOutput: %s"
                  [pathJoin directory file.name] :: es,
              by rw [h1]; simp [World.log, World.emit], ?_⟩
            rw [execsOf_ffmpeg_cons, execsOf_ffmpeg_log, h2, List.filter_cons, if_pos hneed]
            rw [List.map_cons]
            congr 1
          · have hexec : w.exec (ffmpegArgv (pathJoin directory file.name)
                (pathJoin (pathJoin directory "Proxy") file.name)) =
                (true, w.emit (.exec (ffmpegArgv (pathJoin directory file.name)
                  (pathJoin (pathJoin directory "Proxy") file.name)))) := by
              simp [World.exec, hf]
            rw [hexec]
            dsimp only
            obtain ⟨es, h1, h2⟩ := ih (((w.emit (.exec (ffmpegArgv (pathJoin directory file.name)
                (pathJoin (pathJoin directory "Proxy") file.name)))).addEntry
                  (pathJoin directory "Proxy") ⟨file.name, false⟩).log
                  "Created proxy for %s" [pathJoin directory file.name]) hrest
            refine ⟨Event.exec (ffmpegArgv (pathJoin directory file.name)
                (pathJoin (pathJoin directory "Proxy") file.name)) ::
                Event.log "Created proxy for %s" [pathJoin directory file.name] :: es,
              by rw [h1]; simp [World.log, World.emit, World.addEntry], ?_⟩
            rw [execsOf_ffmpeg_cons, execsOf_ffmpeg_log, h2, List.filter_cons, if_pos hneed]
            rw [List.map_cons]
            congr 2
            apply needsProxy_congr
            intro g hg
            have hne : pathJoin (pathJoin directory "Proxy") g.name ≠
                pathJoin (pathJoin directory "Proxy") file.name := by
              intro h
              apply hnot
              rw [← pathJoin_injective _ _ _ h]
              exact List.mem_map_of_mem _ hg
            exact statOk_addEntry_other _ _ ⟨file.name, false⟩ _ hne
        · simp only [hm, Bool.false_eq_true, if_false]
          obtain ⟨es, h1, h2⟩ := ih (w.log
            "Skipping proxy creation for unsupported file: %s" [pathJoin directory file.name])
            hrest
          refine ⟨Event.log "Skipping proxy creation for unsupported file: %s"
              [pathJoin directory file.name] :: es,
            by rw [h1]; simp [World.log, World.emit], ?_⟩
          rw [execsOf_ffmpeg_log, h2]
          simp [List.filter_cons, needsProxy, hm]
          rfl

theorem mkdirChild_ok (w : World) (dir name : String)
    (h : pathJoin dir name ∉ w.mkdirFailing) :
    w.mkdirChild dir name =
      (true, (w.mkdirAll (pathJoin dir name)).2.addEntry dir ⟨name, true⟩) := by
  unfold World.mkdirChild World.mkdirAll
  simp only [h, if_false]
  by_cases hs : (w.dirs.lookup (pathJoin dir name)).isSome = true
  · simp only [hs, if_true]
  · simp only [hs, Bool.false_eq_true, if_false]

theorem statOk_mkdirChild_proxy (w : World) (directory name : String) :
    ((w.mkdirAll (pathJoin directory "Proxy")).2.addEntry directory ⟨"Proxy", true⟩).statOk
        (pathJoin (pathJoin directory "Proxy") name) =
      w.statOk (pathJoin (pathJoin directory "Proxy") name) := by
  rw [statOk_addEntry_other _ _ _ _ (pathJoin_ne_dir _ _),
    statOk_mkdirAll_other _ _ _ (pathJoin_ne_dir _ _)]

/-- On a directory that can be listed and whose `Proxy` folder can be made,
`createProxiesForDirectory` returns no error and has run the transcoder for
exactly the entries that needed a proxy. -/
theorem createProxiesForDirectory_ok (w : World) (directory : String) (files : List DirEntry)
    (hstat : w.statOk directory = true) (hread : w.readDir directory = some files)
    (hmk : pathJoin directory "Proxy" ∉ w.mkdirFailing)
    (hn : (files.map DirEntry.name).Nodup) :
    (createProxiesForDirectory w directory).2 = none ∧
      execsOf "ffmpeg" ((createProxiesForDirectory w directory).1.trace.drop w.trace.length) =
        (files.filter (needsProxy w (pathJoin directory "Proxy"))).map
          (proxyCommand directory) := by
  have h0 : (w.emit (.call "createProxiesForDirectory" directory)).statOk directory = true :=
    hstat
  have h1 : (w.emit (.call "createProxiesForDirectory" directory)).readDir directory =
    some files := hread
  have h2 : pathJoin directory "Proxy" ∉
    (w.emit (.call "createProxiesForDirectory" directory)).mkdirFailing := hmk
  unfold createProxiesForDirectory
  simp only [h0, if_true, h1, mkdirChild_ok _ _ _ h2]
  refine ⟨trivial, ?_⟩
  obtain ⟨es, he, hex⟩ := proxyLoop_execs directory files
    (((w.emit (.call "createProxiesForDirectory" directory)).mkdirAll
      (pathJoin directory "Proxy")).2.addEntry directory ⟨"Proxy", true⟩) hn
  have htr : (((w.emit (.call "createProxiesForDirectory" directory)).mkdirAll
      (pathJoin directory "Proxy")).2.addEntry directory ⟨"Proxy", true⟩).trace =
      w.trace ++ [.call "createProxiesForDirectory" directory] := by
    have := (mkdirAll_trace (w.emit (.call "createProxiesForDirectory" directory))
      (pathJoin directory "Proxy")).1
    simp only [World.addEntry, this]
    rfl
  rw [he, htr, List.append_assoc, List.drop_left, execsOf_append, hex]
  have hcall : execsOf "ffmpeg" [Event.call "createProxiesForDirectory" directory] = [] := rfl
  rw [hcall, List.nil_append]
  congr 1
  apply needsProxy_congr
  intro f _
  rw [statOk_mkdirChild_proxy]
  rfl

/-- Once `createProxies` has returned no error, `processMounted` enters the
verification loop, once. -/
theorem verify_entered (w0 wc w2 : World) (label : String) (sd : SDCard)
    (hcopy : copyFiles w0 sd = (wc, true, none))
    (hprox : createProxies (wc.log "Files were copied from %s, creating proxies..." [label]) sd
      = (w2, none)) :
    calls "verify" (processMounted w0 label sd).trace = calls "verify" w0.trace ++ [sd.Name] := by
  have hfns : "verify" ∉ ["copyFiles", "createProxies", "createProxiesForDirectory",
    "clearSDCard", "ejectSDCard"] := by decide
  have e1 := ext_copyFiles ["copyFiles", "createProxies", "createProxiesForDirectory",
    "clearSDCard", "ejectSDCard"] (by decide) w0 sd
  rw [hcopy] at e1
  have e2 := ext_createProxies ["copyFiles", "createProxies", "createProxiesForDirectory",
    "clearSDCard", "ejectSDCard"] (by decide) (by decide)
    (wc.log "Files were copied from %s, creating proxies..." [label]) sd
  rw [hprox] at e2
  have e12 := e1.trans ((Ext.log _ wc _ _).trans e2)
  have hbase : calls "verify" (w2.emit (.call "verify" sd.Name)).trace =
      calls "verify" w0.trace ++ [sd.Name] := by
    rw [calls_emit, e12.calls_eq "verify" hfns]
    simp [calls]
  have e3 := ext_verifySourceDirs ["copyFiles", "createProxies", "createProxiesForDirectory",
    "clearSDCard", "ejectSDCard"] sd sd.SourceDirs (w2.emit (.call "verify" sd.Name))
  unfold processMounted
  rw [hcopy]
  dsimp only
  rw [hprox]
  dsimp only
  split
  · rename_i w3 hw3; rw [hw3] at e3
    rw [e3.calls_eq "verify" hfns, hbase]
  · rename_i w3 hw3; rw [hw3] at e3
    have e4 := ext_clearSDCard ["copyFiles", "createProxies", "createProxiesForDirectory",
      "clearSDCard", "ejectSDCard"] (by decide) w3 sd
    split
    · rename_i w4 err hw4; rw [hw4] at e4
      rw [((e3.trans e4).trans (Ext.logErr _ _ _)).calls_eq "verify" hfns, hbase]
    · rename_i w4 hw4; rw [hw4] at e4
      rw [((e3.trans e4).trans (ext_ejectAndFinish _ (by decide) w4 label sd)).calls_eq
        "verify" hfns, hbase]

/-- C9: on a directory that exists, can be listed (the entries having distinct
names) and whose `Proxy` folder can be made, for every set of failing
transcoder commands, `createProxiesForDirectory` returns no error and the
transcoder commands it has run are exactly one for each non-directory entry
whose name ends in `.mp4` in any letter case and that has no same-named entry
in `Proxy/`, in listing order; when it was called by `createProxies` in
`processSDCard`, the verification loop is entered next. -/
theorem transcode_each_eligible_once (w : World) (directory : String) (files : List DirEntry)
    (hstat : w.statOk directory = true) (hread : w.readDir directory = some files)
    (hmk : pathJoin directory "Proxy" ∉ w.mkdirFailing)
    (hn : (files.map DirEntry.name).Nodup) :
    (createProxiesForDirectory w directory).2 = none ∧
      execsOf "ffmpeg" ((createProxiesForDirectory w directory).1.trace.drop w.trace.length) =
        (files.filter (needsProxy w (pathJoin directory "Proxy"))).map
          (proxyCommand directory) ∧
      (∀ (w0 wc : World) (label : String) (sd : SDCard), sd.Destination = directory →
        copyFiles w0 sd = (wc, true, none) →
        w = (wc.log "Files were copied from %s, creating proxies..." [label]).emit
          (.call "createProxies" sd.Name) →
        calls "verify" (processMounted w0 label sd).trace =
          calls "verify" w0.trace ++ [sd.Name]) := by
  obtain ⟨h1, h2⟩ := createProxiesForDirectory_ok w directory files hstat hread hmk hn
  refine ⟨h1, h2, ?_⟩
  intro w0 wc label sd hdest hcopy hw
  apply verify_entered w0 wc (createProxiesForDirectory w directory).1 label sd hcopy
  unfold createProxies
  rw [hdest, ← hw]
  exact Prod.ext rfl h1

/-- Witness for C9: the transcoder fails on `a.mp4` and still runs for `c.mp4`;
`b.MP4` has a proxy and `notes.txt` is not a supported file. -/
theorem transcode_each_eligible_once_witness :
    (createProxiesForDirectory proxyWorld "/archive/trip1").2 = none ∧
      execsOf "ffmpeg" ((createProxiesForDirectory proxyWorld "/archive/trip1").1.trace.drop
          proxyWorld.trace.length) =
        [proxyCommand "/archive/trip1" ⟨"a.mp4", false⟩,
         proxyCommand "/archive/trip1" ⟨"c.mp4", false⟩] :=
  have h := transcode_each_eligible_once proxyWorld "/archive/trip1"
    [⟨"a.mp4", false⟩, ⟨"b.MP4", false⟩, ⟨"notes.txt", false⟩, ⟨"c.mp4", false⟩, ⟨"Proxy", true⟩]
    (by decide) (by decide) (by decide) (by decide)
  ⟨h.1, h.2.1.trans (by decide)⟩

theorem proxyLoop_noop (directory proxyFolder : String) (files : List DirEntry) (w : World)
    (hall : ∀ f ∈ files, f.isDir = false → w.statOk (pathJoin proxyFolder f.name) = true) :
    proxyLoop directory proxyFolder files w = w := by
  induction files with
  | nil => rfl
  | cons file rest ih =>
    have hrest := ih (fun f hf => hall f (List.mem_cons_of_mem _ hf))
    unfold proxyLoop
    by_cases hd : file.isDir = true
    · simp only [hd, if_true]; exact hrest
    · have hs := hall file (List.mem_cons_self _ _) (by simpa using hd)
      simp only [hd, Bool.false_eq_true, if_false, hs, if_true]
      exact hrest

theorem lookup_mem (p : String) (dirs : List (String × List DirEntry)) (files : List DirEntry)
    (h : dirs.lookup p = some files) : (p, files) ∈ dirs := by
  induction dirs with
  | nil => simp at h
  | cons d rest ih =>
    obtain ⟨k, v⟩ := d
    by_cases hk : p = k
    · subst hk
      simp [List.lookup] at h
      subst h
      exact List.mem_cons_self _ _
    · have hk' : (p == k) = false := by simpa using hk
      simp only [List.lookup, hk'] at h
      exact List.mem_cons_of_mem _ (ih h)

theorem createProxiesForDirectory_none_iff (w : World) (directory : String) :
    (createProxiesForDirectory w directory).2 = none ↔
      (w.statOk directory = false ∨ ((w.readDir directory).isSome = true ∧
        ((w.dirs.lookup (pathJoin directory "Proxy")).isSome = true ∨
          pathJoin directory "Proxy" ∉ w.mkdirFailing))) := by
  have hs : (w.emit (.call "createProxiesForDirectory" directory)).statOk directory =
    w.statOk directory := rfl
  have hr : (w.emit (.call "createProxiesForDirectory" directory)).readDir directory =
    w.readDir directory := rfl
  have hd : (w.emit (.call "createProxiesForDirectory" directory)).dirs = w.dirs := rfl
  have hm : (w.emit (.call "createProxiesForDirectory" directory)).mkdirFailing =
    w.mkdirFailing := rfl
  unfold createProxiesForDirectory
  dsimp only
  rw [hs, hr]
  cases hst : w.statOk directory with
  | false => simp
  | true =>
    simp only [if_true]
    cases hrd : w.readDir directory with
    | none => simp
    | some files =>
      dsimp only
      unfold World.mkdirChild World.mkdirAll
      rw [hd, hm]
      by_cases h1 : (w.dirs.lookup (pathJoin directory "Proxy")).isSome = true
      · simp [h1]
      · by_cases h2 : pathJoin directory "Proxy" ∈ w.mkdirFailing
        · simp [h1, h2]
        · simp [h1, h2]

theorem allProxied_no_ffmpeg (w : World) (directory : String)
    (hall : allProxied w directory = true) :
    execsOf "ffmpeg" ((createProxiesForDirectory w directory).1.trace.drop w.trace.length)
        = [] ∧
      ((w.readDir directory).isSome = true →
        ((w.dirs.lookup (pathJoin directory "Proxy")).isSome = true ∨
          pathJoin directory "Proxy" ∉ w.mkdirFailing) →
        (createProxiesForDirectory w directory).2 = none) := by
  have hcall : ∀ v : World, v.trace = w.trace ++ [.call "createProxiesForDirectory" directory] →
      execsOf "ffmpeg" (v.trace.drop w.trace.length) = [] := by
    intro v hv
    rw [hv, List.drop_left]
    rfl
  unfold createProxiesForDirectory
  dsimp only
  by_cases hstat : (w.emit (.call "createProxiesForDirectory" directory)).statOk directory = true
  · simp only [hstat, if_true]
    cases hread : (w.emit (.call "createProxiesForDirectory" directory)).readDir directory with
    | none =>
      have hread' : w.readDir directory = none := hread
      exact ⟨hcall _ rfl, fun h => by rw [hread'] at h; cases h⟩
    | some files =>
      dsimp only
      have hfiles : ∀ f ∈ files, f.isDir = false →
          w.statOk (pathJoin (pathJoin directory "Proxy") f.name) = true := by
        have hl : w.dirs.lookup directory = some files := by
          have hread' : w.readDir directory = some files := hread
          unfold World.readDir at hread'
          split at hread'
          · cases hread'
          · exact hread'
        intro f hf hdir
        have h1 := List.all_eq_true.mp hall (directory, files) (lookup_mem _ _ _ hl)
        simp only [bne_self_eq_false, Bool.false_or] at h1
        have h2 := List.all_eq_true.mp h1 f hf
        simpa [hdir] using h2
      have hmkt := mkdirAll_trace (w.emit (.call "createProxiesForDirectory" directory))
        (pathJoin directory "Proxy")
      unfold World.mkdirChild
      cases hmk : (w.emit (.call "createProxiesForDirectory" directory)).mkdirAll
          (pathJoin directory "Proxy") with
      | mk ok w1 =>
        rw [hmk] at hmkt
        cases ok with
        | false =>
          dsimp only
          refine ⟨hcall w1 hmkt.1, ?_⟩
          intro _ hcan
          exfalso
          unfold World.mkdirAll at hmk
          have hd : (w.emit (.call "createProxiesForDirectory" directory)).dirs = w.dirs := rfl
          have hm : (w.emit (.call "createProxiesForDirectory" directory)).mkdirFailing =
            w.mkdirFailing := rfl
          rw [hd, hm] at hmk
          rcases hcan with h | h
          · simp [h] at hmk
          · by_cases hs : (w.dirs.lookup (pathJoin directory "Proxy")).isSome = true
            · simp [hs] at hmk
            · simp [hs, h] at hmk
        | true =>
          dsimp only
          have hfiles1 : ∀ f ∈ files, f.isDir = false →
              (w1.addEntry directory ⟨"Proxy", true⟩).statOk
                (pathJoin (pathJoin directory "Proxy") f.name) = true := by
            intro f hf hdir
            have h1 : w1 = ((w.emit (.call "createProxiesForDirectory" directory)).mkdirAll
              (pathJoin directory "Proxy")).2 := by rw [hmk]
            rw [h1, statOk_mkdirChild_proxy]
            exact hfiles f hf hdir
          rw [proxyLoop_noop _ _ _ _ hfiles1]
          exact ⟨hcall _ hmkt.1, fun _ _ => rfl⟩
  · simp only [hstat, Bool.false_eq_true, if_false]
    exact ⟨hcall _ rfl, fun _ _ => trivial⟩

/-- C10 (as amended): in a directory in which every non-directory entry has a
same-named entry in `Proxy/`, `createProxiesForDirectory` runs the transcoder
zero times; and it returns no error exactly when the directory does not exist,
or it can be listed and its `Proxy` folder exists or can be made. -/
theorem no_transcode_when_all_proxied (w : World) (directory : String)
    (hall : allProxied w directory = true) :
    execsOf "ffmpeg" ((createProxiesForDirectory w directory).1.trace.drop w.trace.length)
        = [] ∧
      ((createProxiesForDirectory w directory).2 = none ↔
        (w.statOk directory = false ∨ ((w.readDir directory).isSome = true ∧
          ((w.dirs.lookup (pathJoin directory "Proxy")).isSome = true ∨
            pathJoin directory "Proxy" ∉ w.mkdirFailing)))) :=
  ⟨(allProxied_no_ffmpeg w directory hall).1, createProxiesForDirectory_none_iff w directory⟩

/-- Witness for C10: `a.mp4` and `c.mp4` both have their proxy; and a directory
that does not exist. -/
theorem no_transcode_when_all_proxied_witness :
    allProxied allProxiedWorld "/archive/trip1" = true ∧
      execsOf "ffmpeg" ((createProxiesForDirectory allProxiedWorld "/archive/trip1").1.trace.drop
        allProxiedWorld.trace.length) = [] ∧
      (createProxiesForDirectory allProxiedWorld "/archive/trip1").2 = none ∧
      allProxied allProxiedWorld "/archive/trip2" = true ∧
      execsOf "ffmpeg" ((createProxiesForDirectory allProxiedWorld "/archive/trip2").1.trace.drop
        allProxiedWorld.trace.length) = [] ∧
      (createProxiesForDirectory allProxiedWorld "/archive/trip2").2 = none :=
  have h := no_transcode_when_all_proxied allProxiedWorld "/archive/trip1" (by decide)
  have h2 := no_transcode_when_all_proxied allProxiedWorld "/archive/trip2" (by decide)
  ⟨by decide, h.1, h.2.mpr (Or.inr ⟨by decide, Or.inl (by decide)⟩),
    by decide, h2.1, h2.2.mpr (Or.inl (by decide))⟩

/-- C10 (counterexample to the claim as stated): in an empty directory whose
`Proxy` folder cannot be made, and in a directory that cannot be listed and
whose only file has its proxy, every non-directory entry has a same-named
entry in `Proxy/`, yet `createProxiesForDirectory` returns an error. -/
theorem all_proxied_yet_error :
    allProxied noProxyFolderWorld "/archive/trip1" = true ∧
      (createProxiesForDirectory noProxyFolderWorld "/archive/trip1").2 =
        some ⟨"failed to create Proxy folder: %v", []⟩ ∧
      allProxied unlistableWorld "/archive/trip1" = true ∧
      (createProxiesForDirectory unlistableWorld "/archive/trip1").2 =
        some ⟨"failed to read directory %s: %v", ["/archive/trip1"]⟩ := by
  decide

/-! ## Mount failures -/

/-- When the device is not mounted and the mount attempt fails or is not
confirmed by the re-check, `ensureMounted` reports that the pipeline stops. -/
theorem ensureMounted_false (w0 w1 : World) (label : String)
    (hnot : isMounted w0 label = (w1, false, none))
    (hfail : (mountDevice w1 label).2.isSome = true ∨
      (isMounted (mountDevice w1 label).1 label).2.1 = false) :
    (ensureMounted w0 label).2 = false := by
  unfold ensureMounted
  rw [hnot]
  dsimp only
  cases hm : mountDevice w1 label with
  | mk w2 merr =>
    rw [hm] at hfail
    cases merr with
    | some err => rfl
    | none =>
      dsimp only
      rcases hfail with h | h
      · simp at h
      · dsimp only at h
        cases hr : isMounted w2 label with
        | mk w3 r =>
          obtain ⟨b, e⟩ := r
          rw [hr] at h
          dsimp only at h
          subst h
          cases e <;> rfl

/-- C11: in a run of `processSDCard` on a new, configured label whose device
is not mounted, if `mountDevice` fails or the mount check repeated after the
mount attempt does not report the device mounted, then `copyFiles`,
`createProxies`, the verification loop, `clearSDCard` and `ejectSDCard` are
not invoked and the label is in the ledger when the run ends. -/
theorem mount_failure_aborts (w w1 : World) (label : String) (sd : SDCard)
    (hnew : label ∉ w.processedDevices)
    (hcfg : w.sdCardMappings.lookup label = some sd)
    (hnot : isMounted (startProcessing (w.emit (.call "processSDCard" label)) label) label
      = (w1, false, none))
    (hfail : (mountDevice w1 label).2.isSome = true ∨
      (isMounted (mountDevice w1 label).1 label).2.1 = false) :
    (∀ fn ∈ ["copyFiles", "createProxies", "createProxiesForDirectory", "verify",
        "clearSDCard", "ejectSDCard"],
      calls fn (processSDCard w label).trace = calls fn w.trace) ∧
      label ∈ (processSDCard w label).processedDevices := by
  have hstop := ensureMounted_false _ w1 label hnot hfail
  have e1 := ext_ensureMounted ["mountDevice"] (by decide)
    (startProcessing (w.emit (.call "processSDCard" label)) label) label
  have hproc : processSDCard w label =
      (ensureMounted (startProcessing (w.emit (.call "processSDCard" label)) label) label).1 := by
    rw [processSDCard_fresh w label sd hnew hcfg]
    cases hres : ensureMounted (startProcessing (w.emit (.call "processSDCard" label)) label)
        label with
    | mk w2 ok =>
      rw [hres] at hstop
      dsimp only at hstop
      subst hstop
      rfl
  rw [hproc]
  refine ⟨?_, ?_⟩
  · intro fn hfn
    rw [e1.calls_eq fn, calls_startProcessing fn]
    · intro h; subst h; simp at hfn
    · intro h
      simp only [List.mem_singleton] at h
      subst h
      simp at hfn
  · rw [e1.processedDevices]
    simp [startProcessing, World.log, World.emit]

/-- Witness for C11, one run for each way the mount step fails: in
`mountFailWorld` the `mount` command fails; in `recheckFailWorld` it succeeds
and the repeated mount check does not report the device mounted. -/
theorem mount_failure_aborts_witness :
    (mountDevice mountFailChecked "CARD1").2.isSome = true ∧
      calls "copyFiles" (processSDCard mountFailWorld "CARD1").trace = [] ∧
      calls "ejectSDCard" (processSDCard mountFailWorld "CARD1").trace = [] ∧
      "CARD1" ∈ (processSDCard mountFailWorld "CARD1").processedDevices ∧
      (mountDevice recheckFailChecked "CARD1").2 = none ∧
      (isMounted (mountDevice recheckFailChecked "CARD1").1 "CARD1").2.1 = false ∧
      calls "mountDevice" (processSDCard recheckFailWorld "CARD1").trace = ["CARD1"] ∧
      calls "copyFiles" (processSDCard recheckFailWorld "CARD1").trace = [] ∧
      calls "ejectSDCard" (processSDCard recheckFailWorld "CARD1").trace = [] ∧
      "CARD1" ∈ (processSDCard recheckFailWorld "CARD1").processedDevices :=
  have h := mount_failure_aborts mountFailWorld mountFailChecked "CARD1" card1
    (by decide) (by decide) (by decide) (Or.inl (by decide))
  have r := mount_failure_aborts recheckFailWorld recheckFailChecked "CARD1" card1
    (by decide) (by decide) (by decide) (Or.inr (by decide))
  ⟨by decide, h.1 "copyFiles" (by decide), h.1 "ejectSDCard" (by decide), h.2,
    by decide, by decide, by decide,
    r.1 "copyFiles" (by decide), r.1 "ejectSDCard" (by decide), r.2⟩

/-! ## Ignored extensions -/

theorem char_toLower_toUpper (c : Char) : (c.toUpper).toLower = c.toLower := by
  by_cases h : c.toNat ≥ 97 ∧ c.toNat ≤ 122
  · have hv : (c.toNat - 32).isValidChar := by
      left; omega
    have h1 : c.toUpper = Char.ofNat (c.toNat - 32) := by
      simp only [Char.toUpper, h, and_self, if_true]
    have h2 : (Char.ofNat (c.toNat - 32)).toNat = c.toNat - 32 := by
      simp only [Char.ofNat, hv, dite_true]
      rfl
    have h3 : c.toLower = c := by
      have : ¬ (c.toNat ≥ 65 ∧ c.toNat ≤ 90) := by omega
      simp only [Char.toLower, this, if_false]
    rw [h1, h3]
    have h4 : (Char.ofNat (c.toNat - 32)).toNat ≥ 65 ∧ (Char.ofNat (c.toNat - 32)).toNat ≤ 90 := by
      rw [h2]; omega
    have h5 : (Char.ofNat (c.toNat - 32)).toLower =
        Char.ofNat ((Char.ofNat (c.toNat - 32)).toNat + 32) := by
      simp only [Char.toLower, h4, and_self, if_true]
    rw [h5, h2]
    have : c.toNat - 32 + 32 = c.toNat := by omega
    rw [this]
    exact Char.ofNat_toNat c
  · have h1 : c.toUpper = c := by
      simp only [Char.toUpper, h, if_false]
    rw [h1]

theorem lowerRune_toUpper (c : Char) : lowerRune (Char.toUpper c) = lowerRune c := by
  by_cases h : c.toNat ≥ 97 ∧ c.toNat ≤ 122
  · have hv : (c.toNat - 32).isValidChar := by
      left; omega
    have h1 : c.toUpper = Char.ofNat (c.toNat - 32) := by
      simp only [Char.toUpper, h, and_self, if_true]
    have h2 : (Char.ofNat (c.toNat - 32)).toNat = c.toNat - 32 := by
      simp only [Char.ofNat, hv, dite_true]
      rfl
    have h3 : c.toUpper.toNat < 128 := by
      rw [h1, h2]; omega
    have h4 : c.toNat < 128 := by omega
    simp only [lowerRune, h3, h4, if_true]
    exact char_toLower_toUpper c
  · have h1 : c.toUpper = c := by
      simp only [Char.toUpper, h, if_false]
    rw [h1]

theorem toLower_upperASCII (s : String) : toLower (upperASCII s) = toLower s := by
  simp only [toLower, upperASCII, List.map_map]
  congr 1
  apply List.map_congr_left
  intro c _
  exact lowerRune_toUpper c

theorem char_toLower_toLower (c : Char) : (c.toLower).toLower = c.toLower := by
  by_cases h : c.toNat ≥ 65 ∧ c.toNat ≤ 90
  · have hv : (c.toNat + 32).isValidChar := by
      left; omega
    have h1 : c.toLower = Char.ofNat (c.toNat + 32) := by
      simp only [Char.toLower, h, and_self, if_true]
    have h2 : (Char.ofNat (c.toNat + 32)).toNat = c.toNat + 32 := by
      simp only [Char.ofNat, hv, dite_true]
      rfl
    rw [h1]
    have h4 : ¬ ((Char.ofNat (c.toNat + 32)).toNat ≥ 65 ∧
        (Char.ofNat (c.toNat + 32)).toNat ≤ 90) := by
      rw [h2]; omega
    simp only [Char.toLower, h4, if_false]
  · have h1 : c.toLower = c := by
      simp only [Char.toLower, h, if_false]
    rw [h1, h1]

theorem lowerRune_toLower (c : Char) : lowerRune (Char.toLower c) = lowerRune c := by
  by_cases h : c.toNat ≥ 65 ∧ c.toNat ≤ 90
  · have hv : (c.toNat + 32).isValidChar := by
      left; omega
    have h1 : c.toLower = Char.ofNat (c.toNat + 32) := by
      simp only [Char.toLower, h, and_self, if_true]
    have h2 : (Char.ofNat (c.toNat + 32)).toNat = c.toNat + 32 := by
      simp only [Char.ofNat, hv, dite_true]
      rfl
    have h3 : c.toLower.toNat < 128 := by
      rw [h1, h2]; omega
    have h4 : c.toNat < 128 := by omega
    simp only [lowerRune, h3, h4, if_true]
    exact char_toLower_toLower c
  · have h1 : c.toLower = c := by
      simp only [Char.toLower, h, if_false]
    rw [h1]

theorem toLower_lowerASCII (s : String) : toLower (lowerASCII s) = toLower s := by
  simp only [toLower, lowerASCII, List.map_map]
  congr 1
  apply List.map_congr_left
  intro c _
  exact lowerRune_toLower c

theorem shouldIgnoreFile_eq_any (w : World) (fileName : String) :
    shouldIgnoreFile w fileName =
      (w.ignoredExtensions.map toLower).any (fun e => hasSuffix (toLower fileName) e) := by
  simp [shouldIgnoreFile, List.any_map, Function.comp_def]

/-- C12 (as amended): `shouldIgnoreFile` returns true exactly when the lower-cased
name (`strings.ToLower`) ends with the lower-cased form of some listed
extension; so its result is the same for two names, and for two extension
lists, that have the same lower-cased form, in particular when the ASCII letters
of the name or of the listed extensions are changed to upper case or to lower
case; and it is false when the list is empty. -/
theorem shouldIgnoreFile_case_insensitive (w : World) (fileName : String) :
    (shouldIgnoreFile w fileName = true ↔
        ∃ ext ∈ w.ignoredExtensions, (toLower ext).data <:+ (toLower fileName).data) ∧
      (∀ other : String, toLower other = toLower fileName →
        shouldIgnoreFile w other = shouldIgnoreFile w fileName) ∧
      (∀ w2 : World, w2.ignoredExtensions.map toLower = w.ignoredExtensions.map toLower →
        shouldIgnoreFile w2 fileName = shouldIgnoreFile w fileName) ∧
      shouldIgnoreFile w (upperASCII fileName) = shouldIgnoreFile w fileName ∧
      shouldIgnoreFile w (lowerASCII fileName) = shouldIgnoreFile w fileName ∧
      (∀ w2 : World, w2.ignoredExtensions = w.ignoredExtensions.map upperASCII ∨
          w2.ignoredExtensions = w.ignoredExtensions.map lowerASCII →
        shouldIgnoreFile w2 fileName = shouldIgnoreFile w fileName) ∧
      (w.ignoredExtensions = [] → shouldIgnoreFile w fileName = false) := by
  have hcase : ∀ other : String, toLower other = toLower fileName →
      shouldIgnoreFile w other = shouldIgnoreFile w fileName := by
    intro other h
    simp only [shouldIgnoreFile, h]
  have hlist : ∀ w2 : World,
      w2.ignoredExtensions.map toLower = w.ignoredExtensions.map toLower →
        shouldIgnoreFile w2 fileName = shouldIgnoreFile w fileName := by
    intro w2 h
    rw [shouldIgnoreFile_eq_any, shouldIgnoreFile_eq_any, h]
  refine ⟨?_, hcase, hlist, hcase _ (toLower_upperASCII _), hcase _ (toLower_lowerASCII _),
    ?_, ?_⟩
  · simp only [shouldIgnoreFile, List.any_eq_true, hasSuffix, List.isSuffixOf_iff_suffix]
  · intro w2 h
    apply hlist
    rcases h with h | h
    · rw [h, List.map_map]
      apply List.map_congr_left
      intro e _
      exact toLower_upperASCII e
    · rw [h, List.map_map]
      apply List.map_congr_left
      intro e _
      exact toLower_lowerASCII e
  · intro h
    simp [shouldIgnoreFile, h]

/-- Witness for C12: `B.THM` is ignored for the list `[".thm"]`, as `b.thm` is,
and also when the list is `[".THM"]`; `x.É` is ignored for the list `[".é"]`;
nothing is ignored for the empty list. -/
theorem shouldIgnoreFile_case_insensitive_witness :
    shouldIgnoreFile scenarioWorld "B.THM" = shouldIgnoreFile scenarioWorld "b.thm" ∧
      shouldIgnoreFile { scenarioWorld with ignoredExtensions := [".THM"] } "b.thm" =
        shouldIgnoreFile scenarioWorld "b.thm" ∧
      shouldIgnoreFile scenarioWorld "b.thm" = true ∧
      shouldIgnoreFile { scenarioWorld with ignoredExtensions := [".é"] } "x.É" = true ∧
      shouldIgnoreFile { scenarioWorld with ignoredExtensions := [] } "b.thm" = false :=
  ⟨(shouldIgnoreFile_case_insensitive scenarioWorld "b.thm").2.1 "B.THM" (by decide),
    (shouldIgnoreFile_case_insensitive scenarioWorld "b.thm").2.2.2.2.2.1
      { scenarioWorld with ignoredExtensions := [".THM"] } (Or.inl (by decide)),
    by decide,
    by decide,
    (shouldIgnoreFile_case_insensitive { scenarioWorld with ignoredExtensions := [] }
      "b.thm").2.2.2.2.2.2 rfl⟩

/-- Counterexample for C12: the lower-case name `setup.ını` (with the dotless
`ı` of Turkish) is not ignored for the list `[".ini"]`, but its upper-case form
`SETUP.INI` is; and the name `setup.ini` is not ignored for the list `[".ını"]`
but is ignored for the upper-case form `[".INI"]` of that list.  The lower-case
form of `I` is `i`, not `ı`. -/
theorem upper_casing_changes_ignore_result :
    toUpper "setup.ını" = "SETUP.INI" ∧
      shouldIgnoreFile iniWorld "setup.ını" = false ∧
      shouldIgnoreFile iniWorld "SETUP.INI" = true ∧
      toUpper ".ını" = ".INI" ∧
      shouldIgnoreFile { scenarioWorld with ignoredExtensions := [".ını"] } "setup.ini" = false ∧
      shouldIgnoreFile { scenarioWorld with ignoredExtensions := [".INI"] } "setup.ini" =
        true := by
  decide

/-! ## Fan-out with failing observers -/

theorem count_map_pair (message : String) (c : Nat) (xs : List Nat) :
    (xs.map (fun x => (x, message))).count (c, message) = xs.count c := by
  induction xs with
  | nil => rfl
  | cons x rest ih =>
    by_cases hx : x = c
    · subst hx; simp [List.count_cons, ih]
    · simp [List.count_cons, ih, hx]

/-- C13: one publish, with any set of attached observers (distinct, as keys of
the `clients` map) and any set of them failing on write: afterwards the
observer set is the old one without the failing observers, every attached
non-failing observer is still attached and has been written the line exactly
once, no failing observer has been written anything, every failing attached
observer has been closed, and the line is the last entry of the history. -/
theorem fanout_removes_only_failing (lr : LogReceiver) (message : String)
    (hn : lr.clients.Nodup) :
    (lr.publish message).clients = lr.clients.filter (fun c => decide (c ∉ lr.broken)) ∧
      (lr.publish message).received =
        lr.received ++ (lr.clients.filter (fun c => decide (c ∉ lr.broken))).map
          (fun c => (c, message)) ∧
      (∀ c ∈ lr.clients, c ∉ lr.broken →
        c ∈ (lr.publish message).clients ∧
          ((lr.publish message).received.drop lr.received.length).count (c, message) = 1) ∧
      (∀ c ∈ lr.clients, c ∈ lr.broken →
        c ∉ (lr.publish message).clients ∧ c ∈ (lr.publish message).closed ∧
          ∀ m, (c, m) ∉ (lr.publish message).received.drop lr.received.length) ∧
      (lr.publish message).logs =
        (if lr.logs.length = 20 then lr.logs.drop 1 else lr.logs) ++ [message] ∧
      (lr.publish message).logs.getLast? = some message := by
  obtain ⟨_, _, f3, f4, f5⟩ := fanOut_spec message lr.clients
    (LogReceiver.mk lr.clients ((if lr.logs.length = 20 then lr.logs.drop 1 else lr.logs) ++
      [message]) lr.broken lr.received lr.closed)
  have hpub : lr.publish message = LogReceiver.fanOut message lr.clients
    (LogReceiver.mk lr.clients ((if lr.logs.length = 20 then lr.logs.drop 1 else lr.logs) ++
      [message]) lr.broken lr.received lr.closed) := rfl
  have hclients : (lr.publish message).clients =
      lr.clients.filter (fun c => decide (c ∉ lr.broken)) := by
    rw [hpub, f3]
    apply List.filter_congr
    intro x hx
    simp [hx]
  have hrecv : (lr.publish message).received =
      lr.received ++ (lr.clients.filter (fun c => decide (c ∉ lr.broken))).map
        (fun c => (c, message)) := by
    rw [hpub, f4]
  have hlogs := publish_logs lr message
  refine ⟨hclients, hrecv, ?_, ?_, hlogs, ?_⟩
  · intro c hc hb
    refine ⟨by rw [hclients, List.mem_filter]; exact ⟨hc, by simpa using hb⟩, ?_⟩
    rw [hrecv, List.drop_left, count_map_pair, List.count_filter (by simpa using hb)]
    exact List.count_eq_one_of_mem hn hc
  · intro c hc hb
    refine ⟨?_, ?_, ?_⟩
    · rw [hclients, List.mem_filter]
      intro h
      exact (by simpa using h.2 : c ∉ lr.broken) hb
    · rw [hpub, f5]
      apply List.mem_append_right
      rw [List.mem_filter]
      exact ⟨hc, by simpa using hb⟩
    · intro m hm
      rw [hrecv, List.drop_left, List.mem_map] at hm
      obtain ⟨x, hx, hxm⟩ := hm
      have hxc : x = c := (Prod.mk.injEq _ _ _ _ ▸ hxm).1
      subst hxc
      exact (by simpa using (List.mem_filter.mp hx).2 : x ∉ lr.broken) hb
  · rw [hlogs, List.getLast?_append]
    rfl

/-- Witness for C13: of the observers 1, 2 and 3, writes to 2 fail. -/
theorem fanout_removes_only_failing_witness :
    (threeObservers.publish "line 02").clients = [1, 3] ∧
      (threeObservers.publish "line 02").received = [(1, "line 02"), (3, "line 02")] ∧
      (threeObservers.publish "line 02").logs = ["line 01", "line 02"] :=
  have h := fanout_removes_only_failing threeObservers "line 02" (by decide)
  ⟨h.1.trans (by decide), h.2.1.trans (by decide), h.2.2.2.2.1.trans (by decide)⟩

/-! ## The configuration snapshot -/

/-- The three ways a call of `loadConfig` ends: an error from opening or
decoding the file with the snapshot untouched; an error from the time zone
with the three other variables already those of the new configuration and
`timezone` nil; or no error with all four variables new. -/
theorem loadConfig_outcomes (host : ConfigHost) (s : Snapshot) (filePath : String) :
    ((loadConfig host s filePath).2.isSome = true ∧ (loadConfig host s filePath).1 = s) ∨
      (∃ config, host.files.lookup filePath = some (some config) ∧
        host.loadLocation config.Timezone = none ∧
        (loadConfig host s filePath).2.isSome = true ∧
        (loadConfig host s filePath).1 =
          ⟨config.SDCardMappings, config.IgnoredExtensions, none, config.DestinationConfig⟩) ∨
      (∃ config location, host.files.lookup filePath = some (some config) ∧
        host.loadLocation config.Timezone = some location ∧
        (loadConfig host s filePath).2 = none ∧
        (loadConfig host s filePath).1 =
          ⟨config.SDCardMappings, config.IgnoredExtensions, some location,
            config.DestinationConfig⟩) := by
  unfold loadConfig
  cases hf : host.files.lookup filePath with
  | none => exact Or.inl ⟨rfl, rfl⟩
  | some content =>
    cases content with
    | none => exact Or.inl ⟨rfl, rfl⟩
    | some config =>
      dsimp only
      cases hz : host.loadLocation config.Timezone with
      | none => exact Or.inr (Or.inl ⟨config, rfl, hz, rfl, rfl⟩)
      | some location => exact Or.inr (Or.inr ⟨config, location, rfl, hz, rfl, rfl⟩)

/-- C14 (evaluation at a failing input): a reload with a configuration whose
time zone is unknown passes the checks of `UpdateConfig`, is written to
`config.json`, and `loadConfig` returns an error (status 500); yet the snapshot
afterwards has the mappings, ignored extensions and destination of the new
configuration and a nil `timezone`: neither the old snapshot nor the new
one. -/
theorem reload_with_unknown_zone_mixes_snapshot :
    (UpdateConfig configHost oldSnapshot badZoneConfig).2.2 = 500 ∧
      (loadConfig (UpdateConfig configHost oldSnapshot badZoneConfig).1 oldSnapshot
        "config.json").2 = some ⟨"failed to load timezone: %v", []⟩ ∧
      (UpdateConfig configHost oldSnapshot badZoneConfig).2.1 =
        { sdCardMappings := badZoneConfig.SDCardMappings,
          ignoredExtensions := badZoneConfig.IgnoredExtensions,
          timezone := none,
          destinationConfig := badZoneConfig.DestinationConfig } ∧
      (UpdateConfig configHost oldSnapshot badZoneConfig).2.1 ≠ oldSnapshot := by
  decide

/-! ## The destination file name -/

theorem toLower_append (a b : String) : toLower (a ++ b) = toLower a ++ toLower b := by
  apply String.ext
  simp [toLower, String.data_append]

theorem hasSuffix_append (a b : String) : hasSuffix (a ++ b) b = true := by
  simp only [hasSuffix, List.isSuffixOf_iff_suffix, String.data_append]
  exact List.suffix_append _ _

theorem trimSuffix_append (a b : String) : trimSuffix (a ++ b) b = a := by
  unfold trimSuffix
  rw [if_pos (hasSuffix_append a b)]
  apply String.ext
  simp [String.data_append]

/-- What `copyFiles` computes as destination name: a name ending in `.insv`
written in lower case gets `.mp4` in its place, and a name that does not end in
`.insv` in any letter case is kept. -/
theorem destinationFileName_spec (base fileName : String) :
    destinationFileName (base ++ ".insv") = base ++ ".mp4" ∧
      (hasSuffix (toLower fileName) ".insv" = false →
        destinationFileName fileName = fileName) := by
  constructor
  · unfold destinationFileName
    have h : hasSuffix (toLower (base ++ ".insv")) ".insv" = true := by
      rw [toLower_append]
      exact hasSuffix_append (toLower base) ".insv"
    rw [if_pos h, trimSuffix_append]
  · intro h
    unfold destinationFileName
    rw [if_neg (by simp [h])]

/-- C15 (evaluation at a failing input): for the clip `C.INSV` the test for the
extension, made on the lower-cased name, succeeds, but `strings.TrimSuffix`
with `.insv` removes nothing from `C.INSV`: the destination name is
`C.INSV.mp4`, not `C.mp4`, and that is the name `copyFiles` copies to. -/
theorem upper_case_insv_keeps_extension :
    hasSuffix (toLower "C.INSV") ".insv" = true ∧
      destinationFileName "C.INSV" = "C.INSV.mp4" ∧
      destinationFileName "C.INSV" ≠ "C.mp4" ∧
      destinationFileName "c.insv" = "c.mp4" ∧
      execsOf "cp" (copyFiles upperInsvWorld card1).1.trace =
        [["cp", "/media/videoserver/CARD1/DCIM/C.INSV", "/archive/trip1/C.INSV.mp4"]] := by
  decide

/-! ## Verification with unlistable source directories -/

end VideoProcessor
